import Mathlib

/-!
Shallow embedding of the virtual structure service of hetida designer
(catalog model and validator, persistence upserts, hierarchy sorter,
structure service queries, wiring resolver, maintenance endpoint) and
proofs about it.  Python dicts are modelled as insertion-ordered
association lists, UUIDs and enum values as strings, database tables as
lists of row records.
-/

set_option maxHeartbeats 1000000

namespace Hetdes

/-! ## Python dict primitives -/

/-- Python `d[k] = v`: update the value in place at the first occurrence of
the key, keeping its position, else append the pair at the end. -/
def dictInsert {ν : Type} : List (String × ν) → String → ν → List (String × ν)
  | [], k, v => [(k, v)]
  | (k0, v0) :: rest, k, v =>
    if k0 = k then (k0, v) :: rest else (k0, v0) :: dictInsert rest k v

/-- Python `d[k]` / `d.get(k)`: first (and in a dict, only) value at the key. -/
def dictFind? {ν : Type} : List (String × ν) → String → Option ν
  | [], _ => none
  | (k0, v0) :: rest, k => if k0 = k then some v0 else dictFind? rest k

/-- Keys of the association list, in order. -/
def dictKeys {ν : Type} (m : List (String × ν)) : List String := m.map Prod.fst

/-- Values of the association list, in order (Python `d.values()`). -/
def dictValues {ν : Type} (m : List (String × ν)) : List ν := m.map Prod.snd

/-- Python `a | b` on dicts: start from `a`, then write every entry of `b`
over it, so values of `b` win on key collision and new keys of `b` are
appended in their order. -/
def dictUnion {ν : Type} (a b : List (String × ν)) : List (String × ν) :=
  b.foldl (fun acc kv => dictInsert acc kv.1 kv.2) a

/-- Dicts keyed by a pair of strings (`(stakeholder_key, external_id)`). -/
def dict2Insert {ν : Type} : List ((String × String) × ν) → String × String → ν →
    List ((String × String) × ν)
  | [], k, v => [(k, v)]
  | (k0, v0) :: rest, k, v =>
    if k0 = k then (k0, v) :: rest else (k0, v0) :: dict2Insert rest k v

def dict2Find? {ν : Type} : List ((String × String) × ν) → String × String → Option ν
  | [], _ => none
  | (k0, v0) :: rest, k => if k0 = k then some v0 else dict2Find? rest k

/-- `zip(a, b, strict=True)`: the zipped list when the lengths agree,
`none` (a `ValueError` in Python) otherwise. -/
def zipStrict {α β : Type} : List α → List β → Option (List (α × β))
  | [], [] => some []
  | a :: as, b :: bs => (zipStrict as bs).map (fun r => (a, b) :: r)
  | [], _ :: _ => none
  | _ :: _, [] => none

/-- Replace the element at index `i` by `f` applied to it; out-of-range
indices leave the list unchanged (the resolver only uses in-range
indices obtained from `enumerate`). -/
def modifyAt {α : Type} (f : α → α) : List α → Nat → List α
  | [], _ => []
  | a :: as, 0 => f a :: as
  | a :: as, i + 1 => a :: modifyAt f as i

/-- Decidable equality of `Except` results, used to evaluate the model
on concrete inputs. -/
instance {ε α : Type} [DecidableEq ε] [DecidableEq α] : DecidableEq (Except ε α) := by
  intro a b
  cases a <;> cases b
  case error.error e1 e2 =>
    exact match decEq e1 e2 with
      | isTrue h => isTrue (by rw [h])
      | isFalse h => isFalse (fun he => h (Except.error.inj he))
  case ok.ok a1 a2 =>
    exact match decEq a1 a2 with
      | isTrue h => isTrue (by rw [h])
      | isFalse h => isFalse (fun he => h (Except.ok.inj he))
  case error.ok e1 a2 => exact isFalse (fun he => Except.noConfusion he)
  case ok.error a1 e2 => exact isFalse (fun he => Except.noConfusion he)

/-! ## Data model (`hetdesrun/structure/models.py`) -/

/-- `Filter`: declaration of a runtime-settable parameter.  `type` is the
closed `FilterType` enum (only value `free_text`), kept as a string. -/
structure SFilter where
  name : String
  internal_name : String
  type : String
  required : Bool
  deriving DecidableEq, Repr, Inhabited

/-- `StructureServiceElementType` (pydantic model).  The recursive
`thing_nodes` relationship field is omitted: `upsert_element_types`
strips it before building the row dicts and nothing else reads it. -/
structure StructureServiceElementType where
  id : String
  external_id : String
  stakeholder_key : String
  name : String
  description : Option String
  deriving DecidableEq, Repr, Inhabited

/-- `StructureServiceThingNode` (pydantic model).  `meta_data` is an
opaque JSON map modelled as a string association list. -/
structure StructureServiceThingNode where
  id : String
  external_id : String
  stakeholder_key : String
  name : String
  description : String
  parent_node_id : Option String
  parent_external_node_id : Option String
  element_type_id : String
  element_type_external_id : String
  meta_data : Option (List (String × String))
  deriving DecidableEq, Repr, Inhabited

/-- `StructureServiceSource` (pydantic model).  `type` is the
`ExternalType` wire-format enum kept as its string value. -/
structure StructureServiceSource where
  id : String
  external_id : String
  stakeholder_key : String
  name : String
  type : String
  visible : Bool
  display_path : String
  preset_filters : List (String × String)
  passthrough_filters : Option (List SFilter)
  adapter_key : String
  source_id : String
  ref_key : Option String
  ref_id : String
  meta_data : Option (List (String × String))
  thing_node_external_ids : Option (List String)
  deriving DecidableEq, Repr, Inhabited

/-- `StructureServiceSink` (pydantic model), mirror of the source with
`sink_id` instead of `source_id`. -/
structure StructureServiceSink where
  id : String
  external_id : String
  stakeholder_key : String
  name : String
  type : String
  visible : Bool
  display_path : String
  preset_filters : List (String × String)
  passthrough_filters : Option (List SFilter)
  adapter_key : String
  sink_id : String
  ref_key : Option String
  ref_id : String
  meta_data : Option (List (String × String))
  thing_node_external_ids : Option (List String)
  deriving DecidableEq, Repr, Inhabited

/-- `CompleteStructure` (the whole authored document). -/
structure CompleteStructure where
  element_types : List StructureServiceElementType
  thing_nodes : List StructureServiceThingNode
  sources : List StructureServiceSource
  sinks : List StructureServiceSink
  deriving DecidableEq, Repr, Inhabited

/-! ## Database rows (`hetdesrun/persistence/structure_service_dbmodels.py`)

One record per ORM model.  The two many-to-many association tables are
carried as the `thing_nodes` relationship list on each source and sink
row (the list of linked thing-node ids), which is exactly what the
upsert code writes and the `get_children` join reads. -/

structure ElementTypeRow where
  id : String
  external_id : String
  stakeholder_key : String
  name : String
  description : Option String
  deriving DecidableEq, Repr, Inhabited

structure ThingNodeRow where
  id : String
  external_id : String
  stakeholder_key : String
  name : String
  description : String
  parent_node_id : Option String
  parent_external_node_id : Option String
  element_type_id : String
  element_type_external_id : String
  meta_data : Option (List (String × String))
  deriving DecidableEq, Repr, Inhabited

structure SourceRow where
  id : String
  external_id : String
  stakeholder_key : String
  name : String
  type : String
  visible : Bool
  display_path : String
  adapter_key : String
  source_id : String
  ref_key : Option String
  ref_id : String
  meta_data : Option (List (String × String))
  preset_filters : List (String × String)
  passthrough_filters : Option (List SFilter)
  thing_node_external_ids : Option (List String)
  thing_nodes : List String
  deriving DecidableEq, Repr, Inhabited

structure SinkRow where
  id : String
  external_id : String
  stakeholder_key : String
  name : String
  type : String
  visible : Bool
  display_path : String
  adapter_key : String
  sink_id : String
  ref_key : Option String
  ref_id : String
  meta_data : Option (List (String × String))
  preset_filters : List (String × String)
  passthrough_filters : Option (List SFilter)
  thing_node_external_ids : Option (List String)
  thing_nodes : List String
  deriving DecidableEq, Repr, Inhabited

/-- The relational store: the four entity tables (the associations live
on the source and sink rows, see above). -/
structure DBState where
  element_types : List ElementTypeRow
  thing_nodes : List ThingNodeRow
  sources : List SourceRow
  sinks : List SinkRow
  deriving DecidableEq, Repr, Inhabited

/-- `StructureServiceThingNode.from_orm_model`. -/
def StructureServiceThingNode.from_orm_model (r : ThingNodeRow) : StructureServiceThingNode :=
  { id := r.id, external_id := r.external_id, stakeholder_key := r.stakeholder_key
    name := r.name, description := r.description, parent_node_id := r.parent_node_id
    parent_external_node_id := r.parent_external_node_id
    element_type_id := r.element_type_id
    element_type_external_id := r.element_type_external_id, meta_data := r.meta_data }

/-- `StructureServiceSource.from_orm_model`. -/
def StructureServiceSource.from_orm_model (r : SourceRow) : StructureServiceSource :=
  { id := r.id, external_id := r.external_id, stakeholder_key := r.stakeholder_key
    name := r.name, type := r.type, visible := r.visible, display_path := r.display_path
    preset_filters := r.preset_filters, passthrough_filters := r.passthrough_filters
    adapter_key := r.adapter_key, source_id := r.source_id, ref_key := r.ref_key
    ref_id := r.ref_id, meta_data := r.meta_data
    thing_node_external_ids := r.thing_node_external_ids }

/-- `StructureServiceSink.from_orm_model`. -/
def StructureServiceSink.from_orm_model (r : SinkRow) : StructureServiceSink :=
  { id := r.id, external_id := r.external_id, stakeholder_key := r.stakeholder_key
    name := r.name, type := r.type, visible := r.visible, display_path := r.display_path
    preset_filters := r.preset_filters, passthrough_filters := r.passthrough_filters
    adapter_key := r.adapter_key, sink_id := r.sink_id, ref_key := r.ref_key
    ref_id := r.ref_id, meta_data := r.meta_data
    thing_node_external_ids := r.thing_node_external_ids }

/-! ## Error kinds -/

/-- Database-layer error kinds (`hetdesrun/structure/db/exceptions.py`). -/
inductive DBErr where
  | notFound (msg : String)
  | integrity (msg : String)
  | updateErr (msg : String)
  | other (msg : String)
  deriving DecidableEq, Repr, Inhabited

/-! ## Source and sink fetch service
(`hetdesrun/structure/db/source_sink_service.py`) -/

/-- `itertools.batched(l, n)`: split `l` into chunks of length `n`
(last chunk may be shorter).  Structured by fuel; the caller passes
`l.length` which is always sufficient for `n ≥ 1`. -/
def batchedChunks {α : Type} (n : Nat) : List α → Nat → List (List α)
  | [], _ => []
  | _ :: _, 0 => []
  | l, fuel + 1 => l.take n :: batchedChunks n (l.drop n) fuel

/-- `fetch_collection_of_sources_from_db_by_id`: batched `IN`-list
lookup building a dict keyed by the internal id; raises `DBNotFoundError`
only when the final dict is empty.  The batch count `n` is
`ceil(len(src_ids) / batch_size)` with `batch_size = 500`, exactly as in
the source (`batched(src_ids, ceil(len(src_ids) / batch_size))`). -/
def fetch_collection_of_sources_from_db_by_id (dbSources : List SourceRow)
    (src_ids : List String) : Except DBErr (List (String × StructureServiceSource)) :=
  if src_ids.isEmpty then .ok []
  else
    let n := (src_ids.length + 499) / 500
    let m := (batchedChunks n src_ids src_ids.length).foldl
      (fun acc batch =>
        (dbSources.filter (fun s => batch.contains s.id)).foldl
          (fun acc2 s => dictInsert acc2 s.id (StructureServiceSource.from_orm_model s)) acc)
      []
    if m.isEmpty then .error (.notFound "No StructureServiceSources found for IDs")
    else .ok m

/-- `fetch_collection_of_sinks_from_db_by_id`, mirror of the source
variant. -/
def fetch_collection_of_sinks_from_db_by_id (dbSinks : List SinkRow)
    (sink_ids : List String) : Except DBErr (List (String × StructureServiceSink)) :=
  if sink_ids.isEmpty then .ok []
  else
    let n := (sink_ids.length + 499) / 500
    let m := (batchedChunks n sink_ids sink_ids.length).foldl
      (fun acc batch =>
        (dbSinks.filter (fun s => batch.contains s.id)).foldl
          (fun acc2 s => dictInsert acc2 s.id (StructureServiceSink.from_orm_model s)) acc)
      []
    if m.isEmpty then .error (.notFound "No StructureServiceSinks found for IDs")
    else .ok m

/-! ## Wiring resolver
(`hetdesrun/adapters/virtual_structure_adapter/resolve_wirings.py` and
`utils.py`) -/

/-- Modelled from the spec: `RefIdType` of `hetdesrun/models/adapter_data.py`
is not under `src/`; the resolver only ever assigns `THINGNODE`. -/
inductive RefIdType where
  | THINGNODE
  | SOURCE
  | SINK
  deriving DecidableEq, Repr, Inhabited

/-- Modelled from the spec: the `InputWiring` / `OutputWiring` records of
`hetdesrun/models/wiring.py` are not under `src/`.  Per spec section 4.7 a
wiring carries `adapter_id`, `ref_id`, `type`, `filters` and optionally
`ref_key`, `ref_id_type`, plus its workflow io name.  One record models
both input and output wirings (the resolver treats them uniformly). -/
structure Wiring where
  workflow_io_name : String
  adapter_id : String
  ref_id : String
  ref_id_type : Option RefIdType
  ref_key : Option String
  type : String
  filters : List (String × String)
  deriving DecidableEq, Repr, Inhabited

/-- Modelled from the spec: `WorkflowWiring` is a pair of lists of input
and output wirings. -/
structure WorkflowWiring where
  input_wirings : List Wiring
  output_wirings : List Wiring
  deriving DecidableEq, Repr, Inhabited

/-- The one referenced structure-service entry handed to
`update_wirings`: a source for an input wiring, a sink for an output
wiring (Python passes either model; the `isinstance` check picks the
id field). -/
inductive SourceOrSink where
  | src (s : StructureServiceSource)
  | sink (s : StructureServiceSink)
  deriving DecidableEq, Repr, Inhabited

def SourceOrSink.adapter_key : SourceOrSink → String
  | .src s => s.adapter_key
  | .sink s => s.adapter_key

def SourceOrSink.ref_id : SourceOrSink → String
  | .src s => s.ref_id
  | .sink s => s.ref_id

def SourceOrSink.ref_key : SourceOrSink → Option String
  | .src s => s.ref_key
  | .sink s => s.ref_key

def SourceOrSink.preset_filters : SourceOrSink → List (String × String)
  | .src s => s.preset_filters
  | .sink s => s.preset_filters

/-- `update_wirings`: replace the virtual-structure info of one wiring
with that of its referenced source or sink. -/
def update_wirings (w : Wiring) (source_or_sink : SourceOrSink) : Wiring :=
  let w1 := { w with adapter_id := source_or_sink.adapter_key }
  let w2 :=
    if w1.type = "metadata(any)" then
      { w1 with ref_id := source_or_sink.ref_id
                ref_key := source_or_sink.ref_key
                ref_id_type := some RefIdType.THINGNODE }
    else
      { w1 with ref_id :=
          match source_or_sink with
          | .src s => s.source_id
          | .sink s => s.sink_id }
  { w2 with filters := dictUnion w2.filters source_or_sink.preset_filters }

/-- `get_enumerated_ids_of_vst_sources_or_sinks`: indices and `ref_id`s of
the wirings whose `adapter_id` is the virtual structure adapter. -/
def get_enumerated_ids_of_vst_sources_or_sinks (wirings : List Wiring) :
    List Nat × List String :=
  (wirings.enum.filter (fun iw => iw.2.adapter_id = "virtual-structure-adapter")).foldr
    (fun iw acc => (iw.1 :: acc.1, iw.2.ref_id :: acc.2)) ([], [])

/-- Error outcomes of `resolve_virtual_structure_wirings`:
`adapterHandling` is the raised `AdapterHandlingException`, `valueError`
the uncaught `ValueError` a `zip(..., strict=True)` length mismatch
raises. -/
inductive ResolveErr where
  | adapterHandling (msg : String)
  | valueError (msg : String)
  | dbError (e : DBErr)
  deriving DecidableEq, Repr, Inhabited

/-- The fixed prefix of the `AdapterHandlingException` message raised on
a `DBNotFoundError` during wiring resolution. -/
def atleastMsg : String :=
  "Atleast one source or sink referenced in the wirings was not found"

/-- `resolve_virtual_structure_wirings`: rewrite every wiring referencing
the virtual structure adapter in place.  Python mutates the
`WorkflowWiring`; the model returns the post-mutation value, or the
raised error. -/
def resolve_virtual_structure_wirings (db : DBState) (workflow_wiring : WorkflowWiring) :
    Except ResolveErr WorkflowWiring :=
  let inEnum := get_enumerated_ids_of_vst_sources_or_sinks workflow_wiring.input_wirings
  let outEnum := get_enumerated_ids_of_vst_sources_or_sinks workflow_wiring.output_wirings
  if inEnum.2.isEmpty ∧ outEnum.2.isEmpty then .ok workflow_wiring
  else
    match fetch_collection_of_sources_from_db_by_id db.sources inEnum.2 with
    | .error (.notFound e) =>
        .error (.adapterHandling (atleastMsg ++
          " in the structure service database, during the wiring resolution: " ++ e))
    | .error e => .error (.dbError e)
    | .ok virtual_sources =>
      match fetch_collection_of_sinks_from_db_by_id db.sinks outEnum.2 with
      | .error (.notFound e) =>
          .error (.adapterHandling (atleastMsg ++
            " in the structure service database, during the wiring resolution: " ++ e))
      | .error e => .error (.dbError e)
      | .ok virtual_sinks =>
        match zipStrict inEnum.1 (dictValues virtual_sources) with
        | none => .error (.valueError "zip() arguments of unequal length")
        | some inPairs =>
          match zipStrict outEnum.1 (dictValues virtual_sinks) with
          | none => .error (.valueError "zip() arguments of unequal length")
          | some outPairs =>
            let inputs := inPairs.foldl
              (fun ws p => modifyAt (fun w => update_wirings w (.src p.2)) ws p.1)
              workflow_wiring.input_wirings
            let outputs := outPairs.foldl
              (fun ws p => modifyAt (fun w => update_wirings w (.sink p.2)) ws p.1)
              workflow_wiring.output_wirings
            .ok { input_wirings := inputs, output_wirings := outputs }

/-! ## Hierarchy sorter
(`set_parent_ids` and `sort_thing_nodes` of
`hetdesrun/structure/db/structure_service.py`) -/

/-- The in-memory map `{(tn.stakeholder_key, tn.external_id): tn}` built
by `set_parent_ids`; on duplicate keys the last node wins, as in a
Python dict comprehension. -/
def thingNodeMap (thing_nodes : List StructureServiceThingNode) :
    List ((String × String) × StructureServiceThingNode) :=
  thing_nodes.foldl (fun m tn => dict2Insert m (tn.stakeholder_key, tn.external_id) tn) []

/-- Python truthiness of `tn.parent_external_node_id`: `None` and the
empty string both count as "no parent" in `if tn.parent_external_node_id:`. -/
def truthyParentExt (tn : StructureServiceThingNode) : Option String :=
  match tn.parent_external_node_id with
  | some pe => if pe = "" then none else some pe
  | none => none

/-- The node a thing node's parent reference resolves to within the
document, if any (`thing_node_map.get(parent_key)`). -/
def resolvedParent (m : List ((String × String) × StructureServiceThingNode))
    (tn : StructureServiceThingNode) : Option StructureServiceThingNode :=
  (truthyParentExt tn).bind (fun pe => dict2Find? m (tn.stakeholder_key, pe))

/-- The in-place mutation of `set_parent_ids` on one node:
`tn.parent_node_id = parent_tn.id` whenever the parent reference
resolves. -/
def set_parent_ids_update (m : List ((String × String) × StructureServiceThingNode))
    (tn : StructureServiceThingNode) : StructureServiceThingNode :=
  match resolvedParent m tn with
  | some parent => { tn with parent_node_id := some parent.id }
  | none => tn

/-- The whole node list after the side effect of `set_parent_ids` (order
preserved; only `parent_node_id` fields change). -/
def setParentIdsList (thing_nodes : List StructureServiceThingNode) :
    List StructureServiceThingNode :=
  let m := thingNodeMap thing_nodes
  thing_nodes.map (set_parent_ids_update m)

/-- `children_by_node_id[pid]`: the children collected under the parent
with internal id `pid`, in input order, as the mutated node objects. -/
def children_by_node_id (m : List ((String × String) × StructureServiceThingNode))
    (thing_nodes : List StructureServiceThingNode) (pid : String) :
    List StructureServiceThingNode :=
  (thing_nodes.filter
      (fun tn => (resolvedParent m tn).map (fun p => p.id) = some pid)).map
    (set_parent_ids_update m)

/-- Python's lexicographic string comparison, code point by code point
(the order `sorted` uses on string keys), on the character lists. -/
def charListLeb : List Char → List Char → Bool
  | [], _ => true
  | _ :: _, [] => false
  | a :: as, b :: bs =>
    if a.toNat < b.toNat then true
    else if b.toNat < a.toNat then false
    else charListLeb as bs

/-- The induced `≤` on strings. -/
def strLe (a b : String) : Prop := charListLeb a.data b.data = true

instance (a b : String) : Decidable (strLe a b) := by
  unfold strLe
  infer_instance

/-- `sorted(children, key=lambda x: x.external_id)`: Python sorted is
stable ascending by the lexicographic string order; insertion sort is
the stable counterpart here. -/
def sortChildrenByExternalId (l : List StructureServiceThingNode) :
    List StructureServiceThingNode :=
  l.insertionSort (fun a b => strLe a.external_id b.external_id)

/-- The BFS of `sort_thing_nodes`, one output list per level: pop the
current level, emit it, and queue the per-parent sorted children.  The
fuel argument models the `while queue` loop; `sort_thing_nodes` passes
`thing_nodes.length + 1`, enough for any forest-shaped input. -/
def bfsLevels (childFn : String → List StructureServiceThingNode) :
    List StructureServiceThingNode → Nat → List (List StructureServiceThingNode)
  | [], _ => []
  | _ :: _, 0 => []
  | cur, fuel + 1 =>
    cur :: bfsLevels childFn (cur.flatMap (fun n => sortChildrenByExternalId (childFn n.id))) fuel

/-- The per-level output of `sort_thing_nodes` (the
`sorted_nodes_by_level` dict read off in level order). -/
def sort_thing_nodes_levels (thing_nodes : List StructureServiceThingNode) :
    List (List StructureServiceThingNode) :=
  let m := thingNodeMap thing_nodes
  let updated := thing_nodes.map (set_parent_ids_update m)
  let root_nodes := updated.filter (fun tn => tn.parent_external_node_id = none)
  bfsLevels (fun pid => children_by_node_id m thing_nodes pid) root_nodes
    (thing_nodes.length + 1)

/-- `sort_thing_nodes`: the flattened level-by-level list (orphan nodes
never enter any level). -/
def sort_thing_nodes (thing_nodes : List StructureServiceThingNode) :
    List StructureServiceThingNode :=
  (sort_thing_nodes_levels thing_nodes).flatten

/-! ## Document validators (`CompleteStructure` root validators of
`hetdesrun/structure/models.py`)

Pydantic v1 runs every post root validator even when an earlier one
failed (no break in `validate_model`; the validators here all have
`skip_on_failure=False`), collecting one error message per failing
validator into the single raised `ValidationError`.  A `TypeError`
raised inside a validator is collected the same way. -/

/-- `validate_root_nodes_parent_ids_are_none`: every non-`None` parent
reference must name an existing thing node `external_id`. -/
def validate_root_nodes_parent_ids_are_none
    (thing_nodes : List StructureServiceThingNode) : Except String Unit :=
  let external_ids := thing_nodes.map (fun node => node.external_id)
  thing_nodes.foldlM
    (fun _ node =>
      match node.parent_external_node_id with
      | some pe =>
        if pe ∈ external_ids then .ok ()
        else .error ("Root node " ++ node.name ++ " has an invalid parent_external_node_id "
          ++ pe ++ " that does not reference any existing StructureServiceThingNode.")
      | none => .ok ())
    ()

/-- First `(stakeholder_key, external_id)` pair occurring twice in a
list, scanning left to right with a seen-set, as the validator does. -/
def firstDuplicateKeyPair {α : Type} (key : α → String × String) :
    List α → List (String × String) → Option (String × String)
  | [], _ => none
  | x :: rest, seen =>
    if key x ∈ seen then some (key x) else firstDuplicateKeyPair key rest (key x :: seen)

/-- `check_for_duplicate_key_and_id_pairs` over the four entity lists in
field order. -/
def check_for_duplicate_key_and_id_pairs (cs : CompleteStructure) : Except String Unit :=
  match firstDuplicateKeyPair
      (fun (et : StructureServiceElementType) => (et.stakeholder_key, et.external_id))
      cs.element_types [] with
  | some _ => .error "The stakeholder key and external id pair exists at least twice in the element_types list. Each key-id pair must be unique within its list!"
  | none =>
  match firstDuplicateKeyPair
      (fun (tn : StructureServiceThingNode) => (tn.stakeholder_key, tn.external_id))
      cs.thing_nodes [] with
  | some _ => .error "The stakeholder key and external id pair exists at least twice in the thing_nodes list. Each key-id pair must be unique within its list!"
  | none =>
  match firstDuplicateKeyPair
      (fun (s : StructureServiceSource) => (s.stakeholder_key, s.external_id))
      cs.sources [] with
  | some _ => .error "The stakeholder key and external id pair exists at least twice in the sources list. Each key-id pair must be unique within its list!"
  | none =>
  match firstDuplicateKeyPair
      (fun (s : StructureServiceSink) => (s.stakeholder_key, s.external_id))
      cs.sinks [] with
  | some _ => .error "The stakeholder key and external id pair exists at least twice in the sinks list. Each key-id pair must be unique within its list!"
  | none => .ok ()

/-- First duplicated entry of a string list, scanning with a seen-set. -/
def firstDuplicateString : List String → List String → Option String
  | [], _ => none
  | x :: rest, seen =>
    if x ∈ seen then some x else firstDuplicateString rest (x :: seen)

/-- `check_for_duplicate_ids_in_thing_node_external_ids` for sources and
sinks.  Iterating a `None` value raises a `TypeError` in Python, which
pydantic collects as a validation error like any other. -/
def check_for_duplicate_ids_in_thing_node_external_ids (cs : CompleteStructure) :
    Except String Unit := do
  _ ← cs.sources.foldlM
    (fun _ (s : StructureServiceSource) =>
      match s.thing_node_external_ids with
      | none => Except.error "TypeError: NoneType object is not iterable"
      | some ids =>
        match firstDuplicateString ids [] with
        | some d => Except.error ("The thing_node_external_ids attribute of the element with id "
            ++ s.external_id ++ " contains at least the duplicate id " ++ d)
        | none => Except.ok ())
    ()
  cs.sinks.foldlM
    (fun _ (s : StructureServiceSink) =>
      match s.thing_node_external_ids with
      | none => Except.error "TypeError: NoneType object is not iterable"
      | some ids =>
        match firstDuplicateString ids [] with
        | some d => Except.error ("The thing_node_external_ids attribute of the element with id "
            ++ s.external_id ++ " contains at least the duplicate id " ++ d)
        | none => Except.ok ())
    ()

/-- The stack-based DFS of `check_stakeholder_key_consistency` from one
root.  The stack top is the list head; `stack.extend(children)` makes
the last child the next popped, hence the reversed prepend.  Fuel models
the `while stack` loop and is passed amply by the caller. -/
def stakeholderDFS (thing_nodes : List StructureServiceThingNode) (expected : String) :
    Nat → List StructureServiceThingNode → List String → Except String Unit
  | 0, _, _ => .ok ()
  | _ + 1, [], _ => .ok ()
  | fuel + 1, current :: stackRest, visited =>
    if current.external_id ∈ visited then
      stakeholderDFS thing_nodes expected fuel stackRest visited
    else if current.stakeholder_key ≠ expected then
      .error ("Inconsistent stakeholder_key at node " ++ current.external_id)
    else
      let child_nodes := thing_nodes.filter
        (fun node => node.parent_external_node_id = some current.external_id)
      stakeholderDFS thing_nodes expected fuel (child_nodes.reverse ++ stackRest)
        (current.external_id :: visited)

/-- `check_stakeholder_key_consistency`: every node reachable from a root
shares the root's stakeholder key. -/
def check_stakeholder_key_consistency (cs : CompleteStructure) : Except String Unit :=
  let thing_nodes := cs.thing_nodes
  let root_nodes := thing_nodes.filter (fun node => node.parent_external_node_id = none)
  root_nodes.foldlM
    (fun _ root_node =>
      stakeholderDFS thing_nodes root_node.stakeholder_key
        ((thing_nodes.length + 1) * (thing_nodes.length + 1)) [root_node] [])
    ()

/-- The map `{node.external_id: node}` of `check_for_circular_reference`
(last node wins on duplicate external ids, as in a dict comprehension). -/
def nodesByExternalId (thing_nodes : List StructureServiceThingNode) :
    List (String × StructureServiceThingNode) :=
  thing_nodes.foldl (fun m node => dictInsert m node.external_id node) []

/-- The recursive `visit` of `check_for_circular_reference`: walk up the
parent chain keeping the current path as the visited set (Python removes
the id again after the recursive call, so `visited` holds exactly the
path).  `if parent_external_id and parent_external_id in
nodes_by_external_id` treats `None` and the empty string as "no
parent".  Fuel models the recursion; one step per chain link, and the
caller passes `thing_nodes.length + 1`, enough because a longer chain
necessarily revisits the path and errors out first. -/
def visitParentChain (m : List (String × StructureServiceThingNode)) :
    Nat → List String → StructureServiceThingNode → Except String Unit
  | 0, _, _ => .ok ()
  | fuel + 1, visited, node =>
    if node.external_id ∈ visited then
      .error ("Circular reference detected in node " ++ node.external_id)
    else
      match node.parent_external_node_id with
      | some pe =>
        if pe = "" then .ok ()
        else
          match dictFind? m pe with
          | some parent => visitParentChain m fuel (node.external_id :: visited) parent
          | none => .ok ()
      | none => .ok ()

/-- `check_for_circular_reference`: visit every node; since a normal
return restores the visited set, each top-level visit starts from the
empty path. -/
def check_for_circular_reference (cs : CompleteStructure) : Except String Unit :=
  let m := nodesByExternalId cs.thing_nodes
  cs.thing_nodes.foldlM
    (fun _ node => visitParentChain m (cs.thing_nodes.length + 1) [] node)
    ()

/-- `validate_source_sink_references`: every `thing_node_external_ids`
entry of a source or sink names an existing thing node. -/
def validate_source_sink_references (cs : CompleteStructure) : Except String Unit := do
  let thing_node_ids := cs.thing_nodes.map (fun node => node.external_id)
  _ ← cs.sources.foldlM
    (fun _ (source : StructureServiceSource) =>
      match source.thing_node_external_ids with
      | none => Except.error "TypeError: NoneType object is not iterable"
      | some ids =>
        ids.foldlM
          (fun _ tn_id =>
            if tn_id ∈ thing_node_ids then Except.ok ()
            else Except.error ("StructureServiceSource " ++ source.external_id
              ++ " references non-existing StructureServiceThingNode " ++ tn_id))
          ())
    ()
  cs.sinks.foldlM
    (fun _ (sink : StructureServiceSink) =>
      match sink.thing_node_external_ids with
      | none => Except.error "TypeError: NoneType object is not iterable"
      | some ids =>
        ids.foldlM
          (fun _ tn_id =>
            if tn_id ∈ thing_node_ids then Except.ok ()
            else Except.error ("StructureServiceSink " ++ sink.external_id
              ++ " references non-existing StructureServiceThingNode " ++ tn_id))
          ())
    ()

/-- All post root validators in declaration order, each contributing its
error message when it fails (pydantic v1 runs them all, without a
break, and raises one `ValidationError` holding every collected
message). -/
def validateCompleteStructure (cs : CompleteStructure) : List String :=
  [validate_root_nodes_parent_ids_are_none cs.thing_nodes,
   check_for_duplicate_key_and_id_pairs cs,
   check_for_duplicate_ids_in_thing_node_external_ids cs,
   check_stakeholder_key_consistency cs,
   check_for_circular_reference cs,
   validate_source_sink_references cs].filterMap
    (fun r => match r with | .error msg => some msg | .ok _ => none)

/-- The `check_not_empty` field validators of
`StructureServiceCommonFieldsModel` for the thing-node list, plus
nothing else: when they pass, pydantic keeps `thing_nodes` in `values`
and every root validator above sees it. -/
def thingNodeFieldChecksPass (thing_nodes : List StructureServiceThingNode) : Prop :=
  ∀ tn ∈ thing_nodes, tn.external_id ≠ "" ∧ tn.stakeholder_key ≠ "" ∧ tn.name ≠ ""

/-! ## Bulk upserts
(`element_type_service.py`, `thing_node_service.py`,
`source_sink_service.py`)

Each service issues one `INSERT ... ON CONFLICT (external_id,
stakeholder_key) DO UPDATE` over its list.  The model processes the
value rows one by one against the table: a row whose conflict key is
absent is appended (keeping the authored `id`), a present key updates
the listed non-key columns in place — never `id`, and for thing nodes
never `parent_node_id`. -/

/-- One `VALUES` row of the bulk upsert: insert on a fresh
`(stakeholder_key, external_id)` key, else apply the `set_` update to
the conflicting row. -/
def upsertRow {ι ρ : Type} (key : ι → String × String) (rowKey : ρ → String × String)
    (mkInsert : ι → ρ) (applyUpdate : ι → ρ → ρ) (table : List ρ) (i : ι) : List ρ :=
  if table.any (fun r => rowKey r = key i) then
    table.map (fun r => if rowKey r = key i then applyUpdate i r else r)
  else table ++ [mkInsert i]

/-- The whole bulk statement over the input list. -/
def upsertRows {ι ρ : Type} (key : ι → String × String) (rowKey : ρ → String × String)
    (mkInsert : ι → ρ) (applyUpdate : ι → ρ → ρ) (table : List ρ) (inputs : List ι) :
    List ρ :=
  inputs.foldl (upsertRow key rowKey mkInsert applyUpdate) table

/-- The dict built from the rows the statement `RETURNING`s: for each
processed input key, the post-upsert table row under that key, keyed by
`(stakeholder_key, external_id)`. -/
def returningDict {ρ : Type} (rowKey : ρ → String × String) (table : List ρ)
    (keys : List (String × String)) : List ((String × String) × ρ) :=
  keys.foldl
    (fun m k =>
      match table.find? (fun r => rowKey r = k) with
      | some r => dict2Insert m k r
      | none => m)
    []

def elementTypeKey (el : StructureServiceElementType) : String × String :=
  (el.stakeholder_key, el.external_id)

def elementTypeRowKey (r : ElementTypeRow) : String × String :=
  (r.stakeholder_key, r.external_id)

/-- Element-type insert row; `id` comes from the authored model. -/
def elementTypeInsert (el : StructureServiceElementType) : ElementTypeRow :=
  { id := el.id, external_id := el.external_id, stakeholder_key := el.stakeholder_key
    name := el.name, description := el.description }

/-- Element-type conflict update: every column of the value dict except
`id`. -/
def elementTypeUpdate (el : StructureServiceElementType) (r : ElementTypeRow) :
    ElementTypeRow :=
  { r with external_id := el.external_id, stakeholder_key := el.stakeholder_key
           name := el.name, description := el.description }

/-- `upsert_element_types`: bulk upsert, returning the updated table and
the `RETURNING` dict keyed by `(stakeholder_key, external_id)`. -/
def upsert_element_types (table : List ElementTypeRow)
    (elements : List StructureServiceElementType) :
    List ElementTypeRow × List ((String × String) × ElementTypeRow) :=
  if elements.isEmpty then (table, [])
  else
    let t := upsertRows elementTypeKey elementTypeRowKey elementTypeInsert
      elementTypeUpdate table elements
    (t, returningDict elementTypeRowKey t (elements.map elementTypeKey))

def thingNodeKey (tn : StructureServiceThingNode) : String × String :=
  (tn.stakeholder_key, tn.external_id)

def thingNodeRowKey (r : ThingNodeRow) : String × String :=
  (r.stakeholder_key, r.external_id)

/-- Thing-node insert row: the full value dict, `element_type_id`
already overridden by the caller, `parent_node_id` as set in memory. -/
def thingNodeInsert (tn : StructureServiceThingNode) : ThingNodeRow :=
  { id := tn.id, external_id := tn.external_id, stakeholder_key := tn.stakeholder_key
    name := tn.name, description := tn.description, parent_node_id := tn.parent_node_id
    parent_external_node_id := tn.parent_external_node_id
    element_type_id := tn.element_type_id
    element_type_external_id := tn.element_type_external_id, meta_data := tn.meta_data }

/-- Thing-node conflict update: every value column except `id` and
`parent_node_id` (both kept from the existing row). -/
def thingNodeUpdate (tn : StructureServiceThingNode) (r : ThingNodeRow) : ThingNodeRow :=
  { r with external_id := tn.external_id, stakeholder_key := tn.stakeholder_key
           name := tn.name, description := tn.description
           parent_external_node_id := tn.parent_external_node_id
           element_type_id := tn.element_type_id
           element_type_external_id := tn.element_type_external_id
           meta_data := tn.meta_data }

/-- Python truthiness of a row's `parent_external_node_id` in
`update_parent_ids` (`if tn.parent_external_node_id:`). -/
def rowTruthyParentExt (r : ThingNodeRow) : Option String :=
  match r.parent_external_node_id with
  | some pe => if pe = "" then none else some pe
  | none => none

/-- The per-row effect of `update_parent_ids` on the post-upsert table:
rows whose key the statement processed get their `parent_node_id`
pointed at the returned row of their (truthy) parent reference under
the same stakeholder key, when that lookup succeeds. -/
def thingNodeParentFix (d : List ((String × String) × ThingNodeRow))
    (keys : List (String × String)) (r : ThingNodeRow) : ThingNodeRow :=
  if keys.contains (thingNodeRowKey r) then
    match rowTruthyParentExt r with
    | some pe =>
      match dict2Find? d (r.stakeholder_key, pe) with
      | some parent => { r with parent_node_id := some parent.id }
      | none => r
    | none => r
  else r

/-- The element-type injection of `upsert_thing_nodes`: nodes whose
element type is missing from the provided dict are skipped, the rest
get `element_type_id` overridden from the dict. -/
def thingNodeInputs (existing_element_types : List ((String × String) × ElementTypeRow))
    (thing_nodes : List StructureServiceThingNode) : List StructureServiceThingNode :=
  thing_nodes.filterMap
    (fun node =>
      match dict2Find? existing_element_types
          (node.stakeholder_key, node.element_type_external_id) with
      | some element_type => some { node with element_type_id := element_type.id }
      | none => none)

/-- `upsert_thing_nodes`: skip nodes whose element type is missing from
the provided dict, bulk-upsert the rest with `element_type_id`
injected, then run `update_parent_ids` over the returned dict, and hand
back the final table with the returned dict (whose ORM objects carry
the parent updates). -/
def upsert_thing_nodes (table : List ThingNodeRow)
    (thing_nodes : List StructureServiceThingNode)
    (existing_element_types : List ((String × String) × ElementTypeRow)) :
    List ThingNodeRow × List ((String × String) × ThingNodeRow) :=
  let node_inputs := thingNodeInputs existing_element_types thing_nodes
  if node_inputs.isEmpty then (table, [])
  else
    let t1 := upsertRows thingNodeKey thingNodeRowKey thingNodeInsert thingNodeUpdate
      table node_inputs
    let keys := node_inputs.map thingNodeKey
    let d1 := returningDict thingNodeRowKey t1 keys
    let t2 := t1.map (thingNodeParentFix d1 keys)
    (t2, returningDict thingNodeRowKey t2 keys)

def sourceKey (s : StructureServiceSource) : String × String :=
  (s.stakeholder_key, s.external_id)

def sourceRowKey (r : SourceRow) : String × String :=
  (r.stakeholder_key, r.external_id)

/-- Source insert row (relationship list starts empty and is assigned
right after the statement). -/
def sourceInsert (s : StructureServiceSource) : SourceRow :=
  { id := s.id, external_id := s.external_id, stakeholder_key := s.stakeholder_key
    name := s.name, type := s.type, visible := s.visible, display_path := s.display_path
    adapter_key := s.adapter_key, source_id := s.source_id, ref_key := s.ref_key
    ref_id := s.ref_id, meta_data := s.meta_data, preset_filters := s.preset_filters
    passthrough_filters := s.passthrough_filters
    thing_node_external_ids := s.thing_node_external_ids, thing_nodes := [] }

/-- Source conflict update: every value column except `id` (the
relationship list is no column and is assigned separately). -/
def sourceUpdate (s : StructureServiceSource) (r : SourceRow) : SourceRow :=
  { r with external_id := s.external_id, stakeholder_key := s.stakeholder_key
           name := s.name, type := s.type, visible := s.visible
           display_path := s.display_path, adapter_key := s.adapter_key
           source_id := s.source_id, ref_key := s.ref_key, ref_id := s.ref_id
           meta_data := s.meta_data, preset_filters := s.preset_filters
           passthrough_filters := s.passthrough_filters
           thing_node_external_ids := s.thing_node_external_ids }

/-- The relationship assignment after a source or sink upsert:
`thing_node_external_ids` resolved against the returned thing-node dict
under the row's own stakeholder key, unresolved references silently
dropped; `None` behaves as the empty list (`... or []`). -/
def resolveAssociations (existing_thing_nodes : List ((String × String) × ThingNodeRow))
    (sk : String) (thing_node_external_ids : Option (List String)) : List String :=
  (thing_node_external_ids.getD []).filterMap
    (fun tn_external_id => (dict2Find? existing_thing_nodes (sk, tn_external_id)).map
      (fun tn => tn.id))

/-- The association rebuild on one post-upsert source row. -/
def sourceAssocFix (existing_thing_nodes : List ((String × String) × ThingNodeRow))
    (keys : List (String × String)) (r : SourceRow) : SourceRow :=
  if keys.contains (sourceRowKey r) then
    { r with thing_nodes := (resolveAssociations existing_thing_nodes
        r.stakeholder_key r.thing_node_external_ids) }
  else r

/-- `upsert_sources`: bulk upsert, then replace each returned row's
association list by resolving its `thing_node_external_ids` against the
provided thing-node dict, silently dropping unresolved references. -/
def upsert_sources (table : List SourceRow) (sources : List StructureServiceSource)
    (existing_thing_nodes : List ((String × String) × ThingNodeRow)) : List SourceRow :=
  if sources.isEmpty then table
  else
    let t1 := upsertRows sourceKey sourceRowKey sourceInsert sourceUpdate table sources
    let keys := sources.map sourceKey
    t1.map (sourceAssocFix existing_thing_nodes keys)

def sinkKey (s : StructureServiceSink) : String × String :=
  (s.stakeholder_key, s.external_id)

def sinkRowKey (r : SinkRow) : String × String :=
  (r.stakeholder_key, r.external_id)

def sinkInsert (s : StructureServiceSink) : SinkRow :=
  { id := s.id, external_id := s.external_id, stakeholder_key := s.stakeholder_key
    name := s.name, type := s.type, visible := s.visible, display_path := s.display_path
    adapter_key := s.adapter_key, sink_id := s.sink_id, ref_key := s.ref_key
    ref_id := s.ref_id, meta_data := s.meta_data, preset_filters := s.preset_filters
    passthrough_filters := s.passthrough_filters
    thing_node_external_ids := s.thing_node_external_ids, thing_nodes := [] }

def sinkUpdate (s : StructureServiceSink) (r : SinkRow) : SinkRow :=
  { r with external_id := s.external_id, stakeholder_key := s.stakeholder_key
           name := s.name, type := s.type, visible := s.visible
           display_path := s.display_path, adapter_key := s.adapter_key
           sink_id := s.sink_id, ref_key := s.ref_key, ref_id := s.ref_id
           meta_data := s.meta_data, preset_filters := s.preset_filters
           passthrough_filters := s.passthrough_filters
           thing_node_external_ids := s.thing_node_external_ids }

/-- The association rebuild on one post-upsert sink row. -/
def sinkAssocFix (existing_thing_nodes : List ((String × String) × ThingNodeRow))
    (keys : List (String × String)) (r : SinkRow) : SinkRow :=
  if keys.contains (sinkRowKey r) then
    { r with thing_nodes := (resolveAssociations existing_thing_nodes
        r.stakeholder_key r.thing_node_external_ids) }
  else r

/-- `upsert_sinks`, mirror of `upsert_sources`. -/
def upsert_sinks (table : List SinkRow) (sinks : List StructureServiceSink)
    (existing_thing_nodes : List ((String × String) × ThingNodeRow)) : List SinkRow :=
  if sinks.isEmpty then table
  else
    let t1 := upsertRows sinkKey sinkRowKey sinkInsert sinkUpdate table sinks
    let keys := sinks.map sinkKey
    t1.map (sinkAssocFix existing_thing_nodes keys)

/-! ## Structure service
(`hetdesrun/structure/db/structure_service.py`) -/

/-- `update_structure`: one transaction upserting element types, thing
nodes (after the `sort_thing_nodes` call, whose sorted return value is
discarded and whose only lasting effect is the `set_parent_ids`
in-place mutation of the document's thing-node list), sources, and
sinks, in that order. -/
def update_structure (db : DBState) (complete_structure : CompleteStructure) : DBState :=
  let etStep := upsert_element_types db.element_types complete_structure.element_types
  let mutated_thing_nodes := setParentIdsList complete_structure.thing_nodes
  let tnStep := upsert_thing_nodes db.thing_nodes mutated_thing_nodes etStep.2
  let srcTable := upsert_sources db.sources complete_structure.sources tnStep.2
  let sinkTable := upsert_sinks db.sinks complete_structure.sinks tnStep.2
  { element_types := etStep.1, thing_nodes := tnStep.1
    sources := srcTable, sinks := sinkTable }

/-- `are_structure_tables_empty`: no record in any of the four entity
tables. -/
def are_structure_tables_empty (db : DBState) : Bool :=
  db.element_types.isEmpty && db.thing_nodes.isEmpty
    && db.sources.isEmpty && db.sinks.isEmpty

/-- `delete_structure`: empty all six tables (the association lists live
on the source and sink rows, so emptying the four tables empties
them too). -/
def delete_structure (_db : DBState) : DBState :=
  { element_types := [], thing_nodes := [], sources := [], sinks := [] }

/-- `get_children`: children of a parent node, with the sources and
sinks linked to it through the association tables; `None` selects the
roots with empty source and sink lists.  `.one_or_none()` on a
duplicated primary key would raise, modelled by the `other` error. -/
def get_children (db : DBState) (parent_id : Option String) :
    Except DBErr (List StructureServiceThingNode × List StructureServiceSource
      × List StructureServiceSink) :=
  let child_nodes := db.thing_nodes.filter (fun r => r.parent_node_id = parent_id)
  match parent_id with
  | none => .ok (child_nodes.map StructureServiceThingNode.from_orm_model, [], [])
  | some p =>
    match db.thing_nodes.filter (fun r => r.id = p) with
    | [] => .error (.notFound ("The prodived ID " ++ p
        ++ " has no corresponding node in the database"))
    | [_] =>
      let sources_orm := db.sources.filter (fun s => s.thing_nodes.contains p)
      let sinks_orm := db.sinks.filter (fun s => s.thing_nodes.contains p)
      .ok (child_nodes.map StructureServiceThingNode.from_orm_model,
        sources_orm.map StructureServiceSource.from_orm_model,
        sinks_orm.map StructureServiceSink.from_orm_model)
    | _ :: _ :: _ => .error (.other "MultipleResultsFound")

/-! ## Maintenance endpoint
(`hetdesrun/backend/service/virtual_structure_router.py`) -/

/-- `secrets.compare_digest` on the two secret strings: byte equality
(its constant-time execution is not observable in this embedding). -/
def compare_digest (a b : String) : Bool := a == b

/-- Outcome of one `PUT /structure/update` request: HTTP status, the
database state afterwards, and the structure-service calls made, in
order. -/
structure EndpointResult where
  status : Nat
  db : DBState
  calls : List String
  deriving DecidableEq, Repr, Inhabited

/-- `update_structure_endpoint`: 403 on secret mismatch before touching
anything; otherwise optionally wipe (when the flag is set and the
tables are non-empty) and then upsert the new structure, answering the
declared 204.  The DB failure paths (404/500) are exception re-mappings
with no decision logic and are not modelled. -/
def update_structure_endpoint (configured_maintenance_secret : String)
    (maintenance_secret : String) (new_structure : CompleteStructure)
    (delete_existing_structure : Bool) (db : DBState) : EndpointResult :=
  if ¬ compare_digest maintenance_secret configured_maintenance_secret then
    { status := 403, db := db, calls := [] }
  else
    let step :=
      if delete_existing_structure ∧ ¬ are_structure_tables_empty db then
        (delete_structure db, ["delete_structure"])
      else (db, ([] : List String))
    { status := 204, db := update_structure step.1 new_structure
      calls := step.2 ++ ["update_structure"] }

/-! ## Adapter frontend DTOs
(`hetdesrun/adapters/virtual_structure_adapter/models.py`) -/

structure VirtualStructureAdapterThingNode where
  id : String
  parentId : Option String
  name : String
  description : String
  deriving DecidableEq, Repr, Inhabited

structure VirtualStructureAdapterSource where
  id : String
  thingNodeId : String
  name : String
  type : String
  visible : Bool
  path : String
  metadataKey : Option String
  filters : List (String × SFilter)
  deriving DecidableEq, Repr, Inhabited

structure VirtualStructureAdapterSink where
  id : String
  thingNodeId : String
  name : String
  type : String
  visible : Bool
  path : String
  metadataKey : Option String
  filters : List (String × SFilter)
  deriving DecidableEq, Repr, Inhabited

/-- The wrapper filters map `{f.internal_name: f for f in
passthrough_filters}`; `None` and the empty list (both falsy) give the
empty dict. -/
def passthroughFiltersDict (passthrough_filters : Option (List SFilter)) :
    List (String × SFilter) :=
  match passthrough_filters with
  | none => []
  | some fs =>
    if fs.isEmpty then []
    else fs.foldl (fun m f => dictInsert m f.internal_name f) []

/-- `VirtualStructureAdapterThingNode.from_structure_service_thingnode`. -/
def VirtualStructureAdapterThingNode.from_structure_service_thingnode
    (struct_tn : StructureServiceThingNode) : VirtualStructureAdapterThingNode :=
  { id := struct_tn.id, parentId := struct_tn.parent_node_id
    name := struct_tn.name, description := struct_tn.description }

/-- `VirtualStructureAdapterSource.from_structure_service_source`. -/
def VirtualStructureAdapterSource.from_structure_service_source
    (source : StructureServiceSource) : VirtualStructureAdapterSource :=
  { id := source.id, thingNodeId := source.id, name := source.name, type := source.type
    visible := true, path := source.display_path, metadataKey := source.ref_key
    filters := passthroughFiltersDict source.passthrough_filters }

/-- `VirtualStructureAdapterSink.from_structure_service_sink`. -/
def VirtualStructureAdapterSink.from_structure_service_sink
    (sink : StructureServiceSink) : VirtualStructureAdapterSink :=
  { id := sink.id, thingNodeId := sink.id, name := sink.name, type := sink.type
    visible := true, path := sink.display_path, metadataKey := sink.ref_key
    filters := passthroughFiltersDict sink.passthrough_filters }

/-- The stored source whose internal UUID is `r`, if any. -/
def findSourceById (dbSources : List SourceRow) (r : String) : Option SourceRow :=
  dbSources.find? (fun s => s.id = r)

/-- The stored sink whose internal UUID is `r`, if any. -/
def findSinkById (dbSinks : List SinkRow) (r : String) : Option SinkRow :=
  dbSinks.find? (fun s => s.id = r)

/-- Declarative description of what resolution does to one input wiring
when every reference resolves: a virtual-structure wiring is rewritten
from the stored source whose internal UUID equals its `ref_id`, any
other wiring is untouched. -/
def resolvedInputRewrite (db : DBState) (w : Wiring) : Wiring :=
  if w.adapter_id = "virtual-structure-adapter" then
    update_wirings w (.src (StructureServiceSource.from_orm_model
      ((findSourceById db.sources w.ref_id).getD default)))
  else w

/-- Mirror of `resolvedInputRewrite` for output wirings and sinks. -/
def resolvedOutputRewrite (db : DBState) (w : Wiring) : Wiring :=
  if w.adapter_id = "virtual-structure-adapter" then
    update_wirings w (.sink (StructureServiceSink.from_orm_model
      ((findSinkById db.sinks w.ref_id).getD default)))
  else w

/-! ## Concrete demo data (used to instantiate theorems with hypotheses
on explicit inputs) -/

/-- A stored source with internal UUID `u`, backing adapter key
`sql-adapter`, backing id `sql_` ++ u, and one preset filter
`stage = prod`. -/
def demoSourceRow (u : String) : SourceRow :=
  { id := u, external_id := "src-" ++ u, stakeholder_key := "SK", name := "Source " ++ u
    type := "timeseries(float)", visible := true, display_path := "Plant"
    adapter_key := "sql-adapter", source_id := "sql_" ++ u, ref_key := none, ref_id := ""
    meta_data := none, preset_filters := [("stage", "prod")], passthrough_filters := none
    thing_node_external_ids := none, thing_nodes := [] }

/-- A stored sink with internal UUID `u`. -/
def demoSinkRow (u : String) : SinkRow :=
  { id := u, external_id := "snk-" ++ u, stakeholder_key := "SK", name := "Sink " ++ u
    type := "timeseries(float)", visible := true, display_path := "Plant"
    adapter_key := "sql-adapter", sink_id := "sqlk_" ++ u, ref_key := none, ref_id := ""
    meta_data := none, preset_filters := [("stage", "prod")], passthrough_filters := none
    thing_node_external_ids := none, thing_nodes := [] }

/-- A database holding two sources (`u1`, `u2`) and one sink (`k1`). -/
def demoResolveDB : DBState :=
  { element_types := [], thing_nodes := []
    sources := [demoSourceRow "u1", demoSourceRow "u2"]
    sinks := [demoSinkRow "k1"] }

/-- An input/output wiring referencing the virtual structure adapter
with caller filters that collide with the preset on `stage`. -/
def demoVstWiring (r : String) : Wiring :=
  { workflow_io_name := "nf", adapter_id := "virtual-structure-adapter", ref_id := r
    ref_id_type := none, ref_key := none, type := "timeseries(float)"
    filters := [("timestampFrom", "2024-07-10T09:36:00Z"), ("stage", "caller")] }

/-- A wiring of some other adapter, which resolution must pass through. -/
def demoPlainWiring : Wiring :=
  { workflow_io_name := "plain", adapter_id := "sql-adapter", ref_id := "u1"
    ref_id_type := none, ref_key := none, type := "timeseries(float)"
    filters := [("stage", "caller")] }

def demoRewWW : WorkflowWiring :=
  { input_wirings := [demoPlainWiring, demoVstWiring "u2", demoVstWiring "u1"]
    output_wirings := [demoVstWiring "k1"] }

def demoDupWW : WorkflowWiring :=
  { input_wirings := [demoVstWiring "u1", demoVstWiring "u1"], output_wirings := [] }

def demoPassWW : WorkflowWiring :=
  { input_wirings := [demoPlainWiring, demoVstWiring "u1"], output_wirings := [] }

def demoPassResolved : WorkflowWiring :=
  { input_wirings := [demoPlainWiring,
      { workflow_io_name := "nf", adapter_id := "sql-adapter", ref_id := "sql_u1"
        ref_id_type := none, ref_key := none, type := "timeseries(float)"
        filters := [("timestampFrom", "2024-07-10T09:36:00Z"), ("stage", "prod")] }]
    output_wirings := [] }

def demoMissWW : WorkflowWiring :=
  { input_wirings := [demoVstWiring "zz"], output_wirings := [] }

def demoPartWW : WorkflowWiring :=
  { input_wirings := [demoVstWiring "u1", demoVstWiring "zz"], output_wirings := [] }

def c5Node (i e : String) (pe : Option String) : StructureServiceThingNode :=
  { id := i, external_id := e, stakeholder_key := "SK", name := "node " ++ i
    description := "", parent_node_id := none, parent_external_node_id := pe
    element_type_id := "et", element_type_external_id := "et-ext", meta_data := none }

def c5TwoRoots : List StructureServiceThingNode :=
  [c5Node "nb" "b" none, c5Node "na" "a" none]

def c5Tree : List StructureServiceThingNode :=
  [c5Node "nr" "r" none, c5Node "nz" "z" (some "r"), c5Node "na2" "a" (some "r")]

def demoChildET : ElementTypeRow :=
  { id := "et1", external_id := "et-ext", stakeholder_key := "SK", name := "ET"
    description := none }

def demoChildRoot : ThingNodeRow :=
  { id := "n1", external_id := "root", stakeholder_key := "SK", name := "Root"
    description := "", parent_node_id := none, parent_external_node_id := none
    element_type_id := "et1", element_type_external_id := "et-ext", meta_data := none }

def demoChildNode : ThingNodeRow :=
  { id := "n2", external_id := "child", stakeholder_key := "SK", name := "Child"
    description := "", parent_node_id := some "n1", parent_external_node_id := some "root"
    element_type_id := "et1", element_type_external_id := "et-ext", meta_data := none }

def demoChildDB : DBState :=
  { element_types := [demoChildET]
    thing_nodes := [demoChildRoot, demoChildNode]
    sources := [{ demoSourceRow "u1" with thing_nodes := ["n1"] }]
    sinks := [{ demoSinkRow "k1" with thing_nodes := ["n2"] }] }

/-- One step of the parent relation that `check_for_circular_reference`
walks: from an external id to its node's non-empty parent reference,
provided that reference is itself a key of the node map. -/
def parentStep (m : List (String × StructureServiceThingNode)) (e : String) : Option String :=
  match dictFind? m e with
  | some node =>
    match node.parent_external_node_id with
    | some pe => if pe = "" then none else if (dictFind? m pe).isSome then some pe else none
    | none => none
  | none => none

/-- The parent chain from an external id: `k` applications of
`parentStep`.  A cycle in the `parent_external_node_id` relation is a
chain that returns to its start after at least one step. -/
def chainFrom (m : List (String × StructureServiceThingNode)) (e : String) : Nat → Option String
  | 0 => some e
  | k + 1 => (chainFrom m e k).bind (parentStep m)

def demoCycleET : StructureServiceElementType :=
  { id := "et", external_id := "et-ext", stakeholder_key := "SK"
    name := "ET", description := none }

def demoCycleCS : CompleteStructure :=
  { element_types := [demoCycleET]
    thing_nodes := [c5Node "nx" "X" (some "Y"), c5Node "ny" "Y" (some "X")]
    sources := [], sinks := [] }

def demoC1DB : DBState :=
  { element_types := [], thing_nodes := [], sources := [], sinks := [] }

def demoC1Source : StructureServiceSource :=
  { id := "s1", external_id := "src1", stakeholder_key := "SK", name := "demo source"
    type := "timeseries(float)", visible := true, display_path := "Plant"
    preset_filters := [("stage", "prod")], passthrough_filters := none
    adapter_key := "sql-adapter", source_id := "sql_src1", ref_key := none
    ref_id := "root", meta_data := none, thing_node_external_ids := some ["child"] }

def demoC1Sink : StructureServiceSink :=
  { id := "k1", external_id := "sink1", stakeholder_key := "SK", name := "demo sink"
    type := "timeseries(float)", visible := true, display_path := "Plant"
    preset_filters := [], passthrough_filters := none
    adapter_key := "blob-adapter", sink_id := "blob_sink1", ref_key := none
    ref_id := "child", meta_data := none, thing_node_external_ids := some ["child"] }

def demoC1CS : CompleteStructure :=
  { element_types := [demoCycleET]
    thing_nodes := [c5Node "n1" "root" none, c5Node "n2" "child" (some "root")]
    sources := [demoC1Source], sinks := [demoC1Sink] }

/-- A family of pairwise distinct internal ids (`i+1` copies of `u`). -/
def c2Name (i : Nat) : String := String.mk (List.replicate (i + 1) 'u')

/-- A stored source whose preset filter names its own id. -/
def c2SourceRow (u : String) : SourceRow :=
  { demoSourceRow u with preset_filters := [("origin", u)] }

/-- A database of 501 sources in ascending id order. -/
def dbC2 : DBState :=
  { element_types := [], thing_nodes := []
    sources := (List.range 501).map (fun i => c2SourceRow (c2Name i)), sinks := [] }

/-- A virtual-structure input wiring with empty caller filters. -/
def c2Wiring (u : String) : Wiring :=
  { workflow_io_name := "nf", adapter_id := "virtual-structure-adapter", ref_id := u
    ref_id_type := none, ref_key := none, type := "timeseries(float)", filters := [] }

/-- The request-order tail `u2 ... u500`. -/
def c2Tail : List String := (List.range 499).map (fun i => c2Name (2 + i))

/-- 501 distinct referenced ids, the first two in reverse database
order. -/
def c2Refs : List String := c2Name 1 :: c2Name 0 :: c2Tail

/-- A workflow wiring with 501 virtual-structure inputs, one per ref. -/
def demoC2BigWW : WorkflowWiring :=
  { input_wirings := c2Refs.map c2Wiring, output_wirings := [] }

/-- The fetch dict the 501-ref request produces: keyed and ordered by
database order, not request order. -/
def c2Dict : List (String × StructureServiceSource) :=
  (List.range 501).map (fun i =>
    (c2Name i, StructureServiceSource.from_orm_model (c2SourceRow (c2Name i))))

/-- Its value list, in database order. -/
def c2Vals : List StructureServiceSource :=
  (List.range 501).map (fun i => StructureServiceSource.from_orm_model (c2SourceRow (c2Name i)))

/-! # Theorems -/

/-! ## Dict lemmas -/

theorem dictFind?_dictInsert {ν : Type} (m : List (String × ν)) (k k2 : String) (v : ν) :
    dictFind? (dictInsert m k v) k2 = if k = k2 then some v else dictFind? m k2 := by
  induction m with
  | nil =>
    by_cases h : k = k2 <;> simp [dictInsert, dictFind?, h]
  | cons kv rest ih =>
    obtain ⟨k0, v0⟩ := kv
    by_cases h0 : k0 = k
    · subst h0
      by_cases h2 : k0 = k2 <;> simp [dictInsert, dictFind?, h2]
    · by_cases h2 : k0 = k2
      · subst h2
        have hk : k ≠ k0 := fun h => h0 h.symm
        simp [dictInsert, dictFind?, h0, hk]
      · simp [dictInsert, dictFind?, h0, h2, ih]

theorem dictFind?_eq_none_of_not_mem_keys {ν : Type} (m : List (String × ν)) (k : String)
    (h : k ∉ dictKeys m) : dictFind? m k = none := by
  induction m with
  | nil => rfl
  | cons kv rest ih =>
    simp only [dictKeys, List.map_cons, List.mem_cons, not_or] at h
    simp only [dictFind?]
    rw [if_neg (fun he => h.1 he.symm)]
    exact ih (by simpa [dictKeys] using h.2)

theorem dictKeys_dictInsert {ν : Type} (m : List (String × ν)) (k : String) (v : ν) :
    dictKeys (dictInsert m k v) = if k ∈ dictKeys m then dictKeys m else dictKeys m ++ [k] := by
  induction m with
  | nil => simp [dictInsert, dictKeys]
  | cons kv rest ih =>
    obtain ⟨k0, v0⟩ := kv
    by_cases h0 : k0 = k
    · subst h0
      simp [dictInsert, dictKeys]
    · have hne : ¬ k = k0 := fun he => h0 he.symm
      by_cases hmem : k ∈ dictKeys rest
      · have hc : k ∈ dictKeys ((k0, v0) :: rest) := by
          simp only [dictKeys, List.map_cons, List.mem_cons]
          exact Or.inr hmem
        rw [if_pos hc]
        have ih2 : dictKeys (dictInsert rest k v) = dictKeys rest := by
          rw [ih, if_pos hmem]
        simp only [dictInsert, if_neg h0, dictKeys, List.map_cons] at ih2 ⊢
        rw [ih2]
      · have hc : k ∉ dictKeys ((k0, v0) :: rest) := by
          simp only [dictKeys, List.map_cons, List.mem_cons, not_or]
          exact ⟨hne, hmem⟩
        rw [if_neg hc]
        have ih2 : dictKeys (dictInsert rest k v) = dictKeys rest ++ [k] := by
          rw [ih, if_neg hmem]
        simp only [dictInsert, if_neg h0, dictKeys, List.map_cons] at ih2 ⊢
        rw [ih2]
        simp [dictKeys]

/-- Python dict merge, looked up pointwise: the right side wins on every
key it holds (provided the right side is a real dict, i.e. has no
duplicate keys), the left side answers otherwise. -/
theorem dictFind?_dictUnion {ν : Type} (a b : List (String × ν)) (k : String)
    (hb : (dictKeys b).Nodup) :
    dictFind? (dictUnion a b) k =
      match dictFind? b k with
      | some v => some v
      | none => dictFind? a k := by
  induction b generalizing a with
  | nil => simp [dictUnion, dictFind?]
  | cons kv rest ih =>
    obtain ⟨k0, v0⟩ := kv
    simp only [dictKeys, List.map_cons, List.nodup_cons] at hb
    have hstep : dictUnion a ((k0, v0) :: rest) = dictUnion (dictInsert a k0 v0) rest := by
      simp [dictUnion]
    rw [hstep, ih (dictInsert a k0 v0) (by simpa [dictKeys] using hb.2)]
    by_cases h0 : k0 = k
    · subst h0
      have hrest : dictFind? rest k0 = none :=
        dictFind?_eq_none_of_not_mem_keys rest k0 (by simpa [dictKeys] using hb.1)
      simp [hrest, dictFind?, dictFind?_dictInsert]
    · simp only [dictFind?]
      rw [if_neg h0]
      cases hfind : dictFind? rest k
      · simp [dictFind?_dictInsert, h0]
      · simp

theorem dictInsert_of_not_mem_keys {ν : Type} (m : List (String × ν)) (k : String) (v : ν)
    (h : k ∉ dictKeys m) : dictInsert m k v = m ++ [(k, v)] := by
  induction m with
  | nil => rfl
  | cons kv rest ih =>
    obtain ⟨k0, v0⟩ := kv
    simp only [dictKeys, List.map_cons, List.mem_cons, not_or] at h
    have h0 : ¬ k0 = k := fun he => h.1 he.symm
    simp only [dictInsert, if_neg h0, List.cons_append]
    rw [ih (by simpa [dictKeys] using h.2)]

theorem foldl_dictInsert_fresh {ν : Type} (v : String → ν) (refs : List String)
    (acc : List (String × ν)) (hd : refs.Nodup)
    (hdisj : ∀ r ∈ refs, r ∉ dictKeys acc) :
    refs.foldl (fun a r => dictInsert a r (v r)) acc = acc ++ refs.map (fun r => (r, v r)) := by
  induction refs generalizing acc with
  | nil => simp
  | cons r rest ih =>
    simp only [List.foldl_cons]
    rw [dictInsert_of_not_mem_keys acc r (v r) (hdisj r (List.mem_cons_self r rest))]
    rw [ih (acc ++ [(r, v r)]) (List.Nodup.of_cons hd)]
    · simp
    · intro r2 hr2
      simp only [dictKeys, List.map_append, List.mem_append, List.map_cons, List.map_nil,
        List.mem_singleton, not_or]
      refine ⟨hdisj r2 (List.mem_cons_of_mem r hr2), ?_⟩
      intro he
      subst he
      exact (List.nodup_cons.mp hd).1 hr2

/-! ## List helper lemmas for the wiring resolver -/

theorem modifyAt_length {α : Type} (f : α → α) (l : List α) (i : Nat) :
    (modifyAt f l i).length = l.length := by
  induction l generalizing i with
  | nil => rfl
  | cons a as ih =>
    cases i with
    | zero => rfl
    | succ j => simp [modifyAt, ih]

theorem modifyAt_getElem?_self {α : Type} (f : α → α) (l : List α) (i : Nat) :
    (modifyAt f l i)[i]? = (l[i]?).map f := by
  induction l generalizing i with
  | nil => simp [modifyAt]
  | cons a as ih =>
    cases i with
    | zero => simp [modifyAt]
    | succ j => simp [modifyAt, ih]

theorem modifyAt_getElem?_ne {α : Type} (f : α → α) (l : List α) (i j : Nat) (h : i ≠ j) :
    (modifyAt f l i)[j]? = l[j]? := by
  induction l generalizing i j with
  | nil => simp [modifyAt]
  | cons a as ih =>
    cases i with
    | zero =>
      cases j with
      | zero => exact absurd rfl h
      | succ j2 => simp [modifyAt]
    | succ i2 =>
      cases j with
      | zero => simp [modifyAt]
      | succ j2 => simpa [modifyAt] using ih i2 j2 (fun he => h (by rw [he]))

theorem zipStrict_eq_some_zip {α β : Type} :
    ∀ (as : List α) (bs : List β), as.length = bs.length → zipStrict as bs = some (as.zip bs) := by
  intro as
  induction as with
  | nil =>
    intro bs h
    cases bs with
    | nil => rfl
    | cons b bs2 => simp at h
  | cons a as2 ih =>
    intro bs h
    cases bs with
    | nil => simp at h
    | cons b bs2 =>
      simp only [List.length_cons, Nat.succ_inj] at h
      simp [zipStrict, ih bs2 h, List.zip_cons_cons]

theorem zipStrict_eq_none_of_length_ne {α β : Type} :
    ∀ (as : List α) (bs : List β), as.length ≠ bs.length → zipStrict as bs = none := by
  intro as
  induction as with
  | nil =>
    intro bs h
    cases bs with
    | nil => simp at h
    | cons b bs2 => rfl
  | cons a as2 ih =>
    intro bs h
    cases bs with
    | nil => rfl
    | cons b bs2 =>
      have h2 : as2.length ≠ bs2.length := by
        intro he
        exact h (by simp [he])
      simp [zipStrict, ih bs2 h2]

theorem batchedChunks_one {α : Type} :
    ∀ (fuel : Nat) (l : List α), l.length ≤ fuel →
      batchedChunks 1 l fuel = l.map (fun a => [a]) := by
  intro fuel
  induction fuel with
  | zero =>
    intro l h
    cases l with
    | nil => rfl
    | cons a as => simp at h
  | succ f ih =>
    intro l h
    cases l with
    | nil => rfl
    | cons a as =>
      simp only [batchedChunks, List.take_succ_cons, List.take_zero, List.drop_succ_cons,
        List.drop_zero, List.map_cons]
      rw [ih as (by simpa using Nat.le_of_succ_le_succ h)]

theorem flatten_batchedChunks {α : Type} :
    ∀ (fuel : Nat) (n : Nat) (l : List α), 1 ≤ n → l.length ≤ fuel →
      (batchedChunks n l fuel).flatten = l := by
  intro fuel
  induction fuel with
  | zero =>
    intro n l hn h
    cases l with
    | nil => rfl
    | cons a as => simp at h
  | succ f ih =>
    intro n l hn h
    cases l with
    | nil => rfl
    | cons a as =>
      simp only [batchedChunks, List.flatten_cons]
      rw [ih n ((a :: as).drop n) hn ?hlen]
      · exact List.take_append_drop n (a :: as)
      · have : ((a :: as).drop n).length = (a :: as).length - n := List.length_drop n (a :: as)
        rw [this]
        have hl : (a :: as).length ≤ f + 1 := h
        omega

theorem chunkCount_eq_one (len : Nat) (h1 : 1 ≤ len) (h2 : len ≤ 500) :
    (len + 499) / 500 = 1 := by
  omega

theorem find?_fst_eq_of_mem_nodup {β : Type} (pairs : List (Nat × β)) (i : Nat) (b : β)
    (hnd : (pairs.map Prod.fst).Nodup) (hmem : (i, b) ∈ pairs) :
    pairs.find? (fun p => p.1 = i) = some (i, b) := by
  induction pairs with
  | nil => simp at hmem
  | cons q rest ih =>
    simp only [List.map_cons, List.nodup_cons] at hnd
    rcases List.mem_cons.mp hmem with heq | hrest
    · subst heq
      simp [List.find?_cons_of_pos]
    · have hne : q.1 ≠ i := by
        intro he
        exact hnd.1 (by
          rw [he]
          exact List.mem_map_of_mem Prod.fst hrest)
      rw [List.find?_cons_of_neg _ (by simpa using hne)]
      exact ih hnd.2 hrest

theorem foldl_modifyAt_getElem? {α β : Type} (g : β → α → α) (pairs : List (Nat × β))
    (ws : List α) (hnd : (pairs.map Prod.fst).Nodup) (i : Nat) :
    (pairs.foldl (fun acc p => modifyAt (g p.2) acc p.1) ws)[i]? =
      match pairs.find? (fun p => p.1 = i) with
      | some p => (ws[i]?).map (g p.2)
      | none => ws[i]? := by
  induction pairs generalizing ws with
  | nil => simp
  | cons q rest ih =>
    simp only [List.map_cons, List.nodup_cons] at hnd
    simp only [List.foldl_cons]
    rw [ih (modifyAt (g q.2) ws q.1) hnd.2]
    by_cases hq : q.1 = i
    · subst hq
      have hnone : rest.find? (fun p => p.1 = q.1) = none := by
        rw [List.find?_eq_none]
        intro x hx
        simp only [decide_eq_true_eq]
        intro he
        exact hnd.1 (by
          rw [← he]
          exact List.mem_map_of_mem Prod.fst hx)
      rw [hnone, List.find?_cons_of_pos _ (by simp)]
      exact modifyAt_getElem?_self (g q.2) ws q.1
    · rw [List.find?_cons_of_neg _ (by simpa using hq)]
      have hget : (modifyAt (g q.2) ws q.1)[i]? = ws[i]? :=
        modifyAt_getElem?_ne (g q.2) ws q.1 i hq
      cases hfind : rest.find? (fun p => p.1 = i) with
      | some p => rw [hget]
      | none => exact hget

theorem foldr_pair_eq {β : Type} (f : β → String) (L : List (Nat × β)) :
    L.foldr (fun iw acc => (iw.1 :: acc.1, f iw.2 :: acc.2)) ([], []) =
      (L.map Prod.fst, L.map (fun iw => f iw.2)) := by
  induction L with
  | nil => rfl
  | cons q rest ih => simp [ih]

/-- `get_enumerated_ids_of_vst_sources_or_sinks` as the two projections
of the filtered enumeration. -/
theorem get_enumerated_eq (wirings : List Wiring) :
    get_enumerated_ids_of_vst_sources_or_sinks wirings =
      ((wirings.enum.filter
          (fun iw => iw.2.adapter_id = "virtual-structure-adapter")).map Prod.fst,
        (wirings.enum.filter
          (fun iw => iw.2.adapter_id = "virtual-structure-adapter")).map
            (fun iw => iw.2.ref_id)) := by
  unfold get_enumerated_ids_of_vst_sources_or_sinks
  exact foldr_pair_eq (fun (w : Wiring) => w.ref_id) _

theorem vst_enum_fst_nodup (wirings : List Wiring) :
    ((wirings.enum.filter
        (fun iw => iw.2.adapter_id = "virtual-structure-adapter")).map Prod.fst).Nodup :=
  List.Nodup.sublist (List.Sublist.map Prod.fst (List.filter_sublist wirings.enum))
    (List.nodup_enum_map_fst wirings)

theorem filter_contains_singleton {ρ : Type} (idf : ρ → String) (db : List ρ) (r : String)
    (hdb : (db.map idf).Nodup) :
    db.filter (fun s => [r].contains (idf s)) =
      match db.find? (fun s => idf s = r) with
      | some s => [s]
      | none => [] := by
  induction db with
  | nil => rfl
  | cons x rest ih =>
    simp only [List.map_cons, List.nodup_cons] at hdb
    by_cases hx : idf x = r
    · rw [List.find?_cons_of_pos _ (by simpa using hx)]
      rw [List.filter_cons_of_pos (by simp [List.contains_cons, hx])]
      have hrest : rest.filter (fun s => [r].contains (idf s)) = [] := by
        rw [List.filter_eq_nil_iff]
        intro y hy
        simp only [List.contains_cons, List.contains_nil, Bool.or_false, beq_iff_eq]
        intro he
        exact hdb.1 (by
          rw [hx, ← he]
          exact List.mem_map_of_mem idf hy)
      rw [hrest]
    · rw [List.find?_cons_of_neg _ (by simpa using hx)]
      rw [List.filter_cons_of_neg (by simp [List.contains_cons, hx])]
      exact ih hdb.2

theorem fetch_fold_spec {ρ ν : Type} [Inhabited ρ] (idf : ρ → String) (conv : ρ → ν)
    (db : List ρ) (refs : List String)
    (hlen : refs.length ≤ 500) (hnd : refs.Nodup)
    (hdb : (db.map idf).Nodup)
    (hfound : ∀ r ∈ refs, (db.find? (fun s => idf s = r)).isSome) :
    (batchedChunks ((refs.length + 499) / 500) refs refs.length).foldl
        (fun acc batch =>
          (db.filter (fun s => batch.contains (idf s))).foldl
            (fun acc2 s => dictInsert acc2 (idf s) (conv s)) acc)
        [] =
      refs.map (fun r => (r, conv ((db.find? (fun s => idf s = r)).getD default))) := by
  cases refs with
  | nil => rfl
  | cons r0 rest =>
    rw [chunkCount_eq_one _ (by simp) hlen]
    rw [batchedChunks_one _ _ (le_refl _)]
    rw [List.foldl_map]
    have hstep : ∀ (acc : List (String × ν)), ∀ r ∈ r0 :: rest,
        (db.filter (fun s => [r].contains (idf s))).foldl
            (fun acc2 s => dictInsert acc2 (idf s) (conv s)) acc =
          dictInsert acc r (conv ((db.find? (fun s => idf s = r)).getD default)) := by
      intro acc r hr
      obtain ⟨s, hs⟩ := Option.isSome_iff_exists.mp (hfound r hr)
      rw [filter_contains_singleton idf db r hdb, hs]
      have hid : idf s = r := by simpa using List.find?_some hs
      simp [hs, hid]
    rw [List.foldl_ext _ _ [] hstep]
    rw [foldl_dictInsert_fresh _ _ [] hnd (by simp [dictKeys])]
    simp

theorem fetch_sources_spec (dbSources : List SourceRow) (refs : List String)
    (hlen : refs.length ≤ 500) (hnd : refs.Nodup)
    (hdb : (dbSources.map (fun s => s.id)).Nodup)
    (hfound : ∀ r ∈ refs, (findSourceById dbSources r).isSome) :
    fetch_collection_of_sources_from_db_by_id dbSources refs =
      .ok (refs.map (fun r => (r, StructureServiceSource.from_orm_model
        ((findSourceById dbSources r).getD default)))) := by
  cases refs with
  | nil => simp [fetch_collection_of_sources_from_db_by_id]
  | cons r0 rest =>
    have hcore := fetch_fold_spec (fun (s : SourceRow) => s.id)
      StructureServiceSource.from_orm_model dbSources (r0 :: rest) hlen hnd hdb hfound
    simp only [fetch_collection_of_sources_from_db_by_id, List.isEmpty_cons,
      Bool.false_eq_true, if_false]
    rw [hcore]
    simp [findSourceById]

theorem fetch_sinks_spec (dbSinks : List SinkRow) (refs : List String)
    (hlen : refs.length ≤ 500) (hnd : refs.Nodup)
    (hdb : (dbSinks.map (fun s => s.id)).Nodup)
    (hfound : ∀ r ∈ refs, (findSinkById dbSinks r).isSome) :
    fetch_collection_of_sinks_from_db_by_id dbSinks refs =
      .ok (refs.map (fun r => (r, StructureServiceSink.from_orm_model
        ((findSinkById dbSinks r).getD default)))) := by
  cases refs with
  | nil => simp [fetch_collection_of_sinks_from_db_by_id]
  | cons r0 rest =>
    have hcore := fetch_fold_spec (fun (s : SinkRow) => s.id)
      StructureServiceSink.from_orm_model dbSinks (r0 :: rest) hlen hnd hdb hfound
    simp only [fetch_collection_of_sinks_from_db_by_id, List.isEmpty_cons,
      Bool.false_eq_true, if_false]
    rw [hcore]
    simp [findSinkById]

theorem resolve_fold_getElem? {σ : Type} (mk : σ → SourceOrSink) (ws : List Wiring)
    (v : String → σ) (i : Nat) :
    (((ws.enum.filter (fun iw => iw.2.adapter_id = "virtual-structure-adapter")).map
          (fun iw => (iw.1, v iw.2.ref_id))).foldl
        (fun acc p => modifyAt (fun w => update_wirings w (mk p.2)) acc p.1) ws)[i]? =
      (ws[i]?).map (fun w =>
        if w.adapter_id = "virtual-structure-adapter" then update_wirings w (mk (v w.ref_id))
        else w) := by
  have hnd : (((ws.enum.filter
      (fun iw => iw.2.adapter_id = "virtual-structure-adapter")).map
        (fun iw => (iw.1, v iw.2.ref_id))).map Prod.fst).Nodup := by
    rw [List.map_map]
    exact vst_enum_fst_nodup ws
  rw [foldl_modifyAt_getElem? (fun s w => update_wirings w (mk s)) _ ws hnd i]
  rw [List.find?_map]
  cases hget : ws[i]? with
  | none =>
    have hfind : (ws.enum.filter
        (fun iw => iw.2.adapter_id = "virtual-structure-adapter")).find?
          ((fun (p : Nat × σ) => decide (p.1 = i)) ∘ (fun iw => (iw.1, v iw.2.ref_id))) = none := by
      rw [List.find?_eq_none]
      intro iw hiw
      have hmem := (List.mem_filter.mp hiw).1
      have := List.mem_enum_iff_getElem?.mp hmem
      simp only [Function.comp_apply, decide_eq_true_eq]
      intro he
      rw [he, hget] at this
      exact Option.noConfusion this
    rw [hfind]
    simp
  | some w =>
    by_cases hvst : w.adapter_id = "virtual-structure-adapter"
    · have hmem : (i, w) ∈ ws.enum.filter
          (fun iw => iw.2.adapter_id = "virtual-structure-adapter") := by
        rw [List.mem_filter]
        exact ⟨List.mem_enum_iff_getElem?.mpr hget, by simpa using hvst⟩
      have hfind : (ws.enum.filter
          (fun iw => iw.2.adapter_id = "virtual-structure-adapter")).find?
            ((fun (p : Nat × σ) => decide (p.1 = i)) ∘ (fun iw => (iw.1, v iw.2.ref_id)))
            = some (i, w) :=
        find?_fst_eq_of_mem_nodup _ i w (vst_enum_fst_nodup ws) hmem
      rw [hfind]
      simp [hget, hvst]
    · have hfind : (ws.enum.filter
          (fun iw => iw.2.adapter_id = "virtual-structure-adapter")).find?
            ((fun (p : Nat × σ) => decide (p.1 = i)) ∘ (fun iw => (iw.1, v iw.2.ref_id)))
            = none := by
        rw [List.find?_eq_none]
        intro iw hiw
        have hmem := (List.mem_filter.mp hiw).1
        have hP := (List.mem_filter.mp hiw).2
        have hg := List.mem_enum_iff_getElem?.mp hmem
        simp only [Function.comp_apply, decide_eq_true_eq]
        intro he
        rw [he, hget] at hg
        have : iw.2 = w := (Option.some.inj hg).symm
        rw [this] at hP
        exact hvst (by simpa using hP)
      rw [hfind]
      simp [hget, hvst]


theorem resolve_ok_spec (db : DBState) (ww : WorkflowWiring)
    (hInNodup : (get_enumerated_ids_of_vst_sources_or_sinks ww.input_wirings).2.Nodup)
    (hOutNodup : (get_enumerated_ids_of_vst_sources_or_sinks ww.output_wirings).2.Nodup)
    (hInLen : (get_enumerated_ids_of_vst_sources_or_sinks ww.input_wirings).2.length ≤ 500)
    (hOutLen : (get_enumerated_ids_of_vst_sources_or_sinks ww.output_wirings).2.length ≤ 500)
    (hdbS : (db.sources.map (fun s => s.id)).Nodup)
    (hdbK : (db.sinks.map (fun s => s.id)).Nodup)
    (hInFound : ∀ r ∈ (get_enumerated_ids_of_vst_sources_or_sinks ww.input_wirings).2,
      (findSourceById db.sources r).isSome)
    (hOutFound : ∀ r ∈ (get_enumerated_ids_of_vst_sources_or_sinks ww.output_wirings).2,
      (findSinkById db.sinks r).isSome) :
    ∃ ww', resolve_virtual_structure_wirings db ww = .ok ww' ∧
      (∀ i : Nat, ww'.input_wirings[i]? =
        (ww.input_wirings[i]?).map (resolvedInputRewrite db)) ∧
      (∀ i : Nat, ww'.output_wirings[i]? =
        (ww.output_wirings[i]?).map (resolvedOutputRewrite db)) := by
  have hIn := get_enumerated_eq ww.input_wirings
  have hOut := get_enumerated_eq ww.output_wirings
  rw [hIn] at hInNodup hInLen hInFound
  rw [hOut] at hOutNodup hOutLen hOutFound
  by_cases hboth : (get_enumerated_ids_of_vst_sources_or_sinks ww.input_wirings).2.isEmpty
      ∧ (get_enumerated_ids_of_vst_sources_or_sinks ww.output_wirings).2.isEmpty
  · -- no virtual wirings at all: resolution returns the wiring unchanged
    refine ⟨ww, ?_, ?_, ?_⟩
    · unfold resolve_virtual_structure_wirings
      rw [if_pos hboth]
    · intro i
      cases hget : ww.input_wirings[i]? with
      | none => rfl
      | some w =>
        have hnv : ¬ w.adapter_id = "virtual-structure-adapter" := by
          intro hvst
          have hmem : (i, w) ∈ ww.input_wirings.enum.filter
              (fun iw => iw.2.adapter_id = "virtual-structure-adapter") := by
            rw [List.mem_filter]
            exact ⟨List.mem_enum_iff_getElem?.mpr hget, by simpa using hvst⟩
          have hemp := hboth.1
          rw [hIn] at hemp
          rw [List.isEmpty_iff] at hemp
          rw [List.map_eq_nil_iff] at hemp
          rw [hemp] at hmem
          exact (List.not_mem_nil _) hmem
        simp [resolvedInputRewrite, hnv]
    · intro i
      cases hget : ww.output_wirings[i]? with
      | none => rfl
      | some w =>
        have hnv : ¬ w.adapter_id = "virtual-structure-adapter" := by
          intro hvst
          have hmem : (i, w) ∈ ww.output_wirings.enum.filter
              (fun iw => iw.2.adapter_id = "virtual-structure-adapter") := by
            rw [List.mem_filter]
            exact ⟨List.mem_enum_iff_getElem?.mpr hget, by simpa using hvst⟩
          have hemp := hboth.2
          rw [hOut] at hemp
          rw [List.isEmpty_iff] at hemp
          rw [List.map_eq_nil_iff] at hemp
          rw [hemp] at hmem
          exact (List.not_mem_nil _) hmem
        simp [resolvedOutputRewrite, hnv]
  · -- at least one virtual wiring: both fetches succeed and the folds rewrite
    have hfetchS := fetch_sources_spec db.sources
      ((ww.input_wirings.enum.filter
        (fun iw => iw.2.adapter_id = "virtual-structure-adapter")).map (fun iw => iw.2.ref_id))
      hInLen hInNodup hdbS hInFound
    have hfetchK := fetch_sinks_spec db.sinks
      ((ww.output_wirings.enum.filter
        (fun iw => iw.2.adapter_id = "virtual-structure-adapter")).map (fun iw => iw.2.ref_id))
      hOutLen hOutNodup hdbK hOutFound
    unfold resolve_virtual_structure_wirings
    rw [if_neg hboth]
    rw [hIn, hOut]
    simp only []
    rw [hfetchS, hfetchK]
    simp only []
    -- the dict values lists
    have hvalS : dictValues
        (((ww.input_wirings.enum.filter
            (fun iw => iw.2.adapter_id = "virtual-structure-adapter")).map
              (fun iw => iw.2.ref_id)).map
          (fun r => (r, StructureServiceSource.from_orm_model
            ((findSourceById db.sources r).getD default)))) =
        ((ww.input_wirings.enum.filter
            (fun iw => iw.2.adapter_id = "virtual-structure-adapter")).map
          (fun iw => StructureServiceSource.from_orm_model
            ((findSourceById db.sources iw.2.ref_id).getD default))) := by
      simp [dictValues, List.map_map, Function.comp]
    have hvalK : dictValues
        (((ww.output_wirings.enum.filter
            (fun iw => iw.2.adapter_id = "virtual-structure-adapter")).map
              (fun iw => iw.2.ref_id)).map
          (fun r => (r, StructureServiceSink.from_orm_model
            ((findSinkById db.sinks r).getD default)))) =
        ((ww.output_wirings.enum.filter
            (fun iw => iw.2.adapter_id = "virtual-structure-adapter")).map
          (fun iw => StructureServiceSink.from_orm_model
            ((findSinkById db.sinks iw.2.ref_id).getD default))) := by
      simp [dictValues, List.map_map, Function.comp]
    rw [hvalS, hvalK]
    have hzipS := zipStrict_eq_some_zip
      ((ww.input_wirings.enum.filter
        (fun iw => iw.2.adapter_id = "virtual-structure-adapter")).map Prod.fst)
      ((ww.input_wirings.enum.filter
          (fun iw => iw.2.adapter_id = "virtual-structure-adapter")).map
        (fun iw => StructureServiceSource.from_orm_model
          ((findSourceById db.sources iw.2.ref_id).getD default)))
      (by simp)
    have hzipK := zipStrict_eq_some_zip
      ((ww.output_wirings.enum.filter
        (fun iw => iw.2.adapter_id = "virtual-structure-adapter")).map Prod.fst)
      ((ww.output_wirings.enum.filter
          (fun iw => iw.2.adapter_id = "virtual-structure-adapter")).map
        (fun iw => StructureServiceSink.from_orm_model
          ((findSinkById db.sinks iw.2.ref_id).getD default)))
      (by simp)
    rw [hzipS, hzipK]
    simp only []
    rw [List.zip_map', List.zip_map']
    refine ⟨_, rfl, ?_, ?_⟩
    · intro i
      exact resolve_fold_getElem? SourceOrSink.src ww.input_wirings
        (fun r => StructureServiceSource.from_orm_model
          ((findSourceById db.sources r).getD default)) i
    · intro i
      exact resolve_fold_getElem? SourceOrSink.sink ww.output_wirings
        (fun r => StructureServiceSink.from_orm_model
          ((findSinkById db.sinks r).getD default)) i

theorem zipStrict_some_spec {α β : Type} (as : List α) (bs : List β) (ps : List (α × β))
    (h : zipStrict as bs = some ps) : as.length = bs.length ∧ ps = as.zip bs := by
  by_cases hl : as.length = bs.length
  · rw [zipStrict_eq_some_zip as bs hl] at h
    exact ⟨hl, (Option.some.inj h).symm⟩
  · rw [zipStrict_eq_none_of_length_ne as bs hl] at h
    cases h

theorem passthrough_fold_unchanged (ws : List Wiring) {σ : Type} (mk : σ → SourceOrSink)
    (pairs : List (Nat × σ))
    (hfst : pairs.map Prod.fst = (ws.enum.filter
      (fun iw => iw.2.adapter_id = "virtual-structure-adapter")).map Prod.fst)
    (i : Nat) (w : Wiring) (hget : ws[i]? = some w)
    (hnv : w.adapter_id ≠ "virtual-structure-adapter") :
    (pairs.foldl (fun acc p => modifyAt (fun x => update_wirings x (mk p.2)) acc p.1) ws)[i]?
      = some w := by
  have hnd : (pairs.map Prod.fst).Nodup := by
    rw [hfst]
    exact vst_enum_fst_nodup ws
  rw [foldl_modifyAt_getElem? (fun s x => update_wirings x (mk s)) pairs ws hnd i]
  have hfind : pairs.find? (fun p => p.1 = i) = none := by
    rw [List.find?_eq_none]
    intro p hp
    simp only [decide_eq_true_eq]
    intro he
    have hpmem : p.1 ∈ pairs.map Prod.fst := List.mem_map_of_mem Prod.fst hp
    rw [hfst] at hpmem
    obtain ⟨iw, hiwL, hiw1⟩ := List.mem_map.mp hpmem
    have hmemf := List.mem_filter.mp hiwL
    have hgetiw := List.mem_enum_iff_getElem?.mp hmemf.1
    rw [hiw1, he, hget] at hgetiw
    have : iw.2 = w := (Option.some.inj hgetiw).symm
    rw [this] at hmemf
    exact hnv (by simpa using hmemf.2)
  rw [hfind, hget]

/-- C9: a wiring whose `adapter_id` is not the virtual structure adapter
is, whenever resolution returns, exactly equal to its pre-resolution
self at the same position, regardless of what the other wirings are. -/
theorem resolver_passthrough_non_vst (db : DBState) (ww ww' : WorkflowWiring)
    (hok : resolve_virtual_structure_wirings db ww = .ok ww') :
    (∀ (i : Nat) (w : Wiring), ww.input_wirings[i]? = some w →
        w.adapter_id ≠ "virtual-structure-adapter" → ww'.input_wirings[i]? = some w)
      ∧ (∀ (i : Nat) (w : Wiring), ww.output_wirings[i]? = some w →
        w.adapter_id ≠ "virtual-structure-adapter" → ww'.output_wirings[i]? = some w) := by
  simp only [resolve_virtual_structure_wirings] at hok
  by_cases hboth : ((get_enumerated_ids_of_vst_sources_or_sinks ww.input_wirings).2.isEmpty
      ∧ (get_enumerated_ids_of_vst_sources_or_sinks ww.output_wirings).2.isEmpty)
  · rw [if_pos hboth] at hok
    obtain rfl := Except.ok.inj hok
    exact ⟨fun i w h _ => h, fun i w h _ => h⟩
  · rw [if_neg hboth] at hok
    cases hf1 : fetch_collection_of_sources_from_db_by_id db.sources
        (get_enumerated_ids_of_vst_sources_or_sinks ww.input_wirings).2 with
    | error e =>
      rw [hf1] at hok
      cases e <;> simp at hok
    | ok vs =>
      rw [hf1] at hok
      simp only [] at hok
      cases hf2 : fetch_collection_of_sinks_from_db_by_id db.sinks
          (get_enumerated_ids_of_vst_sources_or_sinks ww.output_wirings).2 with
      | error e =>
        rw [hf2] at hok
        cases e <;> simp at hok
      | ok ks =>
        rw [hf2] at hok
        simp only [] at hok
        cases hz1 : zipStrict
            (get_enumerated_ids_of_vst_sources_or_sinks ww.input_wirings).1
            (dictValues vs) with
        | none =>
          rw [hz1] at hok
          simp at hok
        | some inPairs =>
          rw [hz1] at hok
          simp only [] at hok
          cases hz2 : zipStrict
              (get_enumerated_ids_of_vst_sources_or_sinks ww.output_wirings).1
              (dictValues ks) with
          | none =>
            rw [hz2] at hok
            simp at hok
          | some outPairs =>
            rw [hz2] at hok
            simp only [] at hok
            obtain rfl := (Except.ok.inj hok).symm
            have hfstIn : inPairs.map Prod.fst =
                (ww.input_wirings.enum.filter
                  (fun iw => iw.2.adapter_id = "virtual-structure-adapter")).map Prod.fst := by
              obtain ⟨hlen, hzeq⟩ := zipStrict_some_spec _ _ _ hz1
              rw [hzeq, List.map_fst_zip _ _ (le_of_eq hlen)]
              rw [get_enumerated_eq]
            have hfstOut : outPairs.map Prod.fst =
                (ww.output_wirings.enum.filter
                  (fun iw => iw.2.adapter_id = "virtual-structure-adapter")).map Prod.fst := by
              obtain ⟨hlen, hzeq⟩ := zipStrict_some_spec _ _ _ hz2
              rw [hzeq, List.map_fst_zip _ _ (le_of_eq hlen)]
              rw [get_enumerated_eq]
            constructor
            · intro i w hget hnv
              exact passthrough_fold_unchanged ww.input_wirings SourceOrSink.src inPairs
                hfstIn i w hget hnv
            · intro i w hget hnv
              exact passthrough_fold_unchanged ww.output_wirings SourceOrSink.sink outPairs
                hfstOut i w hget hnv

/-! ## C2, C4, C9: wiring resolver rewrite claims -/

theorem update_wirings_filters (w : Wiring) (ss : SourceOrSink) :
    (update_wirings w ss).filters = dictUnion w.filters ss.preset_filters := by
  by_cases ht : w.type = "metadata(any)" <;> simp [update_wirings, ht]

/-- C2: for every wiring rewritten by the resolver, the resulting
filters map is the caller filters dict-merged with the referenced
source's or sink's `preset_filters`: on key collision the preset value
wins, keys present in only one map keep their value. -/
theorem resolver_filter_merge (db : DBState) (ww : WorkflowWiring)
    (hInNodup : (get_enumerated_ids_of_vst_sources_or_sinks ww.input_wirings).2.Nodup)
    (hOutNodup : (get_enumerated_ids_of_vst_sources_or_sinks ww.output_wirings).2.Nodup)
    (hInLen : (get_enumerated_ids_of_vst_sources_or_sinks ww.input_wirings).2.length ≤ 500)
    (hOutLen : (get_enumerated_ids_of_vst_sources_or_sinks ww.output_wirings).2.length ≤ 500)
    (hdbS : (db.sources.map (fun s => s.id)).Nodup)
    (hdbK : (db.sinks.map (fun s => s.id)).Nodup)
    (hInFound : ∀ r ∈ (get_enumerated_ids_of_vst_sources_or_sinks ww.input_wirings).2,
      (findSourceById db.sources r).isSome)
    (hOutFound : ∀ r ∈ (get_enumerated_ids_of_vst_sources_or_sinks ww.output_wirings).2,
      (findSinkById db.sinks r).isSome)
    (hPresetS : ∀ s ∈ db.sources, (dictKeys s.preset_filters).Nodup)
    (hPresetK : ∀ s ∈ db.sinks, (dictKeys s.preset_filters).Nodup) :
    ∃ ww', resolve_virtual_structure_wirings db ww = .ok ww'
      ∧ (∀ (i : Nat) (w : Wiring), ww.input_wirings[i]? = some w →
          w.adapter_id = "virtual-structure-adapter" →
          ∃ (s : SourceRow) (w' : Wiring), findSourceById db.sources w.ref_id = some s
            ∧ ww'.input_wirings[i]? = some w'
            ∧ ∀ k : String, dictFind? w'.filters k =
                match dictFind? s.preset_filters k with
                | some v => some v
                | none => dictFind? w.filters k)
      ∧ (∀ (i : Nat) (w : Wiring), ww.output_wirings[i]? = some w →
          w.adapter_id = "virtual-structure-adapter" →
          ∃ (s : SinkRow) (w' : Wiring), findSinkById db.sinks w.ref_id = some s
            ∧ ww'.output_wirings[i]? = some w'
            ∧ ∀ k : String, dictFind? w'.filters k =
                match dictFind? s.preset_filters k with
                | some v => some v
                | none => dictFind? w.filters k) := by
  obtain ⟨ww', hok, hin, hout⟩ := resolve_ok_spec db ww hInNodup hOutNodup hInLen hOutLen
    hdbS hdbK hInFound hOutFound
  refine ⟨ww', hok, ?_, ?_⟩
  · intro i w hget hvst
    have hrefmem : w.ref_id ∈
        (get_enumerated_ids_of_vst_sources_or_sinks ww.input_wirings).2 := by
      rw [get_enumerated_eq]
      refine List.mem_map.mpr ⟨(i, w), ?_, rfl⟩
      rw [List.mem_filter]
      exact ⟨List.mem_enum_iff_getElem?.mpr hget, by simpa using hvst⟩
    obtain ⟨s, hs⟩ := Option.isSome_iff_exists.mp (hInFound w.ref_id hrefmem)
    have hw' := hin i
    rw [hget] at hw'
    refine ⟨s, resolvedInputRewrite db w, hs, by simpa using hw', ?_⟩
    intro k
    have hfilters : (resolvedInputRewrite db w).filters =
        dictUnion w.filters s.preset_filters := by
      rw [resolvedInputRewrite, if_pos hvst, hs]
      rw [update_wirings_filters]
      rfl
    rw [hfilters]
    have hd := dictFind?_dictUnion w.filters s.preset_filters k
      (hPresetS s (List.mem_of_find?_eq_some hs))
    cases hpre : dictFind? s.preset_filters k <;>
      simp only [hpre] at hd ⊢ <;> exact hd
  · intro i w hget hvst
    have hrefmem : w.ref_id ∈
        (get_enumerated_ids_of_vst_sources_or_sinks ww.output_wirings).2 := by
      rw [get_enumerated_eq]
      refine List.mem_map.mpr ⟨(i, w), ?_, rfl⟩
      rw [List.mem_filter]
      exact ⟨List.mem_enum_iff_getElem?.mpr hget, by simpa using hvst⟩
    obtain ⟨s, hs⟩ := Option.isSome_iff_exists.mp (hOutFound w.ref_id hrefmem)
    have hw' := hout i
    rw [hget] at hw'
    refine ⟨s, resolvedOutputRewrite db w, hs, by simpa using hw', ?_⟩
    intro k
    have hfilters : (resolvedOutputRewrite db w).filters =
        dictUnion w.filters s.preset_filters := by
      rw [resolvedOutputRewrite, if_pos hvst, hs]
      rw [update_wirings_filters]
      rfl
    rw [hfilters]
    have hd := dictFind?_dictUnion w.filters s.preset_filters k
      (hPresetK s (List.mem_of_find?_eq_some hs))
    cases hpre : dictFind? s.preset_filters k <;>
      simp only [hpre] at hd ⊢ <;> exact hd

/-- C4 (amended): when the virtual references are pairwise distinct, each
resolves, at most 500 per direction, and the store has unique ids, every
virtual-structure wiring is rewritten from exactly the stored source
(inputs) or sink (outputs) whose internal UUID equals its pre-resolution
`ref_id`, for every ordering of the wirings; the field equations of the
claim hold.  (Two wirings referencing the same entry instead abort
resolution with a zip length-mismatch `ValueError`; see the
counterexample.) -/
theorem resolver_rewrite_from_referenced_entry (db : DBState) (ww : WorkflowWiring)
    (hInNodup : (get_enumerated_ids_of_vst_sources_or_sinks ww.input_wirings).2.Nodup)
    (hOutNodup : (get_enumerated_ids_of_vst_sources_or_sinks ww.output_wirings).2.Nodup)
    (hInLen : (get_enumerated_ids_of_vst_sources_or_sinks ww.input_wirings).2.length ≤ 500)
    (hOutLen : (get_enumerated_ids_of_vst_sources_or_sinks ww.output_wirings).2.length ≤ 500)
    (hdbS : (db.sources.map (fun s => s.id)).Nodup)
    (hdbK : (db.sinks.map (fun s => s.id)).Nodup)
    (hInFound : ∀ r ∈ (get_enumerated_ids_of_vst_sources_or_sinks ww.input_wirings).2,
      (findSourceById db.sources r).isSome)
    (hOutFound : ∀ r ∈ (get_enumerated_ids_of_vst_sources_or_sinks ww.output_wirings).2,
      (findSinkById db.sinks r).isSome) :
    ∃ ww', resolve_virtual_structure_wirings db ww = .ok ww'
      ∧ (∀ (i : Nat) (w : Wiring), ww.input_wirings[i]? = some w →
          w.adapter_id = "virtual-structure-adapter" →
          ∃ (s : SourceRow) (w' : Wiring), findSourceById db.sources w.ref_id = some s
            ∧ ww'.input_wirings[i]? = some w'
            ∧ w'.adapter_id = s.adapter_key
            ∧ (w.type = "metadata(any)" → w'.ref_id = s.ref_id ∧ w'.ref_key = s.ref_key
                ∧ w'.ref_id_type = some RefIdType.THINGNODE)
            ∧ (w.type ≠ "metadata(any)" → w'.ref_id = s.source_id))
      ∧ (∀ (i : Nat) (w : Wiring), ww.output_wirings[i]? = some w →
          w.adapter_id = "virtual-structure-adapter" →
          ∃ (s : SinkRow) (w' : Wiring), findSinkById db.sinks w.ref_id = some s
            ∧ ww'.output_wirings[i]? = some w'
            ∧ w'.adapter_id = s.adapter_key
            ∧ (w.type = "metadata(any)" → w'.ref_id = s.ref_id ∧ w'.ref_key = s.ref_key
                ∧ w'.ref_id_type = some RefIdType.THINGNODE)
            ∧ (w.type ≠ "metadata(any)" → w'.ref_id = s.sink_id)) := by
  obtain ⟨ww', hok, hin, hout⟩ := resolve_ok_spec db ww hInNodup hOutNodup hInLen hOutLen
    hdbS hdbK hInFound hOutFound
  refine ⟨ww', hok, ?_, ?_⟩
  · intro i w hget hvst
    have hrefmem : w.ref_id ∈ (get_enumerated_ids_of_vst_sources_or_sinks ww.input_wirings).2 := by
      rw [get_enumerated_eq]
      refine List.mem_map.mpr ⟨(i, w), ?_, rfl⟩
      rw [List.mem_filter]
      exact ⟨List.mem_enum_iff_getElem?.mpr hget, by simpa using hvst⟩
    obtain ⟨s, hs⟩ := Option.isSome_iff_exists.mp (hInFound w.ref_id hrefmem)
    have hw' := hin i
    rw [hget] at hw'
    refine ⟨s, resolvedInputRewrite db w, hs, by simpa using hw', ?_, ?_, ?_⟩
    · simp [resolvedInputRewrite, hvst, hs, update_wirings, StructureServiceSource.from_orm_model,
        SourceOrSink.adapter_key]
      by_cases ht : w.type = "metadata(any)" <;> simp [ht]
    · intro ht
      simp [resolvedInputRewrite, hvst, hs, update_wirings, ht,
        StructureServiceSource.from_orm_model, SourceOrSink.ref_id, SourceOrSink.ref_key]
    · intro ht
      simp [resolvedInputRewrite, hvst, hs, update_wirings, ht,
        StructureServiceSource.from_orm_model]
  · intro i w hget hvst
    have hrefmem : w.ref_id ∈
        (get_enumerated_ids_of_vst_sources_or_sinks ww.output_wirings).2 := by
      rw [get_enumerated_eq]
      refine List.mem_map.mpr ⟨(i, w), ?_, rfl⟩
      rw [List.mem_filter]
      exact ⟨List.mem_enum_iff_getElem?.mpr hget, by simpa using hvst⟩
    obtain ⟨s, hs⟩ := Option.isSome_iff_exists.mp (hOutFound w.ref_id hrefmem)
    have hw' := hout i
    rw [hget] at hw'
    refine ⟨s, resolvedOutputRewrite db w, hs, by simpa using hw', ?_, ?_, ?_⟩
    · simp [resolvedOutputRewrite, hvst, hs, update_wirings, StructureServiceSink.from_orm_model,
        SourceOrSink.adapter_key]
      by_cases ht : w.type = "metadata(any)" <;> simp [ht]
    · intro ht
      simp [resolvedOutputRewrite, hvst, hs, update_wirings, ht,
        StructureServiceSink.from_orm_model, SourceOrSink.ref_id, SourceOrSink.ref_key]
    · intro ht
      simp [resolvedOutputRewrite, hvst, hs, update_wirings, ht,
        StructureServiceSink.from_orm_model]

/-- Witness for C9: a concrete resolution that rewrites one virtual
wiring and passes the non-virtual wiring through unchanged. -/
theorem resolver_passthrough_non_vst_witness :
    resolve_virtual_structure_wirings demoResolveDB demoPassWW = .ok demoPassResolved
      ∧ demoPassWW.input_wirings[0]? = some demoPlainWiring
      ∧ demoPlainWiring.adapter_id ≠ "virtual-structure-adapter"
      ∧ demoPassResolved.input_wirings[0]? = some demoPlainWiring := by
  have hok : resolve_virtual_structure_wirings demoResolveDB demoPassWW
      = .ok demoPassResolved := by decide
  exact ⟨hok, rfl, by decide,
    (resolver_passthrough_non_vst demoResolveDB demoPassWW demoPassResolved hok).1
      0 demoPlainWiring rfl (by decide)⟩

/-- Witness for C4 at a concrete store and wiring (three input wirings in
scrambled order, one output wiring, all referenced entries present and
distinct). -/
theorem resolver_rewrite_witness :
    ((get_enumerated_ids_of_vst_sources_or_sinks demoRewWW.input_wirings).2.Nodup
      ∧ (get_enumerated_ids_of_vst_sources_or_sinks demoRewWW.output_wirings).2.Nodup
      ∧ (get_enumerated_ids_of_vst_sources_or_sinks demoRewWW.input_wirings).2.length ≤ 500
      ∧ (get_enumerated_ids_of_vst_sources_or_sinks demoRewWW.output_wirings).2.length ≤ 500
      ∧ (demoResolveDB.sources.map (fun s => s.id)).Nodup
      ∧ (demoResolveDB.sinks.map (fun s => s.id)).Nodup
      ∧ (∀ r ∈ (get_enumerated_ids_of_vst_sources_or_sinks demoRewWW.input_wirings).2,
          (findSourceById demoResolveDB.sources r).isSome)
      ∧ (∀ r ∈ (get_enumerated_ids_of_vst_sources_or_sinks demoRewWW.output_wirings).2,
          (findSinkById demoResolveDB.sinks r).isSome))
    ∧ (∃ ww', resolve_virtual_structure_wirings demoResolveDB demoRewWW = .ok ww'
      ∧ (∀ (i : Nat) (w : Wiring), demoRewWW.input_wirings[i]? = some w →
          w.adapter_id = "virtual-structure-adapter" →
          ∃ (s : SourceRow) (w' : Wiring),
            findSourceById demoResolveDB.sources w.ref_id = some s
            ∧ ww'.input_wirings[i]? = some w'
            ∧ w'.adapter_id = s.adapter_key
            ∧ (w.type = "metadata(any)" → w'.ref_id = s.ref_id ∧ w'.ref_key = s.ref_key
                ∧ w'.ref_id_type = some RefIdType.THINGNODE)
            ∧ (w.type ≠ "metadata(any)" → w'.ref_id = s.source_id))
      ∧ (∀ (i : Nat) (w : Wiring), demoRewWW.output_wirings[i]? = some w →
          w.adapter_id = "virtual-structure-adapter" →
          ∃ (s : SinkRow) (w' : Wiring),
            findSinkById demoResolveDB.sinks w.ref_id = some s
            ∧ ww'.output_wirings[i]? = some w'
            ∧ w'.adapter_id = s.adapter_key
            ∧ (w.type = "metadata(any)" → w'.ref_id = s.ref_id ∧ w'.ref_key = s.ref_key
                ∧ w'.ref_id_type = some RefIdType.THINGNODE)
            ∧ (w.type ≠ "metadata(any)" → w'.ref_id = s.sink_id))) :=
  ⟨⟨by decide, by decide, by decide, by decide, by decide, by decide, by decide, by decide⟩,
    resolver_rewrite_from_referenced_entry demoResolveDB demoRewWW
      (by decide) (by decide) (by decide) (by decide) (by decide) (by decide)
      (by decide) (by decide)⟩

/-- Counterexample to C4 as frozen: two input wirings referencing the
same stored source make the strict zip of `enumerate` indices against
the deduplicated fetch dict fail, so resolution raises a `ValueError`
instead of rewriting both wirings. -/
theorem resolver_rewrite_duplicate_ref_counterexample :
    resolve_virtual_structure_wirings demoResolveDB demoDupWW
      = .error (.valueError "zip() arguments of unequal length") := by decide

/-- Witness for C2 at the same concrete store and wiring. -/
theorem resolver_filter_merge_witness :
    ((get_enumerated_ids_of_vst_sources_or_sinks demoRewWW.input_wirings).2.Nodup
      ∧ (get_enumerated_ids_of_vst_sources_or_sinks demoRewWW.output_wirings).2.Nodup
      ∧ (get_enumerated_ids_of_vst_sources_or_sinks demoRewWW.input_wirings).2.length ≤ 500
      ∧ (get_enumerated_ids_of_vst_sources_or_sinks demoRewWW.output_wirings).2.length ≤ 500
      ∧ (demoResolveDB.sources.map (fun s => s.id)).Nodup
      ∧ (demoResolveDB.sinks.map (fun s => s.id)).Nodup
      ∧ (∀ r ∈ (get_enumerated_ids_of_vst_sources_or_sinks demoRewWW.input_wirings).2,
          (findSourceById demoResolveDB.sources r).isSome)
      ∧ (∀ r ∈ (get_enumerated_ids_of_vst_sources_or_sinks demoRewWW.output_wirings).2,
          (findSinkById demoResolveDB.sinks r).isSome)
      ∧ (∀ s ∈ demoResolveDB.sources, (dictKeys s.preset_filters).Nodup)
      ∧ (∀ s ∈ demoResolveDB.sinks, (dictKeys s.preset_filters).Nodup))
    ∧ (∃ ww', resolve_virtual_structure_wirings demoResolveDB demoRewWW = .ok ww'
      ∧ (∀ (i : Nat) (w : Wiring), demoRewWW.input_wirings[i]? = some w →
          w.adapter_id = "virtual-structure-adapter" →
          ∃ (s : SourceRow) (w' : Wiring),
            findSourceById demoResolveDB.sources w.ref_id = some s
            ∧ ww'.input_wirings[i]? = some w'
            ∧ ∀ k : String, dictFind? w'.filters k =
                match dictFind? s.preset_filters k with
                | some v => some v
                | none => dictFind? w.filters k)
      ∧ (∀ (i : Nat) (w : Wiring), demoRewWW.output_wirings[i]? = some w →
          w.adapter_id = "virtual-structure-adapter" →
          ∃ (s : SinkRow) (w' : Wiring),
            findSinkById demoResolveDB.sinks w.ref_id = some s
            ∧ ww'.output_wirings[i]? = some w'
            ∧ ∀ k : String, dictFind? w'.filters k =
                match dictFind? s.preset_filters k with
                | some v => some v
                | none => dictFind? w.filters k)) :=
  ⟨⟨by decide, by decide, by decide, by decide, by decide, by decide, by decide, by decide,
      by decide, by decide⟩,
    resolver_filter_merge demoResolveDB demoRewWW
      (by decide) (by decide) (by decide) (by decide) (by decide) (by decide)
      (by decide) (by decide) (by decide) (by decide)⟩

/-! ## C3: missing-reference failure policy -/

theorem dictInsert_ne_nil {ν : Type} (m : List (String × ν)) (k : String) (v : ν) :
    dictInsert m k v ≠ [] := by
  cases m with
  | nil => simp [dictInsert]
  | cons kv rest =>
    obtain ⟨k0, v0⟩ := kv
    by_cases h : k0 = k <;> simp [dictInsert, h]

theorem foldl_dictInsert_eq_nil_iff {ρ ν : Type} (f : ρ → String) (g : ρ → ν) (l : List ρ)
    (acc : List (String × ν)) :
    l.foldl (fun a s => dictInsert a (f s) (g s)) acc = [] ↔ acc = [] ∧ l = [] := by
  induction l generalizing acc with
  | nil => simp
  | cons s rest ih =>
    simp only [List.foldl_cons]
    rw [ih]
    simp [dictInsert_ne_nil]

theorem outer_fold_eq_nil_iff {ρ ν : Type} (idf : ρ → String) (conv : ρ → ν) (db : List ρ)
    (batches : List (List String)) (acc : List (String × ν)) :
    batches.foldl
        (fun a batch => (db.filter (fun s => batch.contains (idf s))).foldl
          (fun a2 s => dictInsert a2 (idf s) (conv s)) a) acc = []
      ↔ acc = [] ∧ ∀ b ∈ batches, db.filter (fun s => b.contains (idf s)) = [] := by
  induction batches generalizing acc with
  | nil => simp
  | cons b rest ih =>
    simp only [List.foldl_cons]
    rw [ih]
    rw [foldl_dictInsert_eq_nil_iff idf conv]
    constructor
    · rintro ⟨⟨h1, h2⟩, h3⟩
      exact ⟨h1, by
        intro b2 hb2
        rcases List.mem_cons.mp hb2 with rfl | hb2
        · exact h2
        · exact h3 b2 hb2⟩
    · rintro ⟨h1, h2⟩
      exact ⟨⟨h1, h2 b (List.mem_cons_self b rest)⟩, fun b2 hb2 => h2 b2 (List.mem_cons_of_mem b hb2)⟩

theorem batch_filters_nil_iff {ρ : Type} (idf : ρ → String) (db : List ρ)
    (refs : List String) (n : Nat) (hn : 1 ≤ n) :
    (∀ b ∈ batchedChunks n refs refs.length,
        db.filter (fun s => b.contains (idf s)) = [])
      ↔ ∀ s ∈ db, idf s ∉ refs := by
  have hflat : (batchedChunks n refs refs.length).flatten = refs :=
    flatten_batchedChunks refs.length n refs hn (le_refl _)
  constructor
  · intro h s hs hmem
    rw [← hflat] at hmem
    obtain ⟨b, hb, hsb⟩ := List.mem_flatten.mp hmem
    have hfil := h b hb
    rw [List.filter_eq_nil_iff] at hfil
    exact hfil s hs (by
      simp only [List.contains_iff_exists_mem_beq]
      exact ⟨idf s, hsb, by simp⟩)
  · intro h b hb
    rw [List.filter_eq_nil_iff]
    intro s hs
    simp only [List.contains_iff_exists_mem_beq]
    rintro ⟨a, hab, hbeq⟩
    have : idf s = a := by simpa using hbeq
    subst this
    exact h s hs (by
      rw [← hflat]
      exact List.mem_flatten.mpr ⟨b, hb, hab⟩)

theorem fetch_sources_notFound_iff (db : List SourceRow) (refs : List String) :
    (fetch_collection_of_sources_from_db_by_id db refs
        = .error (.notFound "No StructureServiceSources found for IDs"))
      ↔ (refs ≠ [] ∧ ∀ s ∈ db, s.id ∉ refs) := by
  cases refs with
  | nil => simp [fetch_collection_of_sources_from_db_by_id]
  | cons r0 rest =>
    have hn : 1 ≤ ((r0 :: rest).length + 499) / 500 := by
      have : 1 ≤ (r0 :: rest).length := by simp
      omega
    simp only [fetch_collection_of_sources_from_db_by_id, List.isEmpty_cons,
      Bool.false_eq_true, if_false]
    by_cases hm : ((batchedChunks (((r0 :: rest).length + 499) / 500) (r0 :: rest)
        (r0 :: rest).length).foldl
          (fun acc batch => (db.filter (fun s => batch.contains s.id)).foldl
            (fun acc2 s => dictInsert acc2 s.id (StructureServiceSource.from_orm_model s)) acc)
          []) = []
    · rw [hm]
      simp only [List.isEmpty_nil, if_true]
      have hforall := (outer_fold_eq_nil_iff (fun (s : SourceRow) => s.id)
        StructureServiceSource.from_orm_model db _ []).mp hm
      rw [batch_filters_nil_iff (fun (s : SourceRow) => s.id) db (r0 :: rest) _ hn] at hforall
      constructor
      · intro _
        exact ⟨by simp, hforall.2⟩
      · intro _
        trivial
    · have hne : ¬ ((batchedChunks (((r0 :: rest).length + 499) / 500) (r0 :: rest)
          (r0 :: rest).length).foldl
            (fun acc batch => (db.filter (fun s => batch.contains s.id)).foldl
              (fun acc2 s => dictInsert acc2 s.id (StructureServiceSource.from_orm_model s)) acc)
            []).isEmpty = true := by
        rw [List.isEmpty_iff]
        exact hm
      rw [if_neg hne]
      constructor
      · intro h
        exact absurd h (by simp)
      · rintro ⟨_, hall⟩
        exfalso
        apply hm
        rw [outer_fold_eq_nil_iff (fun (s : SourceRow) => s.id)
          StructureServiceSource.from_orm_model db _ []]
        exact ⟨rfl, (batch_filters_nil_iff (fun (s : SourceRow) => s.id) db (r0 :: rest) _
          hn).mpr hall⟩


theorem fetch_sinks_notFound_iff (db : List SinkRow) (refs : List String) :
    (fetch_collection_of_sinks_from_db_by_id db refs
        = .error (.notFound "No StructureServiceSinks found for IDs"))
      ↔ (refs ≠ [] ∧ ∀ s ∈ db, s.id ∉ refs) := by
  cases refs with
  | nil => simp [fetch_collection_of_sinks_from_db_by_id]
  | cons r0 rest =>
    have hn : 1 ≤ ((r0 :: rest).length + 499) / 500 := by
      have : 1 ≤ (r0 :: rest).length := by simp
      omega
    simp only [fetch_collection_of_sinks_from_db_by_id, List.isEmpty_cons,
      Bool.false_eq_true, if_false]
    by_cases hm : ((batchedChunks (((r0 :: rest).length + 499) / 500) (r0 :: rest)
        (r0 :: rest).length).foldl
          (fun acc batch => (db.filter (fun s => batch.contains s.id)).foldl
            (fun acc2 s => dictInsert acc2 s.id (StructureServiceSink.from_orm_model s)) acc)
          []) = []
    · rw [hm]
      simp only [List.isEmpty_nil, if_true]
      have hforall := (outer_fold_eq_nil_iff (fun (s : SinkRow) => s.id)
        StructureServiceSink.from_orm_model db _ []).mp hm
      rw [batch_filters_nil_iff (fun (s : SinkRow) => s.id) db (r0 :: rest) _ hn] at hforall
      constructor
      · intro _
        exact ⟨by simp, hforall.2⟩
      · intro _
        trivial
    · have hne : ¬ ((batchedChunks (((r0 :: rest).length + 499) / 500) (r0 :: rest)
          (r0 :: rest).length).foldl
            (fun acc batch => (db.filter (fun s => batch.contains s.id)).foldl
              (fun acc2 s => dictInsert acc2 s.id (StructureServiceSink.from_orm_model s)) acc)
            []).isEmpty = true := by
        rw [List.isEmpty_iff]
        exact hm
      rw [if_neg hne]
      constructor
      · intro h
        exact absurd h (by simp)
      · rintro ⟨_, hall⟩
        exfalso
        apply hm
        rw [outer_fold_eq_nil_iff (fun (s : SinkRow) => s.id)
          StructureServiceSink.from_orm_model db _ []]
        exact ⟨rfl, (batch_filters_nil_iff (fun (s : SinkRow) => s.id) db (r0 :: rest) _
          hn).mpr hall⟩

theorem dictKeys_foldl_dictInsert_nodup {ρ ν : Type} (f : ρ → String) (g : ρ → ν)
    (l : List ρ) (acc : List (String × ν)) (hacc : (dictKeys acc).Nodup) :
    (dictKeys (l.foldl (fun a s => dictInsert a (f s) (g s)) acc)).Nodup := by
  induction l generalizing acc with
  | nil => exact hacc
  | cons s rest ih =>
    simp only [List.foldl_cons]
    refine ih _ ?_
    rw [dictKeys_dictInsert]
    by_cases h : f s ∈ dictKeys acc
    · rw [if_pos h]
      exact hacc
    · rw [if_neg h]
      rw [List.nodup_append]
      exact ⟨hacc, List.nodup_singleton _, by simpa using h⟩

theorem dictKeys_foldl_dictInsert_subset {ρ ν : Type} (f : ρ → String) (g : ρ → ν)
    (l : List ρ) (acc : List (String × ν)) (k : String)
    (hk : k ∈ dictKeys (l.foldl (fun a s => dictInsert a (f s) (g s)) acc)) :
    k ∈ dictKeys acc ∨ ∃ s ∈ l, f s = k := by
  induction l generalizing acc with
  | nil => exact Or.inl hk
  | cons s rest ih =>
    simp only [List.foldl_cons] at hk
    rcases ih _ hk with hacc2 | hrest
    · rw [dictKeys_dictInsert] at hacc2
      by_cases h : f s ∈ dictKeys acc
      · rw [if_pos h] at hacc2
        exact Or.inl hacc2
      · rw [if_neg h] at hacc2
        rcases List.mem_append.mp hacc2 with h1 | h2
        · exact Or.inl h1
        · exact Or.inr ⟨s, List.mem_cons_self s rest, (List.mem_singleton.mp h2).symm⟩
    · obtain ⟨s2, hs2, he⟩ := hrest
      exact Or.inr ⟨s2, List.mem_cons_of_mem s hs2, he⟩

theorem outer_fold_keys_nodup {ρ ν : Type} (idf : ρ → String) (conv : ρ → ν) (db : List ρ)
    (batches : List (List String)) (acc : List (String × ν))
    (hacc : (dictKeys acc).Nodup) :
    (dictKeys (batches.foldl
        (fun a batch => (db.filter (fun s => batch.contains (idf s))).foldl
          (fun a2 s => dictInsert a2 (idf s) (conv s)) a) acc)).Nodup := by
  induction batches generalizing acc with
  | nil => exact hacc
  | cons b rest ih =>
    simp only [List.foldl_cons]
    exact ih _ (dictKeys_foldl_dictInsert_nodup idf conv _ acc hacc)

theorem outer_fold_keys_origin {ρ ν : Type} (idf : ρ → String) (conv : ρ → ν) (db : List ρ)
    (batches : List (List String)) (acc : List (String × ν)) (k : String)
    (hk : k ∈ dictKeys (batches.foldl
        (fun a batch => (db.filter (fun s => batch.contains (idf s))).foldl
          (fun a2 s => dictInsert a2 (idf s) (conv s)) a) acc)) :
    k ∈ dictKeys acc
      ∨ ∃ b ∈ batches, ∃ s ∈ db, idf s = k ∧ (b.contains (idf s)) = true := by
  induction batches generalizing acc with
  | nil => exact Or.inl hk
  | cons b rest ih =>
    simp only [List.foldl_cons] at hk
    rcases ih _ hk with hacc2 | hrest
    · rcases dictKeys_foldl_dictInsert_subset idf conv _ acc k hacc2 with h1 | h2
      · exact Or.inl h1
      · obtain ⟨s, hsf, he⟩ := h2
        have := List.mem_filter.mp hsf
        exact Or.inr ⟨b, List.mem_cons_self b rest, s, this.1, he, this.2⟩
    · obtain ⟨b2, hb2, s, hs, he, hc⟩ := hrest
      exact Or.inr ⟨b2, List.mem_cons_of_mem b hb2, s, hs, he, hc⟩


theorem nodup_subset_length_lt (keys refs : List String) (r : String)
    (hnd : keys.Nodup) (hsub : ∀ k ∈ keys, k ∈ refs ∧ k ≠ r) (hr : r ∈ refs) :
    keys.length < refs.length := by
  have h1 : keys.toFinset.card = keys.length := List.toFinset_card_of_nodup hnd
  have hsubset : keys.toFinset ⊆ refs.toFinset.erase r := by
    intro k hk
    rw [List.mem_toFinset] at hk
    rw [Finset.mem_erase]
    exact ⟨(hsub k hk).2, List.mem_toFinset.mpr (hsub k hk).1⟩
  have h2 : keys.toFinset.card ≤ (refs.toFinset.erase r).card := Finset.card_le_card hsubset
  have h3 : (refs.toFinset.erase r).card = refs.toFinset.card - 1 :=
    Finset.card_erase_of_mem (List.mem_toFinset.mpr hr)
  have h4 : refs.toFinset.card ≤ refs.length := refs.toFinset_card_le
  have h5 : 0 < refs.toFinset.card := Finset.card_pos.mpr ⟨r, List.mem_toFinset.mpr hr⟩
  omega

theorem fetch_sources_ok_short (db : List SourceRow) (refs : List String)
    (vs : List (String × StructureServiceSource))
    (hok : fetch_collection_of_sources_from_db_by_id db refs = .ok vs)
    (r : String) (hr : r ∈ refs) (hnone : ∀ s ∈ db, s.id ≠ r) :
    vs.length < refs.length := by
  cases refs with
  | nil => simp at hr
  | cons r0 rest =>
    have hn : 1 ≤ ((r0 :: rest).length + 499) / 500 := by
      have : 1 ≤ (r0 :: rest).length := by simp
      omega
    have hflat : (batchedChunks (((r0 :: rest).length + 499) / 500) (r0 :: rest)
        (r0 :: rest).length).flatten = r0 :: rest :=
      flatten_batchedChunks (r0 :: rest).length _ (r0 :: rest) hn (le_refl _)
    simp only [fetch_collection_of_sources_from_db_by_id, List.isEmpty_cons,
      Bool.false_eq_true, if_false] at hok
    by_cases hm : ((batchedChunks (((r0 :: rest).length + 499) / 500) (r0 :: rest)
        (r0 :: rest).length).foldl
          (fun acc batch => (db.filter (fun s => batch.contains s.id)).foldl
            (fun acc2 s => dictInsert acc2 s.id (StructureServiceSource.from_orm_model s)) acc)
          []).isEmpty = true
    · rw [if_pos hm] at hok
      cases hok
    · rw [if_neg hm] at hok
      obtain rfl := Except.ok.inj hok
      have hnd := outer_fold_keys_nodup (fun (s : SourceRow) => s.id)
        StructureServiceSource.from_orm_model db
        (batchedChunks (((r0 :: rest).length + 499) / 500) (r0 :: rest) (r0 :: rest).length)
        [] (by simp [dictKeys])
      have hlen : (dictKeys ((batchedChunks (((r0 :: rest).length + 499) / 500) (r0 :: rest)
          (r0 :: rest).length).foldl
            (fun acc batch => (db.filter (fun s => batch.contains s.id)).foldl
              (fun acc2 s => dictInsert acc2 s.id
                (StructureServiceSource.from_orm_model s)) acc)
            [])).length =
          ((batchedChunks (((r0 :: rest).length + 499) / 500) (r0 :: rest)
            (r0 :: rest).length).foldl
              (fun acc batch => (db.filter (fun s => batch.contains s.id)).foldl
                (fun acc2 s => dictInsert acc2 s.id
                  (StructureServiceSource.from_orm_model s)) acc)
              []).length := by
        simp [dictKeys]
      rw [← hlen]
      apply nodup_subset_length_lt _ _ r hnd ?hsub hr
      intro k hk
      rcases outer_fold_keys_origin (fun (s : SourceRow) => s.id)
          StructureServiceSource.from_orm_model db _ [] k hk with h0 | hex
      · simp [dictKeys] at h0
      · obtain ⟨b, hb, s, hs, hid, hc⟩ := hex
        have hkb : k ∈ b := by
          rw [List.contains_iff_exists_mem_beq] at hc
          obtain ⟨a, hab, hbeq⟩ := hc
          have : s.id = a := by simpa using hbeq
          rw [← hid, this]
          exact hab
        have hkrefs : k ∈ r0 :: rest := by
          rw [← hflat]
          exact List.mem_flatten.mpr ⟨b, hb, hkb⟩
        refine ⟨hkrefs, ?_⟩
        rw [← hid]
        exact hnone s hs

theorem fetch_sinks_ok_short (db : List SinkRow) (refs : List String)
    (vs : List (String × StructureServiceSink))
    (hok : fetch_collection_of_sinks_from_db_by_id db refs = .ok vs)
    (r : String) (hr : r ∈ refs) (hnone : ∀ s ∈ db, s.id ≠ r) :
    vs.length < refs.length := by
  cases refs with
  | nil => simp at hr
  | cons r0 rest =>
    have hn : 1 ≤ ((r0 :: rest).length + 499) / 500 := by
      have : 1 ≤ (r0 :: rest).length := by simp
      omega
    have hflat : (batchedChunks (((r0 :: rest).length + 499) / 500) (r0 :: rest)
        (r0 :: rest).length).flatten = r0 :: rest :=
      flatten_batchedChunks (r0 :: rest).length _ (r0 :: rest) hn (le_refl _)
    simp only [fetch_collection_of_sinks_from_db_by_id, List.isEmpty_cons,
      Bool.false_eq_true, if_false] at hok
    by_cases hm : ((batchedChunks (((r0 :: rest).length + 499) / 500) (r0 :: rest)
        (r0 :: rest).length).foldl
          (fun acc batch => (db.filter (fun s => batch.contains s.id)).foldl
            (fun acc2 s => dictInsert acc2 s.id (StructureServiceSink.from_orm_model s)) acc)
          []).isEmpty = true
    · rw [if_pos hm] at hok
      cases hok
    · rw [if_neg hm] at hok
      obtain rfl := Except.ok.inj hok
      have hnd := outer_fold_keys_nodup (fun (s : SinkRow) => s.id)
        StructureServiceSink.from_orm_model db
        (batchedChunks (((r0 :: rest).length + 499) / 500) (r0 :: rest) (r0 :: rest).length)
        [] (by simp [dictKeys])
      have hlen : (dictKeys ((batchedChunks (((r0 :: rest).length + 499) / 500) (r0 :: rest)
          (r0 :: rest).length).foldl
            (fun acc batch => (db.filter (fun s => batch.contains s.id)).foldl
              (fun acc2 s => dictInsert acc2 s.id
                (StructureServiceSink.from_orm_model s)) acc)
            [])).length =
          ((batchedChunks (((r0 :: rest).length + 499) / 500) (r0 :: rest)
            (r0 :: rest).length).foldl
              (fun acc batch => (db.filter (fun s => batch.contains s.id)).foldl
                (fun acc2 s => dictInsert acc2 s.id
                  (StructureServiceSink.from_orm_model s)) acc)
              []).length := by
        simp [dictKeys]
      rw [← hlen]
      apply nodup_subset_length_lt _ _ r hnd ?hsub hr
      intro k hk
      rcases outer_fold_keys_origin (fun (s : SinkRow) => s.id)
          StructureServiceSink.from_orm_model db _ [] k hk with h0 | hex
      · simp [dictKeys] at h0
      · obtain ⟨b, hb, s, hs, hid, hc⟩ := hex
        have hkb : k ∈ b := by
          rw [List.contains_iff_exists_mem_beq] at hc
          obtain ⟨a, hab, hbeq⟩ := hc
          have : s.id = a := by simpa using hbeq
          rw [← hid, this]
          exact hab
        have hkrefs : k ∈ r0 :: rest := by
          rw [← hflat]
          exact List.mem_flatten.mpr ⟨b, hb, hkb⟩
        refine ⟨hkrefs, ?_⟩
        rw [← hid]
        exact hnone s hs

theorem fetch_sources_cases (db : List SourceRow) (refs : List String) :
    (∃ m, fetch_collection_of_sources_from_db_by_id db refs = .ok m)
      ∨ fetch_collection_of_sources_from_db_by_id db refs
          = .error (.notFound "No StructureServiceSources found for IDs") := by
  cases refs with
  | nil => exact Or.inl ⟨[], by simp [fetch_collection_of_sources_from_db_by_id]⟩
  | cons r0 rest =>
    simp only [fetch_collection_of_sources_from_db_by_id, List.isEmpty_cons,
      Bool.false_eq_true, if_false]
    by_cases hm : ((batchedChunks (((r0 :: rest).length + 499) / 500) (r0 :: rest)
        (r0 :: rest).length).foldl
          (fun acc batch => (db.filter (fun s => batch.contains s.id)).foldl
            (fun acc2 s => dictInsert acc2 s.id (StructureServiceSource.from_orm_model s)) acc)
          []).isEmpty = true
    · rw [if_pos hm]
      exact Or.inr rfl
    · rw [if_neg hm]
      exact Or.inl ⟨_, rfl⟩

theorem fetch_sinks_cases (db : List SinkRow) (refs : List String) :
    (∃ m, fetch_collection_of_sinks_from_db_by_id db refs = .ok m)
      ∨ fetch_collection_of_sinks_from_db_by_id db refs
          = .error (.notFound "No StructureServiceSinks found for IDs") := by
  cases refs with
  | nil => exact Or.inl ⟨[], by simp [fetch_collection_of_sinks_from_db_by_id]⟩
  | cons r0 rest =>
    simp only [fetch_collection_of_sinks_from_db_by_id, List.isEmpty_cons,
      Bool.false_eq_true, if_false]
    by_cases hm : ((batchedChunks (((r0 :: rest).length + 499) / 500) (r0 :: rest)
        (r0 :: rest).length).foldl
          (fun acc batch => (db.filter (fun s => batch.contains s.id)).foldl
            (fun acc2 s => dictInsert acc2 s.id (StructureServiceSink.from_orm_model s)) acc)
          []).isEmpty = true
    · rw [if_pos hm]
      exact Or.inr rfl
    · rw [if_neg hm]
      exact Or.inl ⟨_, rfl⟩


/-- C3 (amended): resolution fails with an `AdapterHandlingError` whose
message starts with "Atleast one source or sink referenced in the
wirings was not found" exactly when none of the virtual input
references matches a stored source (with at least one present), or —
that not being the case — none of the virtual output references matches
a stored sink; and any missing reference, including a partially missing
one among several, still fails the whole resolution, though with a zip
length-mismatch `ValueError` rather than the adapter error. -/
theorem resolver_missing_reference_error (db : DBState) (ww : WorkflowWiring) :
    ((∃ msg, resolve_virtual_structure_wirings db ww = .error (.adapterHandling msg)
        ∧ ∃ suffix, msg = atleastMsg ++ suffix)
      ↔ (((get_enumerated_ids_of_vst_sources_or_sinks ww.input_wirings).2 ≠ []
            ∧ ∀ s ∈ db.sources,
              s.id ∉ (get_enumerated_ids_of_vst_sources_or_sinks ww.input_wirings).2)
          ∨ (¬((get_enumerated_ids_of_vst_sources_or_sinks ww.input_wirings).2 ≠ []
                ∧ ∀ s ∈ db.sources,
                  s.id ∉ (get_enumerated_ids_of_vst_sources_or_sinks ww.input_wirings).2)
              ∧ (get_enumerated_ids_of_vst_sources_or_sinks ww.output_wirings).2 ≠ []
              ∧ ∀ s ∈ db.sinks,
                s.id ∉ (get_enumerated_ids_of_vst_sources_or_sinks ww.output_wirings).2)))
    ∧ ((∃ (i : Nat) (w : Wiring),
          (ww.input_wirings[i]? = some w ∧ w.adapter_id = "virtual-structure-adapter"
            ∧ findSourceById db.sources w.ref_id = none)
          ∨ (ww.output_wirings[i]? = some w ∧ w.adapter_id = "virtual-structure-adapter"
            ∧ findSinkById db.sinks w.ref_id = none)) →
        ∃ e, resolve_virtual_structure_wirings db ww = .error e) := by
  constructor
  · by_cases hboth : ((get_enumerated_ids_of_vst_sources_or_sinks ww.input_wirings).2.isEmpty
        ∧ (get_enumerated_ids_of_vst_sources_or_sinks ww.output_wirings).2.isEmpty)
    · have hres : resolve_virtual_structure_wirings db ww = .ok ww := by
        simp only [resolve_virtual_structure_wirings]
        rw [if_pos hboth]
      constructor
      · rintro ⟨msg, hmsg, _⟩
        rw [hres] at hmsg
        cases hmsg
      · rintro (⟨hne, _⟩ | ⟨_, hne, _⟩)
        · exact absurd (List.isEmpty_iff.mp hboth.1) hne
        · exact absurd (List.isEmpty_iff.mp hboth.2) hne
    · by_cases hcondS : ((get_enumerated_ids_of_vst_sources_or_sinks ww.input_wirings).2 ≠ []
          ∧ ∀ s ∈ db.sources,
            s.id ∉ (get_enumerated_ids_of_vst_sources_or_sinks ww.input_wirings).2)
      · have hfe := (fetch_sources_notFound_iff db.sources _).mpr hcondS
        have hres : resolve_virtual_structure_wirings db ww
            = .error (.adapterHandling (atleastMsg
              ++ " in the structure service database, during the wiring resolution: "
              ++ "No StructureServiceSources found for IDs")) := by
          simp only [resolve_virtual_structure_wirings]
          rw [if_neg hboth, hfe]
        constructor
        · intro _
          exact Or.inl hcondS
        · intro _
          refine ⟨_, hres, ?_⟩
          exact ⟨" in the structure service database, during the wiring resolution: "
            ++ "No StructureServiceSources found for IDs", by rw [String.append_assoc]⟩
      · have hfok : ∃ m, fetch_collection_of_sources_from_db_by_id db.sources
            (get_enumerated_ids_of_vst_sources_or_sinks ww.input_wirings).2 = .ok m := by
          rcases fetch_sources_cases db.sources _ with h | h
          · exact h
          · exact absurd ((fetch_sources_notFound_iff _ _).mp h) hcondS
        obtain ⟨vs, hvs⟩ := hfok
        by_cases hcondK : ((get_enumerated_ids_of_vst_sources_or_sinks ww.output_wirings).2 ≠ []
            ∧ ∀ s ∈ db.sinks,
              s.id ∉ (get_enumerated_ids_of_vst_sources_or_sinks ww.output_wirings).2)
        · have hfe2 := (fetch_sinks_notFound_iff db.sinks _).mpr hcondK
          have hres : resolve_virtual_structure_wirings db ww
              = .error (.adapterHandling (atleastMsg
                ++ " in the structure service database, during the wiring resolution: "
                ++ "No StructureServiceSinks found for IDs")) := by
            simp only [resolve_virtual_structure_wirings]
            rw [if_neg hboth, hvs]
            simp only []
            rw [hfe2]
          constructor
          · intro _
            exact Or.inr ⟨hcondS, hcondK⟩
          · intro _
            refine ⟨_, hres, ?_⟩
            exact ⟨" in the structure service database, during the wiring resolution: "
              ++ "No StructureServiceSinks found for IDs", by rw [String.append_assoc]⟩
        · have hfok2 : ∃ m, fetch_collection_of_sinks_from_db_by_id db.sinks
              (get_enumerated_ids_of_vst_sources_or_sinks ww.output_wirings).2 = .ok m := by
            rcases fetch_sinks_cases db.sinks _ with h | h
            · exact h
            · exact absurd ((fetch_sinks_notFound_iff _ _).mp h) hcondK
          obtain ⟨ks, hks⟩ := hfok2
          constructor
          · rintro ⟨msg, hmsg, _⟩
            exfalso
            simp only [resolve_virtual_structure_wirings] at hmsg
            rw [if_neg hboth, hvs] at hmsg
            simp only [] at hmsg
            rw [hks] at hmsg
            simp only [] at hmsg
            cases hz1 : zipStrict
                (get_enumerated_ids_of_vst_sources_or_sinks ww.input_wirings).1
                (dictValues vs) with
            | none =>
              rw [hz1] at hmsg
              simp at hmsg
            | some ps =>
              rw [hz1] at hmsg
              simp only [] at hmsg
              cases hz2 : zipStrict
                  (get_enumerated_ids_of_vst_sources_or_sinks ww.output_wirings).1
                  (dictValues ks) with
              | none =>
                rw [hz2] at hmsg
                simp at hmsg
              | some ps2 =>
                rw [hz2] at hmsg
                simp at hmsg
          · rintro (hS | ⟨_, hK1, hK2⟩)
            · exact absurd hS hcondS
            · exact absurd ⟨hK1, hK2⟩ hcondK
  · rintro ⟨i, w, hcase⟩
    cases hres : resolve_virtual_structure_wirings db ww with
    | error e => exact ⟨e, rfl⟩
    | ok ww' =>
      exfalso
      simp only [resolve_virtual_structure_wirings] at hres
      by_cases hboth : ((get_enumerated_ids_of_vst_sources_or_sinks ww.input_wirings).2.isEmpty
          ∧ (get_enumerated_ids_of_vst_sources_or_sinks ww.output_wirings).2.isEmpty)
      · rcases hcase with ⟨hget, hvst, _⟩ | ⟨hget, hvst, _⟩
        · have hrefmem : w.ref_id ∈
              (get_enumerated_ids_of_vst_sources_or_sinks ww.input_wirings).2 := by
            rw [get_enumerated_eq]
            refine List.mem_map.mpr ⟨(i, w), ?_, rfl⟩
            rw [List.mem_filter]
            exact ⟨List.mem_enum_iff_getElem?.mpr hget, by simpa using hvst⟩
          rw [List.isEmpty_iff.mp hboth.1] at hrefmem
          exact (List.not_mem_nil _) hrefmem
        · have hrefmem : w.ref_id ∈
              (get_enumerated_ids_of_vst_sources_or_sinks ww.output_wirings).2 := by
            rw [get_enumerated_eq]
            refine List.mem_map.mpr ⟨(i, w), ?_, rfl⟩
            rw [List.mem_filter]
            exact ⟨List.mem_enum_iff_getElem?.mpr hget, by simpa using hvst⟩
          rw [List.isEmpty_iff.mp hboth.2] at hrefmem
          exact (List.not_mem_nil _) hrefmem
      · rw [if_neg hboth] at hres
        cases hf1 : fetch_collection_of_sources_from_db_by_id db.sources
            (get_enumerated_ids_of_vst_sources_or_sinks ww.input_wirings).2 with
        | error e =>
          rw [hf1] at hres
          cases e <;> simp at hres
        | ok vs =>
          rw [hf1] at hres
          simp only [] at hres
          cases hf2 : fetch_collection_of_sinks_from_db_by_id db.sinks
              (get_enumerated_ids_of_vst_sources_or_sinks ww.output_wirings).2 with
          | error e =>
            rw [hf2] at hres
            cases e <;> simp at hres
          | ok ks =>
            rw [hf2] at hres
            simp only [] at hres
            cases hz1 : zipStrict
                (get_enumerated_ids_of_vst_sources_or_sinks ww.input_wirings).1
                (dictValues vs) with
            | none =>
              rw [hz1] at hres
              simp at hres
            | some ps =>
              rw [hz1] at hres
              simp only [] at hres
              cases hz2 : zipStrict
                  (get_enumerated_ids_of_vst_sources_or_sinks ww.output_wirings).1
                  (dictValues ks) with
              | none =>
                rw [hz2] at hres
                simp at hres
              | some ps2 =>
                rcases hcase with ⟨hget, hvst, hnone⟩ | ⟨hget, hvst, hnone⟩
                · have hrefmem : w.ref_id ∈
                      (get_enumerated_ids_of_vst_sources_or_sinks ww.input_wirings).2 := by
                    rw [get_enumerated_eq]
                    refine List.mem_map.mpr ⟨(i, w), ?_, rfl⟩
                    rw [List.mem_filter]
                    exact ⟨List.mem_enum_iff_getElem?.mpr hget, by simpa using hvst⟩
                  have hnone2 : ∀ s ∈ db.sources, s.id ≠ w.ref_id := by
                    intro s hs
                    have := List.find?_eq_none.mp hnone s hs
                    simpa using this
                  have hshort := fetch_sources_ok_short db.sources _ vs hf1 w.ref_id
                    hrefmem hnone2
                  obtain ⟨hlen, _⟩ := zipStrict_some_spec _ _ _ hz1
                  have hlens : (get_enumerated_ids_of_vst_sources_or_sinks
                      ww.input_wirings).1.length =
                      (get_enumerated_ids_of_vst_sources_or_sinks
                        ww.input_wirings).2.length := by
                    rw [get_enumerated_eq]
                    simp
                  have hvlen : (dictValues vs).length = vs.length := by simp [dictValues]
                  omega
                · have hrefmem : w.ref_id ∈
                      (get_enumerated_ids_of_vst_sources_or_sinks ww.output_wirings).2 := by
                    rw [get_enumerated_eq]
                    refine List.mem_map.mpr ⟨(i, w), ?_, rfl⟩
                    rw [List.mem_filter]
                    exact ⟨List.mem_enum_iff_getElem?.mpr hget, by simpa using hvst⟩
                  have hnone2 : ∀ s ∈ db.sinks, s.id ≠ w.ref_id := by
                    intro s hs
                    have := List.find?_eq_none.mp hnone s hs
                    simpa using this
                  have hshort := fetch_sinks_ok_short db.sinks _ ks hf2 w.ref_id
                    hrefmem hnone2
                  obtain ⟨hlen, _⟩ := zipStrict_some_spec _ _ _ hz2
                  have hlens : (get_enumerated_ids_of_vst_sources_or_sinks
                      ww.output_wirings).1.length =
                      (get_enumerated_ids_of_vst_sources_or_sinks
                        ww.output_wirings).2.length := by
                    rw [get_enumerated_eq]
                    simp
                  have hvlen : (dictValues ks).length = ks.length := by simp [dictValues]
                  omega


/-- Witness for C3: a single input wiring whose reference is absent from
the store fails resolution (here with the adapter error, since the whole
reference set misses). -/
theorem resolver_missing_reference_error_witness :
    (∃ (i : Nat) (w : Wiring),
        (demoMissWW.input_wirings[i]? = some w
          ∧ w.adapter_id = "virtual-structure-adapter"
          ∧ findSourceById demoResolveDB.sources w.ref_id = none)
        ∨ (demoMissWW.output_wirings[i]? = some w
          ∧ w.adapter_id = "virtual-structure-adapter"
          ∧ findSinkById demoResolveDB.sinks w.ref_id = none))
    ∧ (∃ e, resolve_virtual_structure_wirings demoResolveDB demoMissWW = .error e) := by
  have hmiss : ∃ (i : Nat) (w : Wiring),
      (demoMissWW.input_wirings[i]? = some w
        ∧ w.adapter_id = "virtual-structure-adapter"
        ∧ findSourceById demoResolveDB.sources w.ref_id = none)
      ∨ (demoMissWW.output_wirings[i]? = some w
        ∧ w.adapter_id = "virtual-structure-adapter"
        ∧ findSinkById demoResolveDB.sinks w.ref_id = none) :=
    ⟨0, demoVstWiring "zz", Or.inl ⟨rfl, rfl, by decide⟩⟩
  exact ⟨hmiss, (resolver_missing_reference_error demoResolveDB demoMissWW).2 hmiss⟩

/-- Counterexample to C3 as frozen: with two input references of which
only one is stored, resolution fails with an uncaught `ValueError` from
the strict zip, not with the `AdapterHandlingError` carrying the
"Atleast one source or sink ..." message. -/
theorem resolver_partial_missing_counterexample :
    resolve_virtual_structure_wirings demoResolveDB demoPartWW
      = .error (.valueError "zip() arguments of unequal length") := by decide

/-! ## C5: hierarchy sorter -/

theorem charListLeb_total : ∀ as bs, charListLeb as bs = true ∨ charListLeb bs as = true := by
  intro as
  induction as with
  | nil => intro bs; exact Or.inl rfl
  | cons a as2 ih =>
    intro bs
    cases bs with
    | nil => exact Or.inr rfl
    | cons b bs2 =>
      simp only [charListLeb]
      by_cases hab : a.toNat < b.toNat
      · exact Or.inl (by rw [if_pos hab])
      · by_cases hba : b.toNat < a.toNat
        · exact Or.inr (by rw [if_pos hba])
        · rw [if_neg hab, if_neg hba, if_neg hba, if_neg hab]
          exact ih bs2

theorem charListLeb_trans : ∀ as bs cs, charListLeb as bs = true → charListLeb bs cs = true →
    charListLeb as cs = true := by
  intro as
  induction as with
  | nil => intro bs cs _ _; rfl
  | cons a as2 ih =>
    intro bs cs h1 h2
    cases bs with
    | nil => simp [charListLeb] at h1
    | cons b bs2 =>
      cases cs with
      | nil => simp [charListLeb] at h2
      | cons c cs2 =>
        simp only [charListLeb] at h1 h2 ⊢
        by_cases hab : a.toNat < b.toNat
        · by_cases hbc : b.toNat < c.toNat
          · rw [if_pos (by omega)]
          · rw [if_neg hbc] at h2
            by_cases hcb : c.toNat < b.toNat
            · rw [if_pos hcb] at h2
              cases h2
            · rw [if_pos (show a.toNat < c.toNat by omega)]
        · rw [if_neg hab] at h1
          by_cases hba : b.toNat < a.toNat
          · rw [if_pos hba] at h1
            cases h1
          · rw [if_neg hba] at h1
            by_cases hbc : b.toNat < c.toNat
            · rw [if_pos (show a.toNat < c.toNat by omega)]
            · rw [if_neg hbc] at h2
              by_cases hcb : c.toNat < b.toNat
              · rw [if_pos hcb] at h2
                cases h2
              · rw [if_neg hcb] at h2
                rw [if_neg (show ¬ a.toNat < c.toNat by omega),
                  if_neg (show ¬ c.toNat < a.toNat by omega)]
                exact ih bs2 cs2 h1 h2

theorem children_by_node_id_parent (m : List ((String × String) × StructureServiceThingNode))
    (tns : List StructureServiceThingNode) (pid : String)
    (c : StructureServiceThingNode) (hc : c ∈ children_by_node_id m tns pid) :
    c.parent_node_id = some pid := by
  obtain ⟨tn, htn, rfl⟩ := List.mem_map.mp hc
  have hfil := (List.mem_filter.mp htn).2
  simp only [decide_eq_true_eq] at hfil
  cases hres : resolvedParent m tn with
  | none => rw [hres] at hfil; cases hfil
  | some parent =>
    rw [hres] at hfil
    have hthis : parent.id = pid := by simpa using hfil
    simp [set_parent_ids_update, hres, hthis]

theorem sortChildren_parent (m : List ((String × String) × StructureServiceThingNode))
    (tns : List StructureServiceThingNode) (pid : String)
    (c : StructureServiceThingNode)
    (hc : c ∈ sortChildrenByExternalId (children_by_node_id m tns pid)) :
    c.parent_node_id = some pid := by
  have hperm := List.perm_insertionSort
    (fun (a b : StructureServiceThingNode) => strLe a.external_id b.external_id)
    (children_by_node_id m tns pid)
  exact children_by_node_id_parent m tns pid c (hperm.mem_iff.mp hc)

theorem bfsLevels_parent_emitted (m : List ((String × String) × StructureServiceThingNode))
    (tns : List StructureServiceThingNode) :
    ∀ (fuel : Nat) (cur : List StructureServiceThingNode) (prev : List String),
      (∀ c ∈ cur, ∀ pid, c.parent_node_id = some pid → pid ∈ prev) →
      ∀ (j : Nat) (c : StructureServiceThingNode),
        ((bfsLevels (fun pid => children_by_node_id m tns pid) cur fuel).flatten)[j]? = some c →
        ∀ pid, c.parent_node_id = some pid →
          pid ∈ prev ∨ ∃ i, i < j ∧ ∃ d,
            ((bfsLevels (fun pid => children_by_node_id m tns pid) cur fuel).flatten)[i]?
              = some d ∧ d.id = pid := by
  intro fuel
  induction fuel with
  | zero =>
    intro cur prev hcur j c hget
    cases cur <;> simp [bfsLevels] at hget
  | succ f ih =>
    intro cur prev hcur j c hget pid hpid
    cases cur with
    | nil => simp [bfsLevels] at hget
    | cons n0 rest =>
      simp only [bfsLevels, List.flatten_cons] at hget ⊢
      by_cases hj : j < (n0 :: rest).length
      · rw [List.getElem?_append, if_pos hj] at hget
        exact Or.inl (hcur c (List.mem_iff_getElem?.mpr ⟨j, hget⟩) pid hpid)
      · push_neg at hj
        rw [List.getElem?_append_right hj] at hget
        have hnext : ∀ c2 ∈ (n0 :: rest).flatMap
            (fun n => sortChildrenByExternalId (children_by_node_id m tns n.id)),
            ∀ pid2, c2.parent_node_id = some pid2 →
              pid2 ∈ prev ++ (n0 :: rest).map (fun d => d.id) := by
          intro c2 hc2 pid2 hp2
          obtain ⟨n, hn, hcn⟩ := List.mem_flatMap.mp hc2
          have hpar := sortChildren_parent m tns n.id c2 hcn
          rw [hpar] at hp2
          have : pid2 = n.id := (Option.some.inj hp2).symm
          subst this
          exact List.mem_append.mpr (Or.inr (List.mem_map_of_mem (fun d => d.id) hn))
        rcases ih _ _ hnext (j - (n0 :: rest).length) c hget pid hpid with
          hin | ⟨i2, hi2, d, hd, hdid⟩
        · rcases List.mem_append.mp hin with hl | hr
          · exact Or.inl hl
          · obtain ⟨d, hdmem, hdid⟩ := List.mem_map.mp hr
            obtain ⟨i, hi⟩ := List.mem_iff_getElem?.mp hdmem
            have hlt : i < (n0 :: rest).length := by
              by_contra hge
              push_neg at hge
              rw [List.getElem?_eq_none hge] at hi
              cases hi
            refine Or.inr ⟨i, by omega, d, ?_, hdid⟩
            rw [List.getElem?_append, if_pos hlt]
            exact hi
        · refine Or.inr ⟨(n0 :: rest).length + i2, by omega, d, ?_, hdid⟩
          rw [List.getElem?_append_right (by omega)]
          simpa [Nat.add_sub_cancel_left] using hd

/-- C5 (amended): for inputs whose `parent_node_id` is unset (as in
authored documents), the flattened output is ordered by BFS level so
that every node whose parent reference resolved appears strictly after
a node carrying its parent's internal id — parents before descendants;
and each group of siblings (children of one parent) is sorted
lexicographically by `external_id`.  The nodes of one level as a whole,
and in particular the roots, keep input/grouped order instead of being
globally sorted by `external_id`; see the counterexample. -/
theorem sort_thing_nodes_spec (tns : List StructureServiceThingNode)
    (hpn : ∀ tn ∈ tns, tn.parent_node_id = none) :
    (∀ (j : Nat) (c : StructureServiceThingNode),
        (sort_thing_nodes tns)[j]? = some c →
        ∀ pid, c.parent_node_id = some pid →
          ∃ i, i < j ∧ ∃ d, (sort_thing_nodes tns)[i]? = some d ∧ d.id = pid)
    ∧ (∀ pid : String,
        List.Pairwise (fun a b => strLe a.external_id b.external_id)
          (sortChildrenByExternalId (children_by_node_id (thingNodeMap tns) tns pid))) := by
  constructor
  · intro j c hget pid hpid
    have hdef : sort_thing_nodes tns =
        ((bfsLevels (fun pid => children_by_node_id (thingNodeMap tns) tns pid)
          ((tns.map (set_parent_ids_update (thingNodeMap tns))).filter
            (fun tn => tn.parent_external_node_id = none))
          (tns.length + 1)).flatten) := rfl
    have hroots : ∀ c2 ∈ (tns.map (set_parent_ids_update (thingNodeMap tns))).filter
        (fun tn => tn.parent_external_node_id = none),
        ∀ pid2, c2.parent_node_id = some pid2 → pid2 ∈ ([] : List String) := by
      intro c2 hc2 pid2 hp2
      exfalso
      have hfil := List.mem_filter.mp hc2
      obtain ⟨tn, htn, rfl⟩ := List.mem_map.mp hfil.1
      have hpe : (set_parent_ids_update (thingNodeMap tns) tn).parent_external_node_id
          = none := by
        simpa using hfil.2
      cases hres : resolvedParent (thingNodeMap tns) tn with
      | some parent =>
        have hne : tn.parent_external_node_id ≠ none := by
          intro hn
          simp [resolvedParent, truthyParentExt, hn] at hres
        have hpe2 : (set_parent_ids_update (thingNodeMap tns) tn).parent_external_node_id
            = tn.parent_external_node_id := by
          simp [set_parent_ids_update, hres]
        rw [hpe2] at hpe
        exact hne hpe
      | none =>
        have hup : set_parent_ids_update (thingNodeMap tns) tn = tn := by
          simp [set_parent_ids_update, hres]
        rw [hup] at hp2
        rw [hpn tn htn] at hp2
        cases hp2
    rw [hdef] at hget ⊢
    rcases bfsLevels_parent_emitted (thingNodeMap tns) tns (tns.length + 1) _ [] hroots
        j c hget pid hpid with h0 | hfound
    · cases h0
    · exact hfound
  · intro pid
    have htot : IsTotal StructureServiceThingNode
        (fun a b => strLe a.external_id b.external_id) :=
      ⟨fun a b => charListLeb_total a.external_id.data b.external_id.data⟩
    have htrans : IsTrans StructureServiceThingNode
        (fun a b => strLe a.external_id b.external_id) :=
      ⟨fun a b c hab hbc => charListLeb_trans _ _ _ hab hbc⟩
    exact @List.sorted_insertionSort _ _ _ htot htrans _


/-- Counterexample to C5 as frozen: a valid two-root forest authored in
the order b, a is flattened as [b, a] — the BFS level keeps the input
order of the roots, so one level is not lexicographically sorted by
`external_id`. -/
theorem sort_thing_nodes_not_level_sorted_counterexample :
    (∀ tn ∈ c5TwoRoots, tn.parent_node_id = none)
      ∧ (∀ tn ∈ c5TwoRoots, tn.parent_external_node_id = none)
      ∧ (sort_thing_nodes c5TwoRoots).map (fun tn => tn.external_id) = ["b", "a"]
      ∧ ¬ (∀ L ∈ sort_thing_nodes_levels c5TwoRoots,
          List.Pairwise (fun a b => strLe a.external_id b.external_id) L) := by
  decide

/-- Witness for C5 at a concrete three-node tree with scrambled
children. -/
theorem sort_thing_nodes_spec_witness :
    (∀ tn ∈ c5Tree, tn.parent_node_id = none)
      ∧ ((∀ (j : Nat) (c : StructureServiceThingNode),
          (sort_thing_nodes c5Tree)[j]? = some c →
          ∀ pid, c.parent_node_id = some pid →
            ∃ i, i < j ∧ ∃ d, (sort_thing_nodes c5Tree)[i]? = some d ∧ d.id = pid)
        ∧ (∀ pid : String,
            List.Pairwise (fun a b => strLe a.external_id b.external_id)
              (sortChildrenByExternalId
                (children_by_node_id (thingNodeMap c5Tree) c5Tree pid)))) :=
  ⟨by decide, sort_thing_nodes_spec c5Tree (by decide)⟩

/-! ## C6: tree browsing -/

theorem filter_idf_eq_singleton {ρ : Type} (idf : ρ → String) (l : List ρ) (p : String)
    (x : ρ) (hnd : (l.map idf).Nodup) (hx : x ∈ l) (hxp : idf x = p) :
    l.filter (fun r => idf r = p) = [x] := by
  induction l with
  | nil => cases hx
  | cons y rest ih =>
    simp only [List.map_cons, List.nodup_cons] at hnd
    rcases List.mem_cons.mp hx with rfl | hxr
    · rw [List.filter_cons_of_pos (by simpa using hxp)]
      have hrest : rest.filter (fun r => idf r = p) = [] := by
        rw [List.filter_eq_nil_iff]
        intro z hz
        simp only [decide_eq_true_eq]
        intro he
        exact hnd.1 (by
          rw [hxp, ← he]
          exact List.mem_map_of_mem idf hz)
      rw [hrest]
    · have hyne : ¬ idf y = p := by
        intro he
        exact hnd.1 (by
          rw [he, ← hxp]
          exact List.mem_map_of_mem idf hxr)
      rw [List.filter_cons_of_neg (by simpa using hyne)]
      exact ih hnd.2 hxr

/-- C6: `get_children` returns all root thing nodes with empty source
and sink lists when called without a parent id; for the id of a stored
thing node it returns exactly the direct children plus the sources and
sinks linked to that node through the association tables; and for an id
with no stored node it fails with `DBNotFoundError`. -/
theorem get_children_spec (db : DBState) (p : String)
    (hnd : (db.thing_nodes.map (fun r => r.id)).Nodup) :
    (get_children db none = .ok
        ((db.thing_nodes.filter (fun r => r.parent_node_id = none)).map
          StructureServiceThingNode.from_orm_model, [], []))
    ∧ (∀ row ∈ db.thing_nodes, row.id = p →
        get_children db (some p) = .ok
          ((db.thing_nodes.filter (fun r => r.parent_node_id = some p)).map
              StructureServiceThingNode.from_orm_model,
            (db.sources.filter (fun s => s.thing_nodes.contains p)).map
              StructureServiceSource.from_orm_model,
            (db.sinks.filter (fun s => s.thing_nodes.contains p)).map
              StructureServiceSink.from_orm_model))
    ∧ ((∀ row ∈ db.thing_nodes, row.id ≠ p) →
        get_children db (some p) = .error (.notFound
          ("The prodived ID " ++ p ++ " has no corresponding node in the database"))) := by
  refine ⟨rfl, ?_, ?_⟩
  · intro row hrow hrowp
    simp only [get_children]
    rw [filter_idf_eq_singleton (fun (r : ThingNodeRow) => r.id) db.thing_nodes p row
      hnd hrow hrowp]
  · intro hnone
    simp only [get_children]
    have hfil : db.thing_nodes.filter (fun r => r.id = p) = [] := by
      rw [List.filter_eq_nil_iff]
      intro z hz
      simpa using hnone z hz
    rw [hfil]


/-- Witness for C6 at a concrete store with one root, one child, one
linked source and one sink linked elsewhere. -/
theorem get_children_spec_witness :
    (demoChildDB.thing_nodes.map (fun r => r.id)).Nodup
      ∧ ((get_children demoChildDB none = .ok
          ((demoChildDB.thing_nodes.filter (fun r => r.parent_node_id = none)).map
            StructureServiceThingNode.from_orm_model, [], []))
        ∧ (∀ row ∈ demoChildDB.thing_nodes, row.id = "n1" →
            get_children demoChildDB (some "n1") = .ok
              ((demoChildDB.thing_nodes.filter (fun r => r.parent_node_id = some "n1")).map
                  StructureServiceThingNode.from_orm_model,
                (demoChildDB.sources.filter (fun s => s.thing_nodes.contains "n1")).map
                  StructureServiceSource.from_orm_model,
                (demoChildDB.sinks.filter (fun s => s.thing_nodes.contains "n1")).map
                  StructureServiceSink.from_orm_model))
        ∧ ((∀ row ∈ demoChildDB.thing_nodes, row.id ≠ "n1") →
            get_children demoChildDB (some "n1") = .error (.notFound
              ("The prodived ID " ++ "n1"
                ++ " has no corresponding node in the database")))) :=
  ⟨by decide, get_children_spec demoChildDB "n1" (by decide)⟩

/-! ## C7: circular reference rejection -/

theorem nodesByExternalId_find (tns : List StructureServiceThingNode) (e : String)
    (node : StructureServiceThingNode)
    (h : dictFind? (nodesByExternalId tns) e = some node) :
    node.external_id = e ∧ node ∈ tns := by
  have aux : ∀ (l : List StructureServiceThingNode) (acc : List (String × StructureServiceThingNode)),
      (∀ e2 n2, dictFind? acc e2 = some n2 → n2.external_id = e2 ∧ n2 ∈ tns) →
      (∀ n2 ∈ l, n2 ∈ tns) →
      ∀ e2 n2, dictFind? (l.foldl (fun m2 node2 => dictInsert m2 node2.external_id node2) acc) e2
          = some n2 → n2.external_id = e2 ∧ n2 ∈ tns := by
    intro l
    induction l with
    | nil =>
      intro acc hacc _ e2 n2 h2
      exact hacc e2 n2 h2
    | cons x rest ih =>
      intro acc hacc hl e2 n2 h2
      refine ih _ ?_ (fun n hn => hl n (List.mem_cons_of_mem x hn)) e2 n2 h2
      intro e3 n3 h3
      rw [dictFind?_dictInsert] at h3
      by_cases hx : x.external_id = e3
      · rw [if_pos hx] at h3
        have hxn : n3 = x := (Option.some.inj h3).symm
        subst hxn
        exact ⟨hx, hl _ (List.mem_cons_self _ _)⟩
      · rw [if_neg hx] at h3
        exact hacc e3 n3 h3
  exact aux tns [] (by intro e2 n2 h2; simp [dictFind?] at h2) (fun n hn => hn) e node h

theorem chain_isSome_of_le (m : List (String × StructureServiceThingNode)) (e : String) :
    ∀ k j, j ≤ k → (chainFrom m e k).isSome → (chainFrom m e j).isSome := by
  intro k
  induction k with
  | zero =>
    intro j hj h
    have : j = 0 := by omega
    subst this
    exact h
  | succ k2 ih =>
    intro j hj h
    rcases Nat.eq_or_lt_of_le hj with rfl | hlt
    · exact h
    · apply ih j (by omega)
      have hdef : chainFrom m e (k2 + 1) = (chainFrom m e k2).bind (parentStep m) := rfl
      rw [hdef] at h
      cases hc : chainFrom m e k2 with
      | none => rw [hc] at h; simp at h
      | some x => simp

theorem visit_cycle_error (m : List (String × StructureServiceThingNode))
    (hm : ∀ e n, dictFind? m e = some n → n.external_id = e)
    (e0 : String) (k : Nat) (hk : 0 < k)
    (hcyc : chainFrom m e0 k = some e0) :
    ∀ (r j : Nat), j + r = k →
      ∀ (ej : String) (node : StructureServiceThingNode) (path : List String) (fuel : Nat),
        chainFrom m e0 j = some ej → dictFind? m ej = some node →
        (j = 0 ∨ e0 ∈ path) → r + 1 ≤ fuel →
        ∃ msg, visitParentChain m fuel path node = .error msg := by
  intro r
  induction r with
  | zero =>
    intro j hj ej node path fuel hchain hfind hcond hfuel
    have hjk : j = k := by omega
    subst hjk
    have hej : ej = e0 := by
      rw [hcyc] at hchain
      exact (Option.some.inj hchain).symm
    subst hej
    rcases hcond with hj0 | hmem
    · omega
    · obtain ⟨fu, rfl⟩ : ∃ fu, fuel = fu + 1 := ⟨fuel - 1, by omega⟩
      refine ⟨"Circular reference detected in node " ++ node.external_id, ?_⟩
      have hext := hm _ _ hfind
      simp only [visitParentChain]
      rw [if_pos (by rw [hext]; exact hmem)]
  | succ r ih =>
    intro j hj ej node path fuel hchain hfind hcond hfuel
    obtain ⟨fu, rfl⟩ : ∃ fu, fuel = fu + 1 := ⟨fuel - 1, by omega⟩
    have hext := hm _ _ hfind
    by_cases hvis : node.external_id ∈ path
    · refine ⟨"Circular reference detected in node " ++ node.external_id, ?_⟩
      simp only [visitParentChain]
      rw [if_pos hvis]
    · have hnext : (chainFrom m e0 (j + 1)).isSome := by
        apply chain_isSome_of_le m e0 k (j + 1) (by omega)
        rw [hcyc]
        rfl
      obtain ⟨e1, he1⟩ := Option.isSome_iff_exists.mp hnext
      have hstep : parentStep m ej = some e1 := by
        have hdef : chainFrom m e0 (j + 1) = (chainFrom m e0 j).bind (parentStep m) := rfl
        rw [hdef, hchain] at he1
        simpa using he1
      simp only [parentStep, hfind] at hstep
      cases hpe : node.parent_external_node_id with
      | none =>
        rw [hpe] at hstep
        simp only [] at hstep
        cases hstep
      | some pe =>
        rw [hpe] at hstep
        simp only [] at hstep
        by_cases hpee : pe = ""
        · rw [if_pos hpee] at hstep
          cases hstep
        · rw [if_neg hpee] at hstep
          by_cases hps : (dictFind? m pe).isSome
          · rw [if_pos hps] at hstep
            have hpe1 : pe = e1 := Option.some.inj hstep
            obtain ⟨parent, hparent⟩ := Option.isSome_iff_exists.mp hps
            have hunf : visitParentChain m (fu + 1) path node
                = visitParentChain m fu (node.external_id :: path) parent := by
              simp only [visitParentChain]
              rw [if_neg hvis, hpe]
              simp only []
              rw [if_neg hpee, hparent]
            rw [hunf]
            apply ih (j + 1) (by omega) e1 parent _ fu he1 ?hfd ?hcnd (by omega)
            case hfd =>
              rw [← hpe1]
              exact hparent
            case hcnd =>
              right
              rcases hcond with hj0 | hmem
              · subst hj0
                have hej0 : ej = e0 := by simpa [chainFrom] using hchain.symm
                rw [hext, hej0]
                exact List.mem_cons_self _ _
              · exact List.mem_cons_of_mem _ hmem
          · rw [if_neg hps] at hstep
            cases hstep

theorem visit_error_form (m : List (String × StructureServiceThingNode)) :
    ∀ (fuel : Nat) (path : List String) (node : StructureServiceThingNode) (msg : String),
      visitParentChain m fuel path node = .error msg →
      ∃ nid, msg = "Circular reference detected in node " ++ nid := by
  intro fuel
  induction fuel with
  | zero =>
    intro path node msg h
    cases h
  | succ fu ih =>
    intro path node msg h
    simp only [visitParentChain] at h
    by_cases hvis : node.external_id ∈ path
    · rw [if_pos hvis] at h
      exact ⟨node.external_id, (Except.error.inj h).symm⟩
    · rw [if_neg hvis] at h
      cases hpe : node.parent_external_node_id with
      | none =>
        rw [hpe] at h
        simp only [] at h
        cases h
      | some pe =>
        rw [hpe] at h
        simp only [] at h
        by_cases hpee : pe = ""
        · rw [if_pos hpee] at h
          cases h
        · rw [if_neg hpee] at h
          cases hf : dictFind? m pe with
          | none =>
            rw [hf] at h
            simp only [] at h
            cases h
          | some parent =>
            rw [hf] at h
            simp only [] at h
            exact ih _ _ _ h

theorem foldlM_except_error {α : Type} (step : α → Except String Unit)
    (P : String → Prop)
    (hform : ∀ x msg, step x = .error msg → P msg) :
    ∀ (l : List α), (∃ x ∈ l, ∃ msg, step x = .error msg) →
      ∃ msg2, (l.foldlM (fun _ x => step x) ()) = .error msg2 ∧ P msg2 := by
  intro l
  induction l with
  | nil =>
    rintro ⟨x, hx, _⟩
    cases hx
  | cons y rest ih =>
    rintro ⟨x, hx, msg, hmsg⟩
    cases hy : step y with
    | error m2 =>
      refine ⟨m2, ?_, hform y m2 hy⟩
      simp only [List.foldlM_cons, hy]
      rfl
    | ok u =>
      rcases List.mem_cons.mp hx with rfl | hxr
      · rw [hy] at hmsg
        cases hmsg
      · obtain ⟨msg2, hfold, hP⟩ := ih ⟨x, hxr, msg, hmsg⟩
        refine ⟨msg2, ?_, hP⟩
        simp only [List.foldlM_cons, hy]
        simpa using hfold

theorem check_circular_errors (cs : CompleteStructure)
    (hcyc : ∃ e0 k, 0 < k ∧ k ≤ cs.thing_nodes.length
      ∧ chainFrom (nodesByExternalId cs.thing_nodes) e0 k = some e0) :
    ∃ msg, check_for_circular_reference cs = .error msg
      ∧ ∃ nid, msg = "Circular reference detected in node " ++ nid := by
  obtain ⟨e0, k, hk, hkle, hchain⟩ := hcyc
  have hfind0 : (dictFind? (nodesByExternalId cs.thing_nodes) e0).isSome := by
    have h1 : (chainFrom (nodesByExternalId cs.thing_nodes) e0 1).isSome :=
      chain_isSome_of_le _ _ k 1 hk (by rw [hchain]; rfl)
    obtain ⟨x, hx⟩ := Option.isSome_iff_exists.mp h1
    have hstep : parentStep (nodesByExternalId cs.thing_nodes) e0 = some x := by
      simpa [chainFrom] using hx
    cases hf : dictFind? (nodesByExternalId cs.thing_nodes) e0 with
    | none =>
      rw [parentStep, hf] at hstep
      simp only [] at hstep
      cases hstep
    | some n =>
      simp
  obtain ⟨node0, hnode0⟩ := Option.isSome_iff_exists.mp hfind0
  have hmem0 : node0 ∈ cs.thing_nodes :=
    (nodesByExternalId_find cs.thing_nodes e0 node0 hnode0).2
  have hm : ∀ e n, dictFind? (nodesByExternalId cs.thing_nodes) e = some n →
      n.external_id = e :=
    fun e n h => (nodesByExternalId_find cs.thing_nodes e n h).1
  obtain ⟨msg, hmsg⟩ :=
    visit_cycle_error (nodesByExternalId cs.thing_nodes) hm e0 k hk hchain k 0
      (by omega) e0 node0 [] (cs.thing_nodes.length + 1) rfl hnode0 (Or.inl rfl)
      (by omega)
  have hfold := foldlM_except_error
    (fun node => visitParentChain (nodesByExternalId cs.thing_nodes)
      (cs.thing_nodes.length + 1) [] node)
    (fun m2 => ∃ nid, m2 = "Circular reference detected in node " ++ nid)
    (fun x m2 hx => visit_error_form _ _ _ _ _ hx)
    cs.thing_nodes ⟨node0, hmem0, msg, hmsg⟩
  obtain ⟨msg2, hfold2, hform2⟩ := hfold
  exact ⟨msg2, hfold2, hform2⟩

/-- C7: a `CompleteStructure` whose thing nodes pass their field
validators but whose `parent_external_node_id` relation has a cycle (a
parent chain of positive length returning to its start) fails
validation, and among the collected root-validator errors is one of the
form "Circular reference detected in node ...".  The field-validator
hypothesis reflects that pydantic only hands `thing_nodes` to the root
validators when its own field validation succeeded. -/
theorem circular_reference_rejected (cs : CompleteStructure)
    (_hfields : thingNodeFieldChecksPass cs.thing_nodes)
    (hcyc : ∃ e0 k, 0 < k ∧ k ≤ cs.thing_nodes.length
      ∧ chainFrom (nodesByExternalId cs.thing_nodes) e0 k = some e0) :
    validateCompleteStructure cs ≠ []
      ∧ ∃ msg ∈ validateCompleteStructure cs,
          ∃ nid, msg = "Circular reference detected in node " ++ nid := by
  obtain ⟨msg, hmsg, hform⟩ := check_circular_errors cs hcyc
  have hmem : msg ∈ validateCompleteStructure cs := by
    unfold validateCompleteStructure
    rw [List.mem_filterMap]
    refine ⟨check_for_circular_reference cs, ?_, by rw [hmsg]⟩
    simp
  refine ⟨?_, msg, hmem, hform⟩
  intro h
  rw [h] at hmem
  cases hmem

theorem circular_reference_rejected_witness :
    thingNodeFieldChecksPass demoCycleCS.thing_nodes
      ∧ (validateCompleteStructure demoCycleCS ≠ []
        ∧ ∃ msg ∈ validateCompleteStructure demoCycleCS,
            ∃ nid, msg = "Circular reference detected in node " ++ nid) :=
  ⟨by unfold thingNodeFieldChecksPass; decide,
    circular_reference_rejected demoCycleCS
      (by unfold thingNodeFieldChecksPass; decide)
      ⟨"X", 2, by decide, by decide, by decide⟩⟩

/-! ## C1: idempotence of update_structure -/


section UpsertGeneric

variable {ι ρ : Type} (key : ι → String × String) (rowKey : ρ → String × String)
variable (mkInsert : ι → ρ) (applyUpdate : ι → ρ → ρ)

theorem upsertRow_keys
    (hkU : ∀ i r, rowKey (applyUpdate i r) = key i)
    (hkI : ∀ i, rowKey (mkInsert i) = key i) (table : List ρ) (i : ι) :
    (key i ∈ table.map rowKey
      ∧ (upsertRow key rowKey mkInsert applyUpdate table i).map rowKey = table.map rowKey)
    ∨ (key i ∉ table.map rowKey
      ∧ (upsertRow key rowKey mkInsert applyUpdate table i).map rowKey
          = table.map rowKey ++ [key i]) := by
  unfold upsertRow
  by_cases hp : table.any (fun r => rowKey r = key i)
  · left
    obtain ⟨r, hr, hkr⟩ := List.any_eq_true.mp hp
    have hkr2 : rowKey r = key i := by simpa using hkr
    refine ⟨hkr2 ▸ List.mem_map_of_mem rowKey hr, ?_⟩
    rw [if_pos hp, List.map_map]
    refine List.map_congr_left ?_
    intro r2 hr2
    simp only [Function.comp]
    by_cases hri : rowKey r2 = key i
    · rw [if_pos hri, hkU]
      exact hri.symm
    · rw [if_neg hri]
  · right
    constructor
    · intro hmem
      obtain ⟨r, hr, hkr⟩ := List.mem_map.mp hmem
      exact hp (List.any_eq_true.mpr ⟨r, hr, by simp [hkr]⟩)
    · rw [if_neg hp]
      simp [hkI]

theorem upsertRow_key_mono
    (hkU : ∀ i r, rowKey (applyUpdate i r) = key i)
    (hkI : ∀ i, rowKey (mkInsert i) = key i) (table : List ρ) (j : ι)
    (k : String × String) (hk : k ∈ table.map rowKey) :
    k ∈ (upsertRow key rowKey mkInsert applyUpdate table j).map rowKey := by
  rcases upsertRow_keys key rowKey mkInsert applyUpdate hkU hkI table j with ⟨_, he⟩ | ⟨_, he⟩
  · rw [he]
    exact hk
  · rw [he]
    exact List.mem_append_left _ hk

theorem upsertRow_key_present
    (hkU : ∀ i r, rowKey (applyUpdate i r) = key i)
    (hkI : ∀ i, rowKey (mkInsert i) = key i) (table : List ρ) (i : ι) :
    key i ∈ (upsertRow key rowKey mkInsert applyUpdate table i).map rowKey := by
  rcases upsertRow_keys key rowKey mkInsert applyUpdate hkU hkI table i with ⟨hin, he⟩ | ⟨_, he⟩
  · rw [he]
    exact hin
  · rw [he]
    exact List.mem_append_right _ (List.mem_singleton_self _)

theorem upsertRow_keys_nodup
    (hkU : ∀ i r, rowKey (applyUpdate i r) = key i)
    (hkI : ∀ i, rowKey (mkInsert i) = key i) (table : List ρ) (i : ι)
    (hnd : (table.map rowKey).Nodup) :
    ((upsertRow key rowKey mkInsert applyUpdate table i).map rowKey).Nodup := by
  rcases upsertRow_keys key rowKey mkInsert applyUpdate hkU hkI table i with ⟨_, he⟩ | ⟨hout, he⟩
  · rw [he]
    exact hnd
  · rw [he, List.nodup_append]
    exact ⟨hnd, List.nodup_singleton _, by simpa [List.Disjoint] using hout⟩

theorem upsertRow_self_rows
    (table : List ρ) (i : ι) :
    ∀ r ∈ upsertRow key rowKey mkInsert applyUpdate table i, rowKey r = key i →
      (∃ r0, r = applyUpdate i r0) ∨ r = mkInsert i := by
  intro r hr hkr
  unfold upsertRow at hr
  by_cases hp : table.any (fun r => rowKey r = key i)
  · rw [if_pos hp] at hr
    obtain ⟨r0, hr0, hmap⟩ := List.mem_map.mp hr
    by_cases hri : rowKey r0 = key i
    · rw [if_pos hri] at hmap
      exact Or.inl ⟨r0, hmap.symm⟩
    · rw [if_neg hri] at hmap
      rw [← hmap] at hkr
      exact absurd hkr hri
  · rw [if_neg hp] at hr
    rcases List.mem_append.mp hr with h1 | h2
    · exact absurd (List.any_eq_true.mpr ⟨r, h1, by simp [hkr]⟩) hp
    · exact Or.inr (by simpa using h2)

theorem upsertRow_alien_rows
    (hkU : ∀ i r, rowKey (applyUpdate i r) = key i)
    (hkI : ∀ i, rowKey (mkInsert i) = key i) (table : List ρ) (j : ι)
    (k : String × String) (hne : k ≠ key j) (P : ρ → Prop)
    (hP : ∀ r ∈ table, rowKey r = k → P r) :
    ∀ r ∈ upsertRow key rowKey mkInsert applyUpdate table j, rowKey r = k → P r := by
  intro r hr hkr
  unfold upsertRow at hr
  by_cases hp : table.any (fun r => rowKey r = key j)
  · rw [if_pos hp] at hr
    obtain ⟨r0, hr0, hmap⟩ := List.mem_map.mp hr
    by_cases hrj : rowKey r0 = key j
    · rw [if_pos hrj] at hmap
      rw [← hmap, hkU] at hkr
      exact absurd hkr.symm hne
    · rw [if_neg hrj] at hmap
      rw [← hmap]
      exact hP r0 hr0 (by rw [hmap]; exact hkr)
  · rw [if_neg hp] at hr
    rcases List.mem_append.mp hr with h1 | h2
    · exact hP r h1 hkr
    · have hr2 : r = mkInsert j := by simpa using h2
      rw [hr2, hkI] at hkr
      exact absurd hkr.symm hne

theorem upsertRows_cons (table : List ρ) (j : ι) (rest : List ι) :
    upsertRows key rowKey mkInsert applyUpdate table (j :: rest)
      = upsertRows key rowKey mkInsert applyUpdate
          (upsertRow key rowKey mkInsert applyUpdate table j) rest := rfl

theorem upsertRows_preserve
    (hkU : ∀ i r, rowKey (applyUpdate i r) = key i)
    (hkI : ∀ i, rowKey (mkInsert i) = key i) (P : ρ → Prop) (k : String × String) :
    ∀ (inputs : List ι) (table : List ρ),
      (∀ j ∈ inputs, key j ≠ k) →
      (∀ r ∈ table, rowKey r = k → P r) → k ∈ table.map rowKey →
      (∀ r ∈ upsertRows key rowKey mkInsert applyUpdate table inputs, rowKey r = k → P r)
        ∧ k ∈ (upsertRows key rowKey mkInsert applyUpdate table inputs).map rowKey := by
  intro inputs
  induction inputs with
  | nil =>
    intro table _ hP hk
    exact ⟨hP, hk⟩
  | cons j rest ih =>
    intro table hne hP hk
    rw [upsertRows_cons]
    refine ih _ (fun j2 hj2 => hne j2 (List.mem_cons_of_mem j hj2)) ?_ ?_
    · exact upsertRow_alien_rows key rowKey mkInsert applyUpdate hkU hkI table j k
        (Ne.symm (hne j (List.mem_cons_self j rest))) P hP
    · exact upsertRow_key_mono key rowKey mkInsert applyUpdate hkU hkI table j k hk

theorem upsertRows_canonical
    (hkU : ∀ i r, rowKey (applyUpdate i r) = key i)
    (hkI : ∀ i, rowKey (mkInsert i) = key i) :
    ∀ (inputs : List ι) (table : List ρ), ((inputs.map key).Nodup) →
      ∀ i ∈ inputs,
        key i ∈ (upsertRows key rowKey mkInsert applyUpdate table inputs).map rowKey
        ∧ ∀ r ∈ upsertRows key rowKey mkInsert applyUpdate table inputs,
            rowKey r = key i → (∃ r0, r = applyUpdate i r0) ∨ r = mkInsert i := by
  intro inputs
  induction inputs with
  | nil =>
    intro table _ i hi
    cases hi
  | cons j rest ih =>
    intro table hnd i hi
    rw [upsertRows_cons]
    rcases List.mem_cons.mp hi with rfl | hir
    · have hknot : ∀ j2 ∈ rest, key j2 ≠ key i := by
        intro j2 hj2 he
        exact (List.nodup_cons.mp hnd).1 (he ▸ List.mem_map_of_mem key hj2)
      have hpres := upsertRows_preserve key rowKey mkInsert applyUpdate hkU hkI
        (fun r => (∃ r0, r = applyUpdate i r0) ∨ r = mkInsert i) (key i) rest
        (upsertRow key rowKey mkInsert applyUpdate table i) hknot
        (upsertRow_self_rows key rowKey mkInsert applyUpdate table i)
        (upsertRow_key_present key rowKey mkInsert applyUpdate hkU hkI table i)
      exact ⟨hpres.2, hpres.1⟩
    · exact ih _ (List.nodup_cons.mp hnd).2 i hir

theorem upsertRows_fix :
    ∀ (inputs : List ι) (table : List ρ),
      (∀ i ∈ inputs, key i ∈ table.map rowKey
        ∧ ∀ r ∈ table, rowKey r = key i → applyUpdate i r = r) →
      upsertRows key rowKey mkInsert applyUpdate table inputs = table := by
  intro inputs
  induction inputs with
  | nil =>
    intro table _
    rfl
  | cons j rest ih =>
    intro table h
    have hj := h j (List.mem_cons_self j rest)
    have hrow : upsertRow key rowKey mkInsert applyUpdate table j = table := by
      unfold upsertRow
      have hp : table.any (fun r => rowKey r = key j) = true := by
        obtain ⟨r, hr, hkr⟩ := List.mem_map.mp hj.1
        exact List.any_eq_true.mpr ⟨r, hr, by simp [hkr]⟩
      rw [if_pos hp]
      have hpt : ∀ r ∈ table, (if rowKey r = key j then applyUpdate j r else r) = r := by
        intro r hr
        by_cases hc : rowKey r = key j
        · rw [if_pos hc]
          exact hj.2 r hr hc
        · rw [if_neg hc]
      calc table.map (fun r => if rowKey r = key j then applyUpdate j r else r)
          = table.map id := List.map_congr_left hpt
        _ = table := List.map_id table
    rw [upsertRows_cons, hrow]
    exact ih table (fun i hi => h i (List.mem_cons_of_mem j hi))

end UpsertGeneric



theorem elementTypeUpdate_absorb_update (el : StructureServiceElementType)
    (r : ElementTypeRow) :
    elementTypeUpdate el (elementTypeUpdate el r) = elementTypeUpdate el r := rfl

theorem elementTypeUpdate_absorb_insert (el : StructureServiceElementType) :
    elementTypeUpdate el (elementTypeInsert el) = elementTypeInsert el := rfl

theorem elementTypeUpdate_key (el : StructureServiceElementType) (r : ElementTypeRow) :
    elementTypeRowKey (elementTypeUpdate el r) = elementTypeKey el := rfl

theorem elementTypeInsert_key (el : StructureServiceElementType) :
    elementTypeRowKey (elementTypeInsert el) = elementTypeKey el := rfl

theorem thingNodeUpdate_absorb_update (tn : StructureServiceThingNode) (r : ThingNodeRow) :
    thingNodeUpdate tn (thingNodeUpdate tn r) = thingNodeUpdate tn r := rfl

theorem thingNodeUpdate_absorb_insert (tn : StructureServiceThingNode) :
    thingNodeUpdate tn (thingNodeInsert tn) = thingNodeInsert tn := rfl

theorem thingNodeUpdate_absorb_parent_update (tn : StructureServiceThingNode)
    (r : ThingNodeRow) (p : Option String) :
    thingNodeUpdate tn { thingNodeUpdate tn r with parent_node_id := p }
      = { thingNodeUpdate tn r with parent_node_id := p } := rfl

theorem thingNodeUpdate_absorb_parent_insert (tn : StructureServiceThingNode)
    (p : Option String) :
    thingNodeUpdate tn { thingNodeInsert tn with parent_node_id := p }
      = { thingNodeInsert tn with parent_node_id := p } := rfl

theorem sourceUpdate_absorb_update (s : StructureServiceSource) (r : SourceRow) :
    sourceUpdate s (sourceUpdate s r) = sourceUpdate s r := rfl

theorem sourceUpdate_absorb_insert (s : StructureServiceSource) :
    sourceUpdate s (sourceInsert s) = sourceInsert s := rfl

theorem sourceUpdate_absorb_assoc_update (s : StructureServiceSource) (r : SourceRow)
    (x : List String) :
    sourceUpdate s { sourceUpdate s r with thing_nodes := x }
      = { sourceUpdate s r with thing_nodes := x } := rfl

theorem sourceUpdate_absorb_assoc_insert (s : StructureServiceSource) (x : List String) :
    sourceUpdate s { sourceInsert s with thing_nodes := x }
      = { sourceInsert s with thing_nodes := x } := rfl

theorem sinkUpdate_absorb_update (s : StructureServiceSink) (r : SinkRow) :
    sinkUpdate s (sinkUpdate s r) = sinkUpdate s r := rfl

theorem sinkUpdate_absorb_insert (s : StructureServiceSink) :
    sinkUpdate s (sinkInsert s) = sinkInsert s := rfl

theorem sinkUpdate_absorb_assoc_update (s : StructureServiceSink) (r : SinkRow)
    (x : List String) :
    sinkUpdate s { sinkUpdate s r with thing_nodes := x }
      = { sinkUpdate s r with thing_nodes := x } := rfl

theorem sinkUpdate_absorb_assoc_insert (s : StructureServiceSink) (x : List String) :
    sinkUpdate s { sinkInsert s with thing_nodes := x }
      = { sinkInsert s with thing_nodes := x } := rfl



theorem thingNodeUpdate_key (tn : StructureServiceThingNode) (r : ThingNodeRow) :
    thingNodeRowKey (thingNodeUpdate tn r) = thingNodeKey tn := rfl

theorem thingNodeInsert_key (tn : StructureServiceThingNode) :
    thingNodeRowKey (thingNodeInsert tn) = thingNodeKey tn := rfl

theorem sourceUpdate_key (s : StructureServiceSource) (r : SourceRow) :
    sourceRowKey (sourceUpdate s r) = sourceKey s := rfl

theorem sourceInsert_key (s : StructureServiceSource) :
    sourceRowKey (sourceInsert s) = sourceKey s := rfl

theorem sinkUpdate_key (s : StructureServiceSink) (r : SinkRow) :
    sinkRowKey (sinkUpdate s r) = sinkKey s := rfl

theorem sinkInsert_key (s : StructureServiceSink) :
    sinkRowKey (sinkInsert s) = sinkKey s := rfl

theorem thingNodeParentFix_shape (d : List ((String × String) × ThingNodeRow))
    (keys : List (String × String)) (r : ThingNodeRow) :
    thingNodeParentFix d keys r = r
      ∨ ∃ p, thingNodeParentFix d keys r = { r with parent_node_id := p } := by
  unfold thingNodeParentFix
  repeat' split
  all_goals first
    | exact Or.inl rfl
    | exact Or.inr ⟨_, rfl⟩

theorem thingNodeParentFix_rowKey (d : List ((String × String) × ThingNodeRow))
    (keys : List (String × String)) (r : ThingNodeRow) :
    thingNodeRowKey (thingNodeParentFix d keys r) = thingNodeRowKey r := by
  rcases thingNodeParentFix_shape d keys r with h | ⟨p, h⟩ <;> rw [h] <;> try rfl

theorem thingNodeParentFix_id (d : List ((String × String) × ThingNodeRow))
    (keys : List (String × String)) (r : ThingNodeRow) :
    (thingNodeParentFix d keys r).id = r.id := by
  rcases thingNodeParentFix_shape d keys r with h | ⟨p, h⟩ <;> rw [h] <;> try rfl

theorem sourceAssocFix_shape (d : List ((String × String) × ThingNodeRow))
    (keys : List (String × String)) (r : SourceRow) :
    sourceAssocFix d keys r = r
      ∨ ∃ x, sourceAssocFix d keys r = { r with thing_nodes := x } := by
  unfold sourceAssocFix
  by_cases hc : keys.contains (sourceRowKey r)
  · rw [if_pos hc]
    exact Or.inr ⟨_, rfl⟩
  · rw [if_neg hc]
    exact Or.inl rfl

theorem sourceAssocFix_rowKey (d : List ((String × String) × ThingNodeRow))
    (keys : List (String × String)) (r : SourceRow) :
    sourceRowKey (sourceAssocFix d keys r) = sourceRowKey r := by
  rcases sourceAssocFix_shape d keys r with h | ⟨x, h⟩ <;> rw [h] <;> try rfl

theorem sinkAssocFix_shape (d : List ((String × String) × ThingNodeRow))
    (keys : List (String × String)) (r : SinkRow) :
    sinkAssocFix d keys r = r
      ∨ ∃ x, sinkAssocFix d keys r = { r with thing_nodes := x } := by
  unfold sinkAssocFix
  by_cases hc : keys.contains (sinkRowKey r)
  · rw [if_pos hc]
    exact Or.inr ⟨_, rfl⟩
  · rw [if_neg hc]
    exact Or.inl rfl

theorem sinkAssocFix_rowKey (d : List ((String × String) × ThingNodeRow))
    (keys : List (String × String)) (r : SinkRow) :
    sinkRowKey (sinkAssocFix d keys r) = sinkRowKey r := by
  rcases sinkAssocFix_shape d keys r with h | ⟨x, h⟩ <;> rw [h] <;> try rfl



theorem dict2Insert_map {ν μ : Type} (g : ν → μ) :
    ∀ (m : List ((String × String) × ν)) (k : String × String) (v : ν),
      dict2Insert (m.map (fun kv => (kv.1, g kv.2))) k (g v)
        = (dict2Insert m k v).map (fun kv => (kv.1, g kv.2)) := by
  intro m
  induction m with
  | nil =>
    intro k v
    rfl
  | cons kv rest ih =>
    intro k v
    obtain ⟨k0, v0⟩ := kv
    simp only [List.map_cons, dict2Insert]
    by_cases hk : k0 = k
    · rw [if_pos hk, if_pos hk]
      simp
    · rw [if_neg hk, if_neg hk]
      simp [ih]

theorem dict2Find?_map {ν μ : Type} (g : ν → μ) :
    ∀ (m : List ((String × String) × ν)) (k : String × String),
      dict2Find? (m.map (fun kv => (kv.1, g kv.2))) k = (dict2Find? m k).map g := by
  intro m
  induction m with
  | nil =>
    intro k
    rfl
  | cons kv rest ih =>
    intro k
    obtain ⟨k0, v0⟩ := kv
    simp only [List.map_cons, dict2Find?]
    by_cases hk : k0 = k
    · rw [if_pos hk, if_pos hk]
      rfl
    · rw [if_neg hk, if_neg hk]
      exact ih k

theorem find?_rowKey_map {ρ : Type} (rowKey : ρ → String × String) (g : ρ → ρ)
    (hg : ∀ r, rowKey (g r) = rowKey r) (t : List ρ) (k : String × String) :
    (t.map g).find? (fun r => rowKey r = k) = (t.find? (fun r => rowKey r = k)).map g := by
  have hpc : ((fun r => decide (rowKey r = k)) ∘ g) = (fun r => decide (rowKey r = k)) := by
    funext r
    simp [Function.comp, hg]
  rw [List.find?_map, hpc]

theorem returningDict_map {ρ : Type} (rowKey : ρ → String × String) (g : ρ → ρ)
    (hg : ∀ r, rowKey (g r) = rowKey r) (t : List ρ) (ks : List (String × String)) :
    returningDict rowKey (t.map g) ks
      = (returningDict rowKey t ks).map (fun kv => (kv.1, g kv.2)) := by
  have aux : ∀ (ks2 : List (String × String)) (acc : List ((String × String) × ρ)),
      ks2.foldl
        (fun m k =>
          match (t.map g).find? (fun r => rowKey r = k) with
          | some r => dict2Insert m k r
          | none => m)
        (acc.map (fun kv => (kv.1, g kv.2)))
      = (ks2.foldl
          (fun m k =>
            match t.find? (fun r => rowKey r = k) with
            | some r => dict2Insert m k r
            | none => m)
          acc).map (fun kv => (kv.1, g kv.2)) := by
    intro ks2
    induction ks2 with
    | nil =>
      intro acc
      rfl
    | cons k rest ih =>
      intro acc
      simp only [List.foldl_cons]
      rw [find?_rowKey_map rowKey g hg]
      cases hf : t.find? (fun r => rowKey r = k) with
      | none =>
        rw [show Option.map g (none : Option ρ) = none from rfl]
        simp only []
        exact ih acc
      | some r =>
        rw [show Option.map g (some r) = some (g r) from rfl]
        simp only []
        rw [dict2Insert_map g acc k r]
        exact ih (dict2Insert acc k r)
  unfold returningDict
  have h0 : ([] : List ((String × String) × ρ))
      = ([] : List ((String × String) × ρ)).map (fun kv => (kv.1, g kv.2)) := rfl
  rw [h0]
  exact aux ks []

theorem map_rowKey_of_pointwise {ρ : Type} (rowKey : ρ → String × String) (g : ρ → ρ)
    (hg : ∀ r, rowKey (g r) = rowKey r) (t : List ρ) :
    (t.map g).map rowKey = t.map rowKey := by
  rw [List.map_map]
  exact List.map_congr_left (fun r _ => hg r)



theorem upsert_element_types_empty (table : List ElementTypeRow)
    (els : List StructureServiceElementType) (he : els.isEmpty = true) :
    upsert_element_types table els = (table, []) := by
  unfold upsert_element_types
  simp [he]

theorem upsert_element_types_pair (table : List ElementTypeRow)
    (els : List StructureServiceElementType) (he : els.isEmpty = false) :
    upsert_element_types table els
      = (upsertRows elementTypeKey elementTypeRowKey elementTypeInsert elementTypeUpdate
           table els,
         returningDict elementTypeRowKey
           (upsertRows elementTypeKey elementTypeRowKey elementTypeInsert elementTypeUpdate
             table els)
           (els.map elementTypeKey)) := by
  unfold upsert_element_types
  simp [he]

theorem upsert_element_types_idem (table : List ElementTypeRow)
    (els : List StructureServiceElementType)
    (hnd : (els.map elementTypeKey).Nodup) :
    upsert_element_types (upsert_element_types table els).1 els
      = upsert_element_types table els := by
  cases he : els.isEmpty with
  | true =>
    rw [upsert_element_types_empty table els he]
    exact upsert_element_types_empty table els he
  | false =>
    have hcan := upsertRows_canonical elementTypeKey elementTypeRowKey elementTypeInsert
      elementTypeUpdate elementTypeUpdate_key elementTypeInsert_key els table hnd
    have hfix : upsertRows elementTypeKey elementTypeRowKey elementTypeInsert
        elementTypeUpdate
        (upsertRows elementTypeKey elementTypeRowKey elementTypeInsert elementTypeUpdate
          table els) els
        = upsertRows elementTypeKey elementTypeRowKey elementTypeInsert elementTypeUpdate
            table els := by
      apply upsertRows_fix
      intro i hi
      obtain ⟨hkey, hrows⟩ := hcan i hi
      refine ⟨hkey, ?_⟩
      intro r hr hkr
      rcases hrows r hr hkr with ⟨r0, rfl⟩ | rfl
      · exact elementTypeUpdate_absorb_update i r0
      · exact elementTypeUpdate_absorb_insert i
    rw [upsert_element_types_pair table els he]
    show upsert_element_types
        (upsertRows elementTypeKey elementTypeRowKey elementTypeInsert elementTypeUpdate
          table els) els
      = (upsertRows elementTypeKey elementTypeRowKey elementTypeInsert elementTypeUpdate
           table els,
         returningDict elementTypeRowKey
           (upsertRows elementTypeKey elementTypeRowKey elementTypeInsert elementTypeUpdate
             table els)
           (els.map elementTypeKey))
    rw [upsert_element_types_pair _ els he, hfix]



theorem sourceAssocFix_idem_on (d : List ((String × String) × ThingNodeRow))
    (keys : List (String × String)) (r : SourceRow) :
    sourceAssocFix d keys (sourceAssocFix d keys r) = sourceAssocFix d keys r := by
  simp only [sourceAssocFix, sourceRowKey]
  by_cases hc : (r.stakeholder_key, r.external_id) ∈ keys
  · simp [hc]
  · simp [hc]

theorem sinkAssocFix_idem_on (d : List ((String × String) × ThingNodeRow))
    (keys : List (String × String)) (r : SinkRow) :
    sinkAssocFix d keys (sinkAssocFix d keys r) = sinkAssocFix d keys r := by
  simp only [sinkAssocFix, sinkRowKey]
  by_cases hc : (r.stakeholder_key, r.external_id) ∈ keys
  · simp [hc]
  · simp [hc]

theorem upsert_sources_empty (table : List SourceRow) (srcs : List StructureServiceSource)
    (d : List ((String × String) × ThingNodeRow)) (he : srcs.isEmpty = true) :
    upsert_sources table srcs d = table := by
  unfold upsert_sources
  simp [he]

theorem upsert_sources_eq (table : List SourceRow) (srcs : List StructureServiceSource)
    (d : List ((String × String) × ThingNodeRow)) (he : srcs.isEmpty = false) :
    upsert_sources table srcs d
      = (upsertRows sourceKey sourceRowKey sourceInsert sourceUpdate table srcs).map
          (sourceAssocFix d (srcs.map sourceKey)) := by
  unfold upsert_sources
  simp [he]

theorem upsert_sinks_empty (table : List SinkRow) (sks : List StructureServiceSink)
    (d : List ((String × String) × ThingNodeRow)) (he : sks.isEmpty = true) :
    upsert_sinks table sks d = table := by
  unfold upsert_sinks
  simp [he]

theorem upsert_sinks_eq (table : List SinkRow) (sks : List StructureServiceSink)
    (d : List ((String × String) × ThingNodeRow)) (he : sks.isEmpty = false) :
    upsert_sinks table sks d
      = (upsertRows sinkKey sinkRowKey sinkInsert sinkUpdate table sks).map
          (sinkAssocFix d (sks.map sinkKey)) := by
  unfold upsert_sinks
  simp [he]

theorem upsert_sources_idem (table : List SourceRow) (srcs : List StructureServiceSource)
    (d : List ((String × String) × ThingNodeRow))
    (hnd : (srcs.map sourceKey).Nodup) :
    upsert_sources (upsert_sources table srcs d) srcs d = upsert_sources table srcs d := by
  cases he : srcs.isEmpty with
  | true =>
    rw [upsert_sources_empty table srcs d he]
    exact upsert_sources_empty table srcs d he
  | false =>
    have hcan := upsertRows_canonical sourceKey sourceRowKey sourceInsert sourceUpdate
      sourceUpdate_key sourceInsert_key srcs table hnd
    rw [upsert_sources_eq table srcs d he, upsert_sources_eq _ srcs d he]
    have hfix : upsertRows sourceKey sourceRowKey sourceInsert sourceUpdate
        ((upsertRows sourceKey sourceRowKey sourceInsert sourceUpdate table srcs).map
          (sourceAssocFix d (srcs.map sourceKey))) srcs
        = (upsertRows sourceKey sourceRowKey sourceInsert sourceUpdate table srcs).map
            (sourceAssocFix d (srcs.map sourceKey)) := by
      apply upsertRows_fix
      intro s hs
      obtain ⟨hkey, hrows⟩ := hcan s hs
      constructor
      · rw [map_rowKey_of_pointwise sourceRowKey _ (sourceAssocFix_rowKey d _)]
        exact hkey
      · intro r hr hkr
        obtain ⟨r1, hr1, rfl⟩ := List.mem_map.mp hr
        have hkr1 : sourceRowKey r1 = sourceKey s := by
          rw [← sourceAssocFix_rowKey d (srcs.map sourceKey) r1]
          exact hkr
        rcases hrows r1 hr1 hkr1 with ⟨r0, rfl⟩ | rfl
        · rcases sourceAssocFix_shape d (srcs.map sourceKey) (sourceUpdate s r0) with h | ⟨x, h⟩
          · rw [h]
            exact sourceUpdate_absorb_update s r0
          · rw [h]
            exact sourceUpdate_absorb_assoc_update s r0 x
        · rcases sourceAssocFix_shape d (srcs.map sourceKey) (sourceInsert s) with h | ⟨x, h⟩
          · rw [h]
            exact sourceUpdate_absorb_insert s
          · rw [h]
            exact sourceUpdate_absorb_assoc_insert s x
    rw [hfix, List.map_map]
    refine List.map_congr_left ?_
    intro r _
    simp only [Function.comp]
    exact sourceAssocFix_idem_on d _ r

theorem upsert_sinks_idem (table : List SinkRow) (sks : List StructureServiceSink)
    (d : List ((String × String) × ThingNodeRow))
    (hnd : (sks.map sinkKey).Nodup) :
    upsert_sinks (upsert_sinks table sks d) sks d = upsert_sinks table sks d := by
  cases he : sks.isEmpty with
  | true =>
    rw [upsert_sinks_empty table sks d he]
    exact upsert_sinks_empty table sks d he
  | false =>
    have hcan := upsertRows_canonical sinkKey sinkRowKey sinkInsert sinkUpdate
      sinkUpdate_key sinkInsert_key sks table hnd
    rw [upsert_sinks_eq table sks d he, upsert_sinks_eq _ sks d he]
    have hfix : upsertRows sinkKey sinkRowKey sinkInsert sinkUpdate
        ((upsertRows sinkKey sinkRowKey sinkInsert sinkUpdate table sks).map
          (sinkAssocFix d (sks.map sinkKey))) sks
        = (upsertRows sinkKey sinkRowKey sinkInsert sinkUpdate table sks).map
            (sinkAssocFix d (sks.map sinkKey)) := by
      apply upsertRows_fix
      intro s hs
      obtain ⟨hkey, hrows⟩ := hcan s hs
      constructor
      · rw [map_rowKey_of_pointwise sinkRowKey _ (sinkAssocFix_rowKey d _)]
        exact hkey
      · intro r hr hkr
        obtain ⟨r1, hr1, rfl⟩ := List.mem_map.mp hr
        have hkr1 : sinkRowKey r1 = sinkKey s := by
          rw [← sinkAssocFix_rowKey d (sks.map sinkKey) r1]
          exact hkr
        rcases hrows r1 hr1 hkr1 with ⟨r0, rfl⟩ | rfl
        · rcases sinkAssocFix_shape d (sks.map sinkKey) (sinkUpdate s r0) with h | ⟨x, h⟩
          · rw [h]
            exact sinkUpdate_absorb_update s r0
          · rw [h]
            exact sinkUpdate_absorb_assoc_update s r0 x
        · rcases sinkAssocFix_shape d (sks.map sinkKey) (sinkInsert s) with h | ⟨x, h⟩
          · rw [h]
            exact sinkUpdate_absorb_insert s
          · rw [h]
            exact sinkUpdate_absorb_assoc_insert s x
    rw [hfix, List.map_map]
    refine List.map_congr_left ?_
    intro r _
    simp only [Function.comp]
    exact sinkAssocFix_idem_on d _ r



theorem thingNodeParentFix_eval_notin (d : List ((String × String) × ThingNodeRow))
    (K : List (String × String)) (r : ThingNodeRow)
    (hc : K.contains (thingNodeRowKey r) = false) :
    thingNodeParentFix d K r = r := by
  have hm : thingNodeRowKey r ∉ K := by simpa using hc
  unfold thingNodeParentFix
  simp [hm]

theorem thingNodeParentFix_eval_none (d : List ((String × String) × ThingNodeRow))
    (K : List (String × String)) (r : ThingNodeRow)
    (hc : K.contains (thingNodeRowKey r) = true)
    (ht : rowTruthyParentExt r = none) :
    thingNodeParentFix d K r = r := by
  have hm : thingNodeRowKey r ∈ K := by simpa using hc
  unfold thingNodeParentFix
  simp [hm, ht]

theorem thingNodeParentFix_eval_lookup_none (d : List ((String × String) × ThingNodeRow))
    (K : List (String × String)) (r : ThingNodeRow) (pe : String)
    (hc : K.contains (thingNodeRowKey r) = true)
    (ht : rowTruthyParentExt r = some pe)
    (hl : dict2Find? d (r.stakeholder_key, pe) = none) :
    thingNodeParentFix d K r = r := by
  have hm : thingNodeRowKey r ∈ K := by simpa using hc
  unfold thingNodeParentFix
  simp [hm, ht, hl]

theorem thingNodeParentFix_eval_lookup_some (d : List ((String × String) × ThingNodeRow))
    (K : List (String × String)) (r : ThingNodeRow) (pe : String) (p : ThingNodeRow)
    (hc : K.contains (thingNodeRowKey r) = true)
    (ht : rowTruthyParentExt r = some pe)
    (hl : dict2Find? d (r.stakeholder_key, pe) = some p) :
    thingNodeParentFix d K r = { r with parent_node_id := some p.id } := by
  have hm : thingNodeRowKey r ∈ K := by simpa using hc
  unfold thingNodeParentFix
  simp [hm, ht, hl]

theorem thingNodeParentFix_pext (d : List ((String × String) × ThingNodeRow))
    (K : List (String × String)) (r : ThingNodeRow) :
    (thingNodeParentFix d K r).parent_external_node_id = r.parent_external_node_id := by
  rcases thingNodeParentFix_shape d K r with h | ⟨p, h⟩ <;> rw [h] <;> try rfl

theorem thingNodeParentFix_sk (d : List ((String × String) × ThingNodeRow))
    (K : List (String × String)) (r : ThingNodeRow) :
    (thingNodeParentFix d K r).stakeholder_key = r.stakeholder_key := by
  rcases thingNodeParentFix_shape d K r with h | ⟨p, h⟩ <;> rw [h] <;> try rfl

theorem rowTruthyParentExt_fix (d : List ((String × String) × ThingNodeRow))
    (K : List (String × String)) (r : ThingNodeRow) :
    rowTruthyParentExt (thingNodeParentFix d K r) = rowTruthyParentExt r := by
  unfold rowTruthyParentExt
  rw [thingNodeParentFix_pext]

theorem thingNodeParentFix_second (d1 : List ((String × String) × ThingNodeRow))
    (K : List (String × String)) (r : ThingNodeRow) :
    thingNodeParentFix (d1.map (fun kv => (kv.1, thingNodeParentFix d1 K kv.2))) K
        (thingNodeParentFix d1 K r)
      = thingNodeParentFix d1 K r := by
  cases hc : K.contains (thingNodeRowKey r) with
  | false =>
    rw [thingNodeParentFix_eval_notin d1 K r hc]
    exact thingNodeParentFix_eval_notin _ K r hc
  | true =>
    have hcv : K.contains (thingNodeRowKey (thingNodeParentFix d1 K r)) = true := by
      rw [thingNodeParentFix_rowKey]
      exact hc
    cases ht : rowTruthyParentExt r with
    | none =>
      rw [thingNodeParentFix_eval_none d1 K r hc ht]
      exact thingNodeParentFix_eval_none _ K r hc ht
    | some pe =>
      cases hl : dict2Find? d1 (r.stakeholder_key, pe) with
      | none =>
        rw [thingNodeParentFix_eval_lookup_none d1 K r pe hc ht hl]
        apply thingNodeParentFix_eval_lookup_none _ K r pe hc ht
        rw [dict2Find?_map]
        rw [hl]
        rfl
      | some p1 =>
        rw [thingNodeParentFix_eval_lookup_some d1 K r pe p1 hc ht hl]
        have htv : rowTruthyParentExt ({ r with parent_node_id := some p1.id } : ThingNodeRow)
            = some pe := ht
        have hcv2 : K.contains
            (thingNodeRowKey ({ r with parent_node_id := some p1.id } : ThingNodeRow)) = true := hc
        have hlv : dict2Find? (d1.map (fun kv => (kv.1, thingNodeParentFix d1 K kv.2)))
            (({ r with parent_node_id := some p1.id } : ThingNodeRow).stakeholder_key, pe)
            = some (thingNodeParentFix d1 K p1) := by
          rw [dict2Find?_map]
          have : (({ r with parent_node_id := some p1.id } : ThingNodeRow).stakeholder_key)
              = r.stakeholder_key := rfl
          rw [this, hl]
          rfl
        rw [thingNodeParentFix_eval_lookup_some _ K _ pe (thingNodeParentFix d1 K p1)
          hcv2 htv hlv]
        rw [thingNodeParentFix_id]



theorem upsert_thing_nodes_empty (table : List ThingNodeRow)
    (tns : List StructureServiceThingNode)
    (d : List ((String × String) × ElementTypeRow))
    (he : (thingNodeInputs d tns).isEmpty = true) :
    upsert_thing_nodes table tns d = (table, []) := by
  unfold upsert_thing_nodes
  simp [he]

theorem upsert_thing_nodes_eq (table : List ThingNodeRow)
    (tns : List StructureServiceThingNode)
    (d : List ((String × String) × ElementTypeRow))
    (he : (thingNodeInputs d tns).isEmpty = false) :
    upsert_thing_nodes table tns d
      = ((upsertRows thingNodeKey thingNodeRowKey thingNodeInsert thingNodeUpdate table
            (thingNodeInputs d tns)).map
           (thingNodeParentFix
             (returningDict thingNodeRowKey
               (upsertRows thingNodeKey thingNodeRowKey thingNodeInsert thingNodeUpdate table
                 (thingNodeInputs d tns))
               ((thingNodeInputs d tns).map thingNodeKey))
             ((thingNodeInputs d tns).map thingNodeKey)),
         returningDict thingNodeRowKey
           ((upsertRows thingNodeKey thingNodeRowKey thingNodeInsert thingNodeUpdate table
               (thingNodeInputs d tns)).map
             (thingNodeParentFix
               (returningDict thingNodeRowKey
                 (upsertRows thingNodeKey thingNodeRowKey thingNodeInsert thingNodeUpdate table
                   (thingNodeInputs d tns))
                 ((thingNodeInputs d tns).map thingNodeKey))
               ((thingNodeInputs d tns).map thingNodeKey)))
           ((thingNodeInputs d tns).map thingNodeKey)) := by
  unfold upsert_thing_nodes
  simp [he]

theorem tn_upsert_fix (table : List ThingNodeRow) (ns : List StructureServiceThingNode)
    (hnd : (ns.map thingNodeKey).Nodup)
    (D1 : List ((String × String) × ThingNodeRow)) (K : List (String × String)) :
    upsertRows thingNodeKey thingNodeRowKey thingNodeInsert thingNodeUpdate
        ((upsertRows thingNodeKey thingNodeRowKey thingNodeInsert thingNodeUpdate table ns).map
          (thingNodeParentFix D1 K)) ns
      = (upsertRows thingNodeKey thingNodeRowKey thingNodeInsert thingNodeUpdate table ns).map
          (thingNodeParentFix D1 K) := by
  have hcan := upsertRows_canonical thingNodeKey thingNodeRowKey thingNodeInsert thingNodeUpdate
    thingNodeUpdate_key thingNodeInsert_key ns table hnd
  apply upsertRows_fix
  intro n hn
  obtain ⟨hkey, hrows⟩ := hcan n hn
  constructor
  · rw [map_rowKey_of_pointwise thingNodeRowKey _ (thingNodeParentFix_rowKey D1 K)]
    exact hkey
  · intro r hr hkr
    obtain ⟨r1, hr1, rfl⟩ := List.mem_map.mp hr
    have hkr1 : thingNodeRowKey r1 = thingNodeKey n := by
      rw [← thingNodeParentFix_rowKey D1 K r1]
      exact hkr
    rcases hrows r1 hr1 hkr1 with ⟨r0, rfl⟩ | rfl
    · rcases thingNodeParentFix_shape D1 K (thingNodeUpdate n r0) with h | ⟨p, h⟩
      · rw [h]
        exact thingNodeUpdate_absorb_update n r0
      · rw [h]
        exact thingNodeUpdate_absorb_parent_update n r0 p
    · rcases thingNodeParentFix_shape D1 K (thingNodeInsert n) with h | ⟨p, h⟩
      · rw [h]
        exact thingNodeUpdate_absorb_insert n
      · rw [h]
        exact thingNodeUpdate_absorb_parent_insert n p

theorem map_parentFix_returningDict_self (T1 : List ThingNodeRow)
    (D1 : List ((String × String) × ThingNodeRow)) (K : List (String × String))
    (hD1 : D1 = returningDict thingNodeRowKey T1 K) :
    (T1.map (thingNodeParentFix D1 K)).map
        (thingNodeParentFix
          (returningDict thingNodeRowKey (T1.map (thingNodeParentFix D1 K)) K) K)
      = T1.map (thingNodeParentFix D1 K) := by
  rw [returningDict_map thingNodeRowKey (thingNodeParentFix D1 K)
    (thingNodeParentFix_rowKey D1 K) T1 K]
  rw [← hD1]
  rw [List.map_map]
  refine List.map_congr_left ?_
  intro r _
  simp only [Function.comp]
  exact thingNodeParentFix_second D1 K r

theorem upsert_thing_nodes_idem (table : List ThingNodeRow)
    (tns : List StructureServiceThingNode)
    (d : List ((String × String) × ElementTypeRow))
    (hnd : ((thingNodeInputs d tns).map thingNodeKey).Nodup) :
    upsert_thing_nodes (upsert_thing_nodes table tns d).1 tns d
      = upsert_thing_nodes table tns d := by
  cases he : (thingNodeInputs d tns).isEmpty with
  | true =>
    rw [upsert_thing_nodes_empty table tns d he]
    exact upsert_thing_nodes_empty table tns d he
  | false =>
    rw [upsert_thing_nodes_eq table tns d he]
    dsimp only
    rw [upsert_thing_nodes_eq _ tns d he]
    rw [tn_upsert_fix table (thingNodeInputs d tns) hnd
      (returningDict thingNodeRowKey
        (upsertRows thingNodeKey thingNodeRowKey thingNodeInsert thingNodeUpdate table
          (thingNodeInputs d tns))
        ((thingNodeInputs d tns).map thingNodeKey))
      ((thingNodeInputs d tns).map thingNodeKey)]
    rw [map_parentFix_returningDict_self
      (upsertRows thingNodeKey thingNodeRowKey thingNodeInsert thingNodeUpdate table
        (thingNodeInputs d tns))
      (returningDict thingNodeRowKey
        (upsertRows thingNodeKey thingNodeRowKey thingNodeInsert thingNodeUpdate table
          (thingNodeInputs d tns))
        ((thingNodeInputs d tns).map thingNodeKey))
      ((thingNodeInputs d tns).map thingNodeKey) rfl]



theorem set_parent_ids_update_key
    (m : List ((String × String) × StructureServiceThingNode))
    (tn : StructureServiceThingNode) :
    thingNodeKey (set_parent_ids_update m tn) = thingNodeKey tn := by
  unfold set_parent_ids_update
  split
  · rfl
  · rfl

theorem setParentIdsList_keys (tns : List StructureServiceThingNode) :
    (setParentIdsList tns).map thingNodeKey = tns.map thingNodeKey := by
  unfold setParentIdsList
  dsimp only
  exact map_rowKey_of_pointwise thingNodeKey _ (set_parent_ids_update_key _) tns

theorem filterMap_map_key_sublist {α β : Type} (f : α → Option β)
    (ka : α → String × String) (kb : β → String × String)
    (hf : ∀ a b, f a = some b → kb b = ka a) :
    ∀ l : List α, ((l.filterMap f).map kb).Sublist (l.map ka) := by
  intro l
  induction l with
  | nil => simp
  | cons a rest ih =>
    cases hfa : f a with
    | none =>
      simp only [List.filterMap_cons, hfa, List.map_cons]
      exact ih.cons _
    | some b =>
      simp only [List.filterMap_cons, hfa, List.map_cons]
      rw [hf a b hfa]
      exact ih.cons₂ _

theorem thingNodeInputs_keys_nodup (d : List ((String × String) × ElementTypeRow))
    (tns : List StructureServiceThingNode)
    (hnd : (tns.map thingNodeKey).Nodup) :
    ((thingNodeInputs d tns).map thingNodeKey).Nodup := by
  refine List.Nodup.sublist ?_ hnd
  unfold thingNodeInputs
  apply filterMap_map_key_sublist
  intro a b hab
  cases hfind : dict2Find? d (a.stakeholder_key, a.element_type_external_id) with
  | none =>
    rw [hfind] at hab
    cases hab
  | some et =>
    rw [hfind] at hab
    simp only [] at hab
    rw [← Option.some.inj hab]
    rfl

theorem firstDuplicateKeyPair_none {α : Type} (key : α → String × String) :
    ∀ (l : List α) (seen : List (String × String)),
      firstDuplicateKeyPair key l seen = none →
      (∀ x ∈ l, key x ∉ seen) ∧ (l.map key).Nodup := by
  intro l
  induction l with
  | nil =>
    intro seen _
    exact ⟨fun x hx => absurd hx (List.not_mem_nil x), List.nodup_nil⟩
  | cons a rest ih =>
    intro seen h
    unfold firstDuplicateKeyPair at h
    by_cases hk : key a ∈ seen
    · rw [if_pos hk] at h
      cases h
    · rw [if_neg hk] at h
      obtain ⟨hall, hnd⟩ := ih (key a :: seen) h
      constructor
      · intro x hx
        rcases List.mem_cons.mp hx with rfl | hxr
        · exact hk
        · exact fun hmem => hall x hxr (List.mem_cons_of_mem _ hmem)
      · rw [List.map_cons, List.nodup_cons]
        refine ⟨?_, hnd⟩
        intro hmem
        obtain ⟨x, hx, hkx⟩ := List.mem_map.mp hmem
        exact hall x hx (by rw [hkx]; exact List.mem_cons_self _ _)

theorem check_dup_ok_nodup (cs : CompleteStructure)
    (h : check_for_duplicate_key_and_id_pairs cs = .ok ()) :
    (cs.element_types.map elementTypeKey).Nodup
      ∧ (cs.thing_nodes.map thingNodeKey).Nodup
      ∧ (cs.sources.map sourceKey).Nodup
      ∧ (cs.sinks.map sinkKey).Nodup := by
  unfold check_for_duplicate_key_and_id_pairs at h
  cases h1 : firstDuplicateKeyPair
      (fun (et : StructureServiceElementType) => (et.stakeholder_key, et.external_id))
      cs.element_types [] with
  | some k =>
    rw [h1] at h
    cases h
  | none =>
    rw [h1] at h
    simp only [] at h
    cases h2 : firstDuplicateKeyPair
        (fun (tn : StructureServiceThingNode) => (tn.stakeholder_key, tn.external_id))
        cs.thing_nodes [] with
    | some k =>
      rw [h2] at h
      cases h
    | none =>
      rw [h2] at h
      simp only [] at h
      cases h3 : firstDuplicateKeyPair
          (fun (s : StructureServiceSource) => (s.stakeholder_key, s.external_id))
          cs.sources [] with
      | some k =>
        rw [h3] at h
        cases h
      | none =>
        rw [h3] at h
        simp only [] at h
        cases h4 : firstDuplicateKeyPair
            (fun (s : StructureServiceSink) => (s.stakeholder_key, s.external_id))
            cs.sinks [] with
        | some k =>
          rw [h4] at h
          cases h
        | none =>
          refine ⟨?_, ?_, ?_, ?_⟩
          · exact (firstDuplicateKeyPair_none _ cs.element_types [] h1).2
          · exact (firstDuplicateKeyPair_none _ cs.thing_nodes [] h2).2
          · exact (firstDuplicateKeyPair_none _ cs.sources [] h3).2
          · exact (firstDuplicateKeyPair_none _ cs.sinks [] h4).2



theorem update_structure_eq (db : DBState) (S : CompleteStructure) :
    update_structure db S
      = { element_types := (upsert_element_types db.element_types S.element_types).1
          thing_nodes := (upsert_thing_nodes db.thing_nodes (setParentIdsList S.thing_nodes)
            (upsert_element_types db.element_types S.element_types).2).1
          sources := upsert_sources db.sources S.sources
            (upsert_thing_nodes db.thing_nodes (setParentIdsList S.thing_nodes)
              (upsert_element_types db.element_types S.element_types).2).2
          sinks := upsert_sinks db.sinks S.sinks
            (upsert_thing_nodes db.thing_nodes (setParentIdsList S.thing_nodes)
              (upsert_element_types db.element_types S.element_types).2).2 } := rfl

/-- C1: on a document that passes the duplicate `(stakeholder_key,
external_id)` validator, a second `update_structure` run on the state
the first run produced reproduces that state exactly; in particular
every row's internal UUID, which the on-conflict update never writes
(nor, for thing nodes, `parent_node_id`), is unchanged by the second
call. -/
theorem update_structure_idempotent (db : DBState) (S : CompleteStructure)
    (hok : check_for_duplicate_key_and_id_pairs S = .ok ()) :
    update_structure (update_structure db S) S = update_structure db S := by
  obtain ⟨hndE, hndT, hndSrc, hndSink⟩ := check_dup_ok_nodup S hok
  have hndM : ((setParentIdsList S.thing_nodes).map thingNodeKey).Nodup := by
    rw [setParentIdsList_keys]
    exact hndT
  rw [update_structure_eq db S, update_structure_eq]
  dsimp only
  rw [upsert_element_types_idem db.element_types S.element_types hndE]
  rw [upsert_thing_nodes_idem db.thing_nodes (setParentIdsList S.thing_nodes)
    (upsert_element_types db.element_types S.element_types).2
    (thingNodeInputs_keys_nodup _ _ hndM)]
  rw [upsert_sources_idem db.sources S.sources
    (upsert_thing_nodes db.thing_nodes (setParentIdsList S.thing_nodes)
      (upsert_element_types db.element_types S.element_types).2).2 hndSrc]
  rw [upsert_sinks_idem db.sinks S.sinks
    (upsert_thing_nodes db.thing_nodes (setParentIdsList S.thing_nodes)
      (upsert_element_types db.element_types S.element_types).2).2 hndSink]

theorem update_structure_idempotent_witness :
    check_for_duplicate_key_and_id_pairs demoC1CS = .ok ()
      ∧ update_structure (update_structure demoC1DB demoC1CS) demoC1CS
          = update_structure demoC1DB demoC1CS :=
  ⟨by decide, update_structure_idempotent demoC1DB demoC1CS (by decide)⟩

/-! ## C2 beyond 500 references: batching counterexample -/

set_option maxRecDepth 4000

theorem c2Name_inj (i j : Nat) (h : c2Name i = c2Name j) : i = j := by
  unfold c2Name at h
  have hdata : List.replicate (i + 1) 'u' = List.replicate (j + 1) 'u' := by
    have := congrArg String.data h
    simpa using this
  have hlen := congrArg List.length hdata
  simp only [List.length_replicate] at hlen
  omega

theorem range_filter_single (c a : Nat) (h : a < c) :
    (List.range c).filter (fun i => decide (i = a)) = [a] := by
  induction c with
  | zero => omega
  | succ c ih =>
    rw [List.range_succ, List.filter_append]
    by_cases hc : a < c
    · rw [ih hc]
      have hone : List.filter (fun i => decide (i = a)) [c] = [] := by
        simp only [List.filter_cons, List.filter_nil, decide_eq_true_eq]
        rw [if_neg (by omega)]
      rw [hone]
      simp
    · have hac : a = c := by omega
      subst hac
      have h1 : (List.range a).filter (fun i => decide (i = a)) = [] := by
        rw [List.filter_eq_nil_iff]
        intro x hx
        have := List.mem_range.mp hx
        simp only [decide_eq_true_eq]
        omega
      rw [h1]
      simp

theorem range_filter_pair (c a b : Nat) (hab : a < b) (hbc : b < c) :
    (List.range c).filter (fun i => decide (i = a ∨ i = b)) = [a, b] := by
  induction c with
  | zero => omega
  | succ c ih =>
    rw [List.range_succ, List.filter_append]
    by_cases hc : b < c
    · rw [ih hc]
      have hone : List.filter (fun i => decide (i = a ∨ i = b)) [c] = [] := by
        simp only [List.filter_cons, List.filter_nil, decide_eq_true_eq]
        rw [if_neg (by omega)]
      rw [hone]
      simp
    · have hbceq : b = c := by omega
      subst hbceq
      have h1 : (List.range b).filter (fun i => decide (i = a ∨ i = b))
          = (List.range b).filter (fun i => decide (i = a)) := by
        refine List.filter_congr ?_
        intro x hx
        have hxb := List.mem_range.mp hx
        simp only [decide_eq_decide]
        constructor
        · rintro (h2 | h2)
          · exact h2
          · subst h2
            exact absurd hxb (lt_irrefl x)
        · intro h2
          exact Or.inl h2
      rw [h1, range_filter_single b a hab]
      have hone : List.filter (fun i => decide (i = a ∨ i = b)) [b] = [b] := by
        simp only [List.filter_cons, List.filter_nil, decide_eq_true_eq]
        simp
      rw [hone]
      rfl

theorem filter_of_map {α β : Type} (f : α → β) (p : β → Bool) (l : List α) :
    (l.map f).filter p = (l.filter (fun a => p (f a))).map f := by
  induction l with
  | nil => rfl
  | cons a t ih =>
    by_cases h : p (f a)
    · simp [List.filter_cons, h, ih]
    · simp [List.filter_cons, h, ih]

theorem c2SourceRow_id (u : String) : (c2SourceRow u).id = u := rfl

theorem c2_db_sources :
    dbC2.sources = (List.range 501).map (fun i => c2SourceRow (c2Name i)) := rfl

theorem c2_filter_single (a : Nat) (ha : a < 501) :
    dbC2.sources.filter (fun s => [c2Name a].contains s.id)
      = [c2SourceRow (c2Name a)] := by
  rw [c2_db_sources, filter_of_map]
  have hcong : ∀ i ∈ List.range 501,
      ([c2Name a].contains (c2SourceRow (c2Name i)).id) = decide (i = a) := by
    intro i _
    rw [c2SourceRow_id]
    simp only [List.contains_cons, List.contains_nil, Bool.or_false]
    by_cases h1 : i = a
    · subst h1
      simp
    · have e1 : (c2Name i == c2Name a) = false := by
        simp only [beq_eq_false_iff_ne, ne_eq]
        intro he
        exact h1 (c2Name_inj _ _ he)
      rw [e1]
      simp [h1]
  rw [List.filter_congr hcong, range_filter_single 501 a ha]
  rfl

theorem c2_filter_two (a b : Nat) (hne : a ≠ b) (ha : a < 501) (hb : b < 501) :
    dbC2.sources.filter (fun s => [c2Name a, c2Name b].contains s.id)
      = if a < b then [c2SourceRow (c2Name a), c2SourceRow (c2Name b)]
        else [c2SourceRow (c2Name b), c2SourceRow (c2Name a)] := by
  rw [c2_db_sources, filter_of_map]
  have hcong : ∀ i ∈ List.range 501,
      ([c2Name a, c2Name b].contains (c2SourceRow (c2Name i)).id)
        = decide (i = a ∨ i = b) := by
    intro i _
    rw [c2SourceRow_id]
    simp only [List.contains_cons, List.contains_nil, Bool.or_false]
    by_cases h1 : i = a
    · subst h1
      simp
    · by_cases h2 : i = b
      · subst h2
        simp
      · have e1 : (c2Name i == c2Name a) = false := by
          simp only [beq_eq_false_iff_ne, ne_eq]
          intro he
          exact h1 (c2Name_inj _ _ he)
        have e2 : (c2Name i == c2Name b) = false := by
          simp only [beq_eq_false_iff_ne, ne_eq]
          intro he
          exact h2 (c2Name_inj _ _ he)
        rw [e1, e2]
        simp [h1, h2]
  rw [List.filter_congr hcong]
  by_cases hab : a < b
  · rw [if_pos hab, range_filter_pair 501 a b hab hb]
    rfl
  · rw [if_neg hab]
    have hba : b < a := by omega
    have hcomm : (List.range 501).filter (fun i => decide (i = a ∨ i = b))
        = (List.range 501).filter (fun i => decide (i = b ∨ i = a)) := by
      refine List.filter_congr ?_
      intro x _
      simp only [decide_eq_decide]
      exact or_comm
    rw [hcomm, range_filter_pair 501 b a hba ha]
    rfl

theorem c2_tail_fold :
    ∀ (c j fuel : Nat) (acc : List (String × StructureServiceSource)),
      j + c ≤ 501 → c ≤ fuel →
      (∀ k ∈ dictKeys acc, ∀ i, j ≤ i → k ≠ c2Name i) →
      (batchedChunks 2 ((List.range c).map (fun i => c2Name (j + i))) fuel).foldl
          (fun acc batch =>
            (dbC2.sources.filter (fun s => batch.contains s.id)).foldl
              (fun acc2 s => dictInsert acc2 s.id (StructureServiceSource.from_orm_model s))
              acc)
          acc
        = acc ++ (List.range c).map
            (fun i => (c2Name (j + i),
              StructureServiceSource.from_orm_model (c2SourceRow (c2Name (j + i))))) := by
  intro c
  induction c using Nat.strong_induction_on with
  | _ c ih =>
    match c with
    | 0 =>
      intro j fuel acc hj hf hacc
      simp [batchedChunks]
    | 1 =>
      intro j fuel acc hj hf hacc
      obtain ⟨f, rfl⟩ : ∃ f, fuel = f + 1 := ⟨fuel - 1, by omega⟩
      have hlist : (List.range 1).map (fun i => c2Name (j + i)) = [c2Name j] := by
        rw [show List.range 1 = [0] from rfl]
        simp
      rw [hlist]
      have hchunks : batchedChunks 2 [c2Name j] (f + 1) = [[c2Name j]] := by
        simp [batchedChunks]
      rw [hchunks]
      simp only [List.foldl_cons, List.foldl_nil]
      rw [c2_filter_single j (by omega)]
      simp only [List.foldl_cons, List.foldl_nil]
      rw [c2SourceRow_id]
      rw [dictInsert_of_not_mem_keys acc (c2Name j) _
        (fun hmem => hacc _ hmem j (le_refl j) rfl)]
      rw [show List.range 1 = [0] from rfl]
      simp
    | k + 2 =>
      intro j fuel acc hj hf hacc
      obtain ⟨f, rfl⟩ : ∃ f, fuel = f + 1 := ⟨fuel - 1, by omega⟩
      have hr : List.range (k + 2) = 0 :: 1 :: (List.range k).map (fun i => i + 2) := by
        rw [List.range_succ_eq_map, List.range_succ_eq_map]
        simp [List.map_map]
      have hlist : (List.range (k + 2)).map (fun i => c2Name (j + i))
          = c2Name j :: c2Name (j + 1)
            :: (List.range k).map (fun i => c2Name (j + 2 + i)) := by
        rw [hr]
        simp only [List.map_cons, List.map_map]
        refine congrArg _ ?_
        refine congrArg _ ?_
        refine List.map_congr_left ?_
        intro i _
        simp only [Function.comp]
        rw [show j + (i + 2) = j + 2 + i from by omega]
      have hpairs : (List.range (k + 2)).map
            (fun i => (c2Name (j + i),
              StructureServiceSource.from_orm_model (c2SourceRow (c2Name (j + i)))))
          = (c2Name j, StructureServiceSource.from_orm_model (c2SourceRow (c2Name j)))
            :: (c2Name (j + 1),
                StructureServiceSource.from_orm_model (c2SourceRow (c2Name (j + 1))))
            :: (List.range k).map
              (fun i => (c2Name (j + 2 + i),
                StructureServiceSource.from_orm_model (c2SourceRow (c2Name (j + 2 + i))))) := by
        rw [hr]
        simp only [List.map_cons, List.map_map]
        refine congrArg _ ?_
        refine congrArg _ ?_
        refine List.map_congr_left ?_
        intro i _
        simp only [Function.comp]
        rw [show j + (i + 2) = j + 2 + i from by omega]
      rw [hlist, hpairs]
      have hchunks : batchedChunks 2
          (c2Name j :: c2Name (j + 1)
            :: (List.range k).map (fun i => c2Name (j + 2 + i))) (f + 1)
          = [c2Name j, c2Name (j + 1)]
            :: batchedChunks 2 ((List.range k).map (fun i => c2Name (j + 2 + i))) f := by
        simp [batchedChunks]
      rw [hchunks]
      simp only [List.foldl_cons]
      rw [c2_filter_two j (j + 1) (by omega) (by omega) (by omega), if_pos (by omega)]
      simp only [List.foldl_cons, List.foldl_nil]
      rw [c2SourceRow_id, c2SourceRow_id]
      rw [dictInsert_of_not_mem_keys acc (c2Name j) _
        (fun hmem => hacc _ hmem j (le_refl j) rfl)]
      have hfresh2 : c2Name (j + 1)
          ∉ dictKeys (acc ++ [(c2Name j, StructureServiceSource.from_orm_model
              (c2SourceRow (c2Name j)))]) := by
        intro hmem
        simp only [dictKeys, List.map_append, List.mem_append, List.map_cons, List.map_nil,
          List.mem_singleton] at hmem
        rcases hmem with hm1 | hm2
        · exact hacc _ hm1 (j + 1) (by omega) rfl
        · have := c2Name_inj _ _ hm2
          omega
      rw [dictInsert_of_not_mem_keys _ (c2Name (j + 1)) _ hfresh2]
      rw [ih k (by omega) (j + 2) f _ (by omega) (by omega) ?hfr]
      case hfr =>
        intro k2 hk2 i hi
        simp only [dictKeys, List.map_append, List.mem_append, List.map_cons, List.map_nil,
          List.mem_singleton] at hk2
        rcases hk2 with (hm1a | hm1b) | hm2
        · exact hacc _ hm1a i (by omega)
        · subst hm1b
          intro he
          have := c2Name_inj _ _ he
          omega
        · subst hm2
          intro he
          have := c2Name_inj _ _ he
          omega
      simp [List.append_assoc]

theorem c2_fetch :
    fetch_collection_of_sources_from_db_by_id dbC2.sources c2Refs
      = .ok ((c2Name 0, StructureServiceSource.from_orm_model (c2SourceRow (c2Name 0)))
          :: (c2Name 1, StructureServiceSource.from_orm_model (c2SourceRow (c2Name 1)))
          :: (List.range 499).map
            (fun i => (c2Name (2 + i),
              StructureServiceSource.from_orm_model (c2SourceRow (c2Name (2 + i)))))) := by
  have hm : List.foldl
      (fun acc batch =>
        (dbC2.sources.filter (fun s => batch.contains s.id)).foldl
          (fun acc2 s => dictInsert acc2 s.id (StructureServiceSource.from_orm_model s))
          acc)
      [] (batchedChunks ((c2Refs.length + 499) / 500) c2Refs c2Refs.length)
      = (c2Name 0, StructureServiceSource.from_orm_model (c2SourceRow (c2Name 0)))
          :: (c2Name 1, StructureServiceSource.from_orm_model (c2SourceRow (c2Name 1)))
          :: (List.range 499).map
            (fun i => (c2Name (2 + i),
              StructureServiceSource.from_orm_model (c2SourceRow (c2Name (2 + i))))) := by
    have hlen : c2Refs.length = 501 := by
      simp [c2Refs, c2Tail]
    rw [hlen]
    have hn : (501 + 499) / 500 = 2 := by norm_num
    rw [hn]
    have hchunks : batchedChunks 2 c2Refs 501
        = [c2Name 1, c2Name 0] :: batchedChunks 2 c2Tail 500 := rfl
    rw [hchunks]
    rw [List.foldl_cons]
    rw [c2_filter_two 1 0 (by omega) (by omega) (by omega), if_neg (by omega)]
    rw [List.foldl_cons, List.foldl_cons, List.foldl_nil]
    rw [c2SourceRow_id, c2SourceRow_id]
    have hins0 : dictInsert [] (c2Name 0)
        (StructureServiceSource.from_orm_model (c2SourceRow (c2Name 0)))
        = [(c2Name 0, StructureServiceSource.from_orm_model (c2SourceRow (c2Name 0)))] := rfl
    rw [hins0]
    have hfresh1 : c2Name 1 ∉ dictKeys
        [(c2Name 0, StructureServiceSource.from_orm_model (c2SourceRow (c2Name 0)))] := by
      intro hmem
      simp only [dictKeys, List.map_cons, List.map_nil, List.mem_singleton] at hmem
      have := c2Name_inj _ _ hmem
      omega
    rw [dictInsert_of_not_mem_keys _ (c2Name 1) _ hfresh1]
    have htail := c2_tail_fold 499 2 500
      ([(c2Name 0, StructureServiceSource.from_orm_model (c2SourceRow (c2Name 0)))]
        ++ [(c2Name 1, StructureServiceSource.from_orm_model (c2SourceRow (c2Name 1)))])
      (by omega) (by omega) ?hfr
    case hfr =>
      intro k2 hk2 i hi
      simp only [dictKeys, List.map_append, List.map_cons, List.map_nil, List.mem_append,
        List.mem_singleton] at hk2
      rcases hk2 with hm0 | hm1
      · subst hm0
        intro he
        have := c2Name_inj _ _ he
        omega
      · subst hm1
        intro he
        have := c2Name_inj _ _ he
        omega
    have htail2 : c2Tail = (List.range 499).map (fun i => c2Name (2 + i)) := rfl
    rw [htail2, htail]
    simp
  unfold fetch_collection_of_sources_from_db_by_id
  rw [if_neg (by rw [show c2Refs.isEmpty = false from rfl]; exact Bool.false_ne_true)]
  show (if (List.foldl
        (fun acc batch =>
          (dbC2.sources.filter (fun s => batch.contains s.id)).foldl
            (fun acc2 s => dictInsert acc2 s.id (StructureServiceSource.from_orm_model s))
            acc)
        [] (batchedChunks ((c2Refs.length + 499) / 500) c2Refs c2Refs.length)).isEmpty = true
      then Except.error (DBErr.notFound "No StructureServiceSources found for IDs")
      else Except.ok (List.foldl
        (fun acc batch =>
          (dbC2.sources.filter (fun s => batch.contains s.id)).foldl
            (fun acc2 s => dictInsert acc2 s.id (StructureServiceSource.from_orm_model s))
            acc)
        [] (batchedChunks ((c2Refs.length + 499) / 500) c2Refs c2Refs.length)))
    = _
  rw [hm]
  rw [if_neg (by simp)]

theorem c2Dict_cons :
    c2Dict = (c2Name 0, StructureServiceSource.from_orm_model (c2SourceRow (c2Name 0)))
      :: (c2Name 1, StructureServiceSource.from_orm_model (c2SourceRow (c2Name 1)))
      :: (List.range 499).map
        (fun i => (c2Name (2 + i),
          StructureServiceSource.from_orm_model (c2SourceRow (c2Name (2 + i))))) := by
  unfold c2Dict
  have hr : List.range 501 = 0 :: 1 :: (List.range 499).map (fun i => i + 2) := by
    rw [show (501 : Nat) = 499 + 1 + 1 from rfl]
    rw [List.range_succ_eq_map, List.range_succ_eq_map]
    simp [List.map_map]
  rw [hr]
  simp only [List.map_cons, List.map_map]
  refine congrArg _ ?_
  refine congrArg _ ?_
  refine List.map_congr_left ?_
  intro i _
  simp only [Function.comp]
  rw [show i + 2 = 2 + i from by omega]

theorem c2Vals_head :
    c2Vals = StructureServiceSource.from_orm_model (c2SourceRow (c2Name 0))
      :: (List.range 500).map
        (fun i => StructureServiceSource.from_orm_model (c2SourceRow (c2Name (1 + i)))) := by
  unfold c2Vals
  have hr : List.range 501 = 0 :: (List.range 500).map (fun i => i + 1) := by
    rw [show (501 : Nat) = 500 + 1 from rfl]
    rw [List.range_succ_eq_map]
  rw [hr]
  simp only [List.map_cons, List.map_map]
  refine congrArg _ ?_
  refine List.map_congr_left ?_
  intro i _
  simp only [Function.comp]
  rw [show i + 1 = 1 + i from by omega]

theorem c2_fetch_dict :
    fetch_collection_of_sources_from_db_by_id dbC2.sources c2Refs = .ok c2Dict := by
  rw [c2_fetch, c2Dict_cons]

theorem c2_dictValues : dictValues c2Dict = c2Vals := by
  unfold c2Dict c2Vals dictValues
  rw [List.map_map]
  refine List.map_congr_left ?_
  intro i _
  rfl

theorem c2Vals_length : c2Vals.length = 501 := by
  unfold c2Vals
  simp

theorem c2_enum :
    get_enumerated_ids_of_vst_sources_or_sinks demoC2BigWW.input_wirings
      = (List.range 501, c2Refs) := by
  rw [get_enumerated_eq]
  have hfil : demoC2BigWW.input_wirings.enum.filter
      (fun iw => iw.2.adapter_id = "virtual-structure-adapter")
      = demoC2BigWW.input_wirings.enum := by
    rw [List.filter_eq_self]
    intro iw hiw
    obtain ⟨i, w⟩ := iw
    have hget := List.mem_enum_iff_getElem?.mp hiw
    have hmem : w ∈ demoC2BigWW.input_wirings := List.mem_iff_getElem?.mpr ⟨i, hget⟩
    have hmem2 : w ∈ c2Refs.map c2Wiring := hmem
    obtain ⟨u, _, rfl⟩ := List.mem_map.mp hmem2
    simp [c2Wiring]
  rw [hfil]
  have hlen : demoC2BigWW.input_wirings.length = 501 := by
    show (c2Refs.map c2Wiring).length = 501
    simp [c2Refs, c2Tail]
  refine Prod.ext ?_ ?_
  · show demoC2BigWW.input_wirings.enum.map Prod.fst = List.range 501
    rw [List.enum_map_fst, hlen]
  · show demoC2BigWW.input_wirings.enum.map (fun iw => iw.2.ref_id) = c2Refs
    have hcomp : (fun (iw : Nat × Wiring) => iw.2.ref_id)
        = (fun (w : Wiring) => w.ref_id) ∘ Prod.snd := rfl
    rw [hcomp, ← List.map_map, List.enum_map_snd]
    show (c2Refs.map c2Wiring).map (fun w => w.ref_id) = c2Refs
    rw [List.map_map]
    calc c2Refs.map ((fun (w : Wiring) => w.ref_id) ∘ c2Wiring)
        = c2Refs.map id := List.map_congr_left (fun u _ => rfl)
      _ = c2Refs := List.map_id c2Refs

theorem c2_enum_out :
    get_enumerated_ids_of_vst_sources_or_sinks demoC2BigWW.output_wirings = ([], []) := rfl

theorem resolve_eval_shape (db : DBState) (ww : WorkflowWiring)
    (idx : List Nat) (r1 : String) (rrest : List String)
    (hin : get_enumerated_ids_of_vst_sources_or_sinks ww.input_wirings = (idx, r1 :: rrest))
    (hout : get_enumerated_ids_of_vst_sources_or_sinks ww.output_wirings = ([], []))
    (m : List (String × StructureServiceSource))
    (hfetch : fetch_collection_of_sources_from_db_by_id db.sources (r1 :: rrest) = .ok m)
    (hsinks : fetch_collection_of_sinks_from_db_by_id db.sinks [] = .ok [])
    (pairs : List (Nat × StructureServiceSource))
    (hzip : zipStrict idx (dictValues m) = some pairs) :
    resolve_virtual_structure_wirings db ww
      = .ok { input_wirings := (pairs.foldl
              (fun ws p => modifyAt (fun w => update_wirings w (.src p.2)) ws p.1)
              ww.input_wirings)
              output_wirings := ww.output_wirings } := by
  unfold resolve_virtual_structure_wirings
  rw [hin, hout]
  simp only []
  rw [if_neg (fun hcon => absurd hcon.1 (by simp))]
  rw [hfetch]
  simp only []
  rw [hsinks]
  simp only []
  rw [hzip]
  simp only []
  rw [show zipStrict ([] : List Nat)
    (dictValues ([] : List (String × StructureServiceSink))) = some [] from rfl]
  simp only []
  rfl

theorem c2_resolve_eval :
    (resolve_virtual_structure_wirings dbC2 demoC2BigWW).toOption.map
        (fun ww => ww.input_wirings[0]?.map (fun w => w.filters))
      = some (some [("origin", c2Name 0)]) := by
  have hrange : List.range 501 = 0 :: (List.range 500).map (fun i => i + 1) := by
    rw [show (501 : Nat) = 500 + 1 from rfl]
    rw [List.range_succ_eq_map]
  have hzip_in : zipStrict (List.range 501) (dictValues c2Dict)
      = some ((List.range 501).zip c2Vals) := by
    rw [c2_dictValues]
    exact zipStrict_eq_some_zip _ _ (by rw [c2Vals_length]; simp)
  have hfind : ((List.range 501).zip c2Vals).find? (fun p => p.1 = 0)
      = some (0, StructureServiceSource.from_orm_model (c2SourceRow (c2Name 0))) := by
    rw [hrange, c2Vals_head, List.zip_cons_cons]
    rw [List.find?_cons_of_pos _ (by simp)]
  have hnd : (((List.range 501).zip c2Vals).map Prod.fst).Nodup := by
    rw [List.map_fst_zip _ _ (by rw [c2Vals_length]; simp)]
    exact List.nodup_range 501
  have hw0 : demoC2BigWW.input_wirings[0]? = some (c2Wiring (c2Name 1)) := rfl
  have hfold0 := foldl_modifyAt_getElem?
    (fun s (w : Wiring) => update_wirings w (SourceOrSink.src s))
    ((List.range 501).zip c2Vals) demoC2BigWW.input_wirings hnd 0
  rw [hfind] at hfold0
  simp only [] at hfold0
  rw [hw0] at hfold0
  simp only [Option.map] at hfold0
  rw [resolve_eval_shape dbC2 demoC2BigWW (List.range 501) (c2Name 1) (c2Name 0 :: c2Tail)
    c2_enum c2_enum_out c2Dict c2_fetch_dict rfl ((List.range 501).zip c2Vals) hzip_in]
  simp only [Except.toOption, Option.map]
  rw [hfold0]
  rfl

/-- C2: counterexample to the unqualified merge claim.  With 501
distinct, all-stored virtual-structure references the code's
`batched(src_ids, ceil(len/500))` produces batches of size 2, whose
`IN`-list query returns rows in database order; resolution still
succeeds, but the wiring at index 0 — which references the stored
entry `c2Name 1` whose presets are `origin = c2Name 1` — ends up with
the presets of the database-earlier entry `c2Name 0` instead, so its
final filters are not `wiring.filters | preset_filters` of the entry it
references. -/
theorem resolver_filter_merge_batching_counterexample :
    500 < demoC2BigWW.input_wirings.length
      ∧ (demoC2BigWW.input_wirings[0]?).map (fun w => (w.adapter_id, w.ref_id, w.filters))
          = some ("virtual-structure-adapter", c2Name 1, [])
      ∧ (dbC2.sources.find? (fun s => s.id = c2Name 1)).map (fun s => s.preset_filters)
          = some [("origin", c2Name 1)]
      ∧ (resolve_virtual_structure_wirings dbC2 demoC2BigWW).toOption.map
          (fun ww => ww.input_wirings[0]?.map (fun w => w.filters))
        = some (some [("origin", c2Name 0)])
      ∧ [("origin", c2Name 0)]
          ≠ dictUnion ([] : List (String × String)) [("origin", c2Name 1)] := by
  refine ⟨?_, ?_, ?_, c2_resolve_eval, ?_⟩
  · show 500 < (c2Refs.map c2Wiring).length
    simp [c2Refs, c2Tail]
  · rfl
  · rfl
  · decide

/-! ## C10: adapter frontend DTO identity -/

/-- C10: every Source or Sink DTO built by the adapter frontend sets
`thingNodeId` to the entity's own internal UUID (equal to the DTO `id`),
never to an associated thing node's UUID. -/
theorem vst_dto_thingNodeId_is_own_id (source : StructureServiceSource)
    (sink : StructureServiceSink) :
    (VirtualStructureAdapterSource.from_structure_service_source source).thingNodeId
        = source.id
      ∧ (VirtualStructureAdapterSource.from_structure_service_source source).id = source.id
      ∧ (VirtualStructureAdapterSink.from_structure_service_sink sink).thingNodeId = sink.id
      ∧ (VirtualStructureAdapterSink.from_structure_service_sink sink).id = sink.id :=
  ⟨rfl, rfl, rfl, rfl⟩

/-! ## C8: maintenance endpoint authorization -/

/-- C8: the maintenance endpoint answers 403 exactly when the presented
maintenance secret is not byte-equal to the configured one, and on that
authorization failure it invokes neither `delete_structure` nor
`update_structure` and leaves the database untouched.  (The
constant-time property of `secrets.compare_digest` is not observable in
this embedding.) -/
theorem update_structure_endpoint_auth (configured presented : String)
    (new_structure : CompleteStructure) (delete_existing_structure : Bool) (db : DBState) :
    ((update_structure_endpoint configured presented new_structure
        delete_existing_structure db).status = 403 ↔ presented ≠ configured)
      ∧ (presented ≠ configured →
          (update_structure_endpoint configured presented new_structure
              delete_existing_structure db).db = db
            ∧ (update_structure_endpoint configured presented new_structure
                delete_existing_structure db).calls = []) := by
  by_cases h : presented = configured
  · subst h
    simp [update_structure_endpoint, compare_digest]
  · have hcd : compare_digest presented configured = false := by
      simp [compare_digest, h]
    constructor
    · simp [update_structure_endpoint, hcd, h]
    · intro _
      simp [update_structure_endpoint, hcd]

theorem update_structure_endpoint_auth_witness :
    ("wrong" : String) ≠ "secret"
      ∧ (update_structure_endpoint "secret" "wrong" demoC1CS true demoC1DB).status = 403
      ∧ (update_structure_endpoint "secret" "wrong" demoC1CS true demoC1DB).db = demoC1DB
      ∧ (update_structure_endpoint "secret" "wrong" demoC1CS true demoC1DB).calls = [] :=
  ⟨by decide, by
    have h := update_structure_endpoint_auth "secret" "wrong" demoC1CS true demoC1DB
    exact ⟨h.1.mpr (by decide), (h.2 (by decide)).1, (h.2 (by decide)).2⟩⟩

end Hetdes
